import Mathlib

/-!
Verification of oluora-community: vote aggregation, update sync (one cycle and two
overlapping cycles), role-gated mutation, registration, login and token check, validation
of dates, pagination and error translation

A shallow embedding of the controllers and the update-sync service of the
repository, with the properties of the specification stated over it.

Conventions of the embedding:

* a table of the relational store is a `List` of rows; `findUnique` is
  `List.find?` on the unique key, `update` rewrites the rows with that key,
  `delete` / `deleteMany` filter rows out, `create` appends a row;
* a handler `async (req, res, next)` becomes a function from the store and the
  request to the store afterwards and an `Outcome`: either the JSON reply sent
  with `res.status(..).json(..)` or the error handed to `next(error)`;
* JavaScript truthiness of an optional string field (`if (title)`) is
  `truthy`: present and non-empty;
* `parseInt(req.params.id)` is taken at its result: `none` stands for `NaN`,
  which the persistence client rejects with an exception, as it does an id that is no
  value of the 32-bit id column;
* instants (`Date`) are integers (milliseconds since the epoch); a date given as text is
  taken with the verdict of `isISO8601()` on it and with what `new Date` reads from it,
  which is an invalid date for some texts the ISO 8601 check accepts (week dates);
* string columns are kept as the strings the code compares (`'UPVOTE'`, `'ADMIN'`);
  requests reach a controller after the route's validation chain.
-/

deriving instance DecidableEq for Except

namespace Oluora

/-! ## HTTP envelope -/

/-- The JSON envelope `{status, message?, data?}` together with the HTTP status code. -/
structure Reply (δ : Type) where
  code : Nat
  status : String
  message : Option String
  data : Option δ
deriving DecidableEq, Repr

/-- What a handler does with a request: it answers, or it calls `next(error)`. -/
inductive Outcome (δ : Type) where
  | json (reply : Reply δ)
  | forwarded (error : String)
deriving DecidableEq, Repr

/-- JavaScript truthiness of an optional string: defined and not the empty string. -/
def truthy : Option String → Bool
  | some s => s != ""
  | none => false

/-! ## Records -/

/-- The user `authenticate` attaches to the request (`req.user`). -/
structure User where
  id : Int
  email : String
  username : String
  role : String
deriving DecidableEq, Repr

/-- A project row (the columns the controllers read or write). -/
structure Project where
  id : Int
  title : String
  description : String
  status : String
  proposer_id : Int
deriving DecidableEq, Repr

/-- A vote row; `(user_id, project_id)` is the compound unique key `user_id_project_id`. -/
structure Vote where
  user_id : Int
  project_id : Int
  vote_type : String
deriving DecidableEq, Repr

/-- A townhall row (the columns the controllers read or write). -/
structure Townhall where
  id : Int
  title : String
  description : String
  scheduled_at : Int
  zoom_link : Option String
  status : String
  organizer_id : Int
deriving DecidableEq, Repr

/-- The tables the project and townhall controllers work on. -/
structure Db where
  projects : List Project
  votes : List Vote
  townhalls : List Townhall
deriving DecidableEq, Repr

/-- A date given as text (`scheduled_at` of a body, `from_date` and `to_date` of a query) as
the validation chain and the controllers see it: the raw text, the verdict of `isISO8601()`
on it, and what `new Date(value)` reads (`none` for an invalid date). -/
structure DateField where
  value : String
  isISO8601 : Bool
  date : Option Int
deriving DecidableEq, Repr

/-- The request as the controllers see it. `params_id` is `parseInt(req.params.id)`;
body fields that are absent are `none`. -/
structure Request where
  user : Option User
  params_id : Option Int
  title : Option String := none
  description : Option String := none
  status : Option String := none
  vote_type : Option String := none
  scheduled_at : Option DateField := none
  zoom_link : Option String := none
deriving DecidableEq, Repr

/-! ## Vote aggregation (projectController.js) -/

/-- The `vote_counts` object of a response. -/
structure VoteCounts where
  upvotes : Nat
  downvotes : Nat
  total : Nat
deriving DecidableEq, Repr

/-- The id columns are `Int` columns of the schema, which the persistence client holds in
32 bits, signed: `fitsInt n` says that `n` is a value of such a column. -/
def fitsInt (n : Int) : Bool :=
  decide (-2147483648 ≤ n) && decide (n ≤ 2147483647)

/-- `prisma.project.findUnique({ where: { id } })`: the row of that id, if any; an id that
is no value of the id column is refused with an exception. -/
def findProject (db : Db) (id : Int) : Except String (Option Project) :=
  if fitsInt id then .ok (db.projects.find? (fun p => p.id == id))
  else .error "PrismaClientValidationError"

/-- The `votes` relation included with a project: the vote rows that reference it. -/
def projectVotes (db : Db) (id : Int) : List Vote :=
  db.votes.filter (fun v => v.project_id == id)

/-- Payload of `getProjectVotes`. -/
structure ProjectVotesData where
  project_id : Int
  vote_counts : VoteCounts
  votes : List Vote
deriving DecidableEq, Repr

/-- Lines 355-368 of `getProjectVotes`: the tally over the included votes. -/
def getProjectVotesData (id : Int) (votes : List Vote) : ProjectVotesData :=
  let upvotes := (votes.filter (fun vote => vote.vote_type == "UPVOTE")).length
  let downvotes := (votes.filter (fun vote => vote.vote_type == "DOWNVOTE")).length
  { project_id := id
    vote_counts := { upvotes := upvotes, downvotes := downvotes, total := upvotes + downvotes }
    votes := votes }

/-- The handler `getProjectVotes`. -/
def getProjectVotes (db : Db) (req : Request) : Outcome ProjectVotesData :=
  match req.params_id with
  | none => .forwarded "PrismaClientValidationError"
  | some id =>
    match findProject db id with
    | .error e => .forwarded e
    | .ok none => .json { code := 404, status := "error", message := some "Project not found", data := none }
    | .ok (some _) =>
      .json { code := 200, status := "success", message := none,
              data := some (getProjectVotesData id (projectVotes db id)) }

/-- Payload of `getProject` and element of the payload of `getProjects`:
the project spread together with its `vote_counts`. -/
structure ProjectWithVotes where
  project : Project
  votes : Option (List Vote)
  vote_counts : VoteCounts
deriving DecidableEq, Repr

/-- Lines 145-155 of `getProject`: `{...project, vote_counts}`. -/
def getProjectData (project : Project) (votes : List Vote) : ProjectWithVotes :=
  let upvotes := (votes.filter (fun vote => vote.vote_type == "UPVOTE")).length
  let downvotes := (votes.filter (fun vote => vote.vote_type == "DOWNVOTE")).length
  { project := project
    votes := some votes
    vote_counts := { upvotes := upvotes, downvotes := downvotes, total := upvotes + downvotes } }

/-- The handler `getProject`. -/
def getProject (db : Db) (req : Request) : Outcome ProjectWithVotes :=
  match req.params_id with
  | none => .forwarded "PrismaClientValidationError"
  | some id =>
    match findProject db id with
    | .error e => .forwarded e
    | .ok none => .json { code := 404, status := "error", message := some "Project not found", data := none }
    | .ok (some project) =>
      .json { code := 200, status := "success", message := none,
              data := some (getProjectData project (projectVotes db id)) }

/-- Lines 80-93 of `getProjects`: every fetched project gets its `vote_counts`
and its `votes` array is removed (`votes: undefined`). -/
def projectsWithVotes (projects : List (Project × List Vote)) : List ProjectWithVotes :=
  projects.map (fun project =>
    let upvotes := (project.2.filter (fun vote => vote.vote_type == "UPVOTE")).length
    let downvotes := (project.2.filter (fun vote => vote.vote_type == "DOWNVOTE")).length
    { project := project.1
      votes := none
      vote_counts := { upvotes := upvotes, downvotes := downvotes, total := upvotes + downvotes } })

/-! ## Voting (projectController.js, `voteOnProject`) -/

/-- `prisma.vote.findUnique({ where: { user_id_project_id: { user_id, project_id } } })`. -/
def findVote (db : Db) (user_id project_id : Int) : Option Vote :=
  db.votes.find? (fun v => v.user_id == user_id && v.project_id == project_id)

/-- `prisma.vote.update({ where: { user_id_project_id }, data: { vote_type } })`:
the row with that key gets the new type (an `undefined` value in `data` leaves the column). -/
def updateVote (db : Db) (user_id project_id : Int) (vote_type : Option String) : Db :=
  { db with votes := db.votes.map (fun v =>
      if v.user_id == user_id && v.project_id == project_id
      then { v with vote_type := vote_type.getD v.vote_type } else v) }

/-- `prisma.vote.create({ data })`: the unique key `user_id_project_id` rejects a
second row for the pair (error code P2002), otherwise the row is appended. -/
def createVote (db : Db) (vote : Vote) : Except String Db :=
  if (findVote db vote.user_id vote.project_id).isSome then .error "P2002"
  else .ok { db with votes := db.votes ++ [vote] }

/-- The handler `voteOnProject`. -/
def voteOnProject (db : Db) (req : Request) : Db × Outcome Vote :=
  match req.params_id with
  | none => (db, .forwarded "PrismaClientValidationError")
  | some id =>
    match findProject db id with
    | .error e => (db, .forwarded e)
    | .ok none => (db, .json { code := 404, status := "error", message := some "Project not found", data := none })
    | .ok (some _) =>
      match req.user with
      | none => (db, .forwarded "TypeError")
      | some user =>
        -- Check if user already voted
        match findVote db user.id id with
        | some existingVote =>
          (updateVote db user.id id req.vote_type,
           .json { code := 200, status := "success", message := some "Vote updated successfully",
                   data := some { existingVote with
                                  vote_type := req.vote_type.getD existingVote.vote_type } })
        | none =>
          match req.vote_type with
          | none =>
            -- `vote_type` is a required column: `create` without it is refused
            (db, .forwarded "PrismaClientValidationError")
          | some vote_type =>
            let vote : Vote := { user_id := user.id, project_id := id, vote_type := vote_type }
            match createVote db vote with
            | .error e => (db, .forwarded e)
            | .ok db' =>
              (db', .json { code := 201, status := "success", message := some "Vote created successfully",
                            data := some vote })

/-! ## Role-gated mutation (projectController.js, townhallController.js) -/

/-- The `updateData` object of `updateProject`: only the keys that were set. -/
structure ProjectUpdateData where
  title : Option String := none
  description : Option String := none
  status : Option String := none
deriving DecidableEq, Repr

/-- A row after `update({ data })`: a key that is set overwrites the column. -/
def ProjectUpdateData.applyTo (data : ProjectUpdateData) (p : Project) : Project :=
  { p with
    title := data.title.getD p.title
    description := data.description.getD p.description
    status := data.status.getD p.status }

/-- `prisma.project.update({ where: { id }, data })`. -/
def updateProjectRow (db : Db) (id : Int) (data : ProjectUpdateData) : Db :=
  { db with projects := db.projects.map (fun p => if p.id == id then data.applyTo p else p) }

/-- The handler `updateProject`. -/
def updateProject (db : Db) (req : Request) : Db × Outcome Project :=
  match req.params_id with
  | none => (db, .forwarded "PrismaClientValidationError")
  | some id =>
    match findProject db id with
    | .error e => (db, .forwarded e)
    | .ok none => (db, .json { code := 404, status := "error", message := some "Project not found", data := none })
    | .ok (some project) =>
      match req.user with
      | none => (db, .forwarded "TypeError")
      | some user =>
        -- Check if user is the proposer or admin
        if project.proposer_id != user.id && user.role != "ADMIN" then
          (db, .json { code := 403, status := "error", message := some "Insufficient permissions", data := none })
        else
          let updateData : ProjectUpdateData :=
            { title := if truthy req.title then req.title else none
              description := if truthy req.description then req.description else none
              status := if truthy req.status && user.role == "ADMIN" then req.status else none }
          (updateProjectRow db id updateData,
           .json { code := 200, status := "success", message := some "Project updated successfully",
                   data := some (updateData.applyTo project) })

/-- The handler `deleteProject`. What the store does with the votes of a deleted
project is fixed by the schema's referential action, which the controller does not
choose: `onDelete` gives the vote table after the project `id` is deleted, or the
error of a refused delete. -/
def deleteProject (onDelete : Int → List Vote → Except String (List Vote))
    (db : Db) (req : Request) : Db × Outcome Unit :=
  match req.params_id with
  | none => (db, .forwarded "PrismaClientValidationError")
  | some id =>
    match findProject db id with
    | .error e => (db, .forwarded e)
    | .ok none => (db, .json { code := 404, status := "error", message := some "Project not found", data := none })
    | .ok (some project) =>
      match req.user with
      | none => (db, .forwarded "TypeError")
      | some user =>
        -- Check if user is the proposer or admin
        if project.proposer_id != user.id && user.role != "ADMIN" then
          (db, .json { code := 403, status := "error", message := some "Insufficient permissions", data := none })
        else
          match onDelete id db.votes with
          | .error e => (db, .forwarded e)
          | .ok votes =>
            ({ db with projects := db.projects.filter (fun p => !(p.id == id)), votes := votes },
             .json { code := 200, status := "success", message := some "Project deleted successfully",
                     data := none })

/-- Referential action `Cascade`: the votes of the project go with it. -/
def cascadeVotes (id : Int) (votes : List Vote) : Except String (List Vote) :=
  .ok (votes.filter (fun v => !(v.project_id == id)))

/-- `prisma.townhall.findUnique({ where: { id } })`: the row of that id, if any; an id that
is no value of the id column is refused with an exception. -/
def findTownhall (db : Db) (id : Int) : Except String (Option Townhall) :=
  if fitsInt id then .ok (db.townhalls.find? (fun t => t.id == id))
  else .error "PrismaClientValidationError"

/-- The `updateData` object of `updateTownhall`: only the keys that were set. The key
`scheduled_at` holds a `Date`, which may be an invalid date (`some none`). -/
structure TownhallUpdateData where
  title : Option String := none
  description : Option String := none
  scheduled_at : Option (Option Int) := none
  zoom_link : Option String := none
  status : Option String := none
deriving DecidableEq, Repr

/-- A row after `update({ data })`: a key that is set overwrites the column. -/
def TownhallUpdateData.applyTo (data : TownhallUpdateData) (t : Townhall) : Townhall :=
  { t with
    title := data.title.getD t.title
    description := data.description.getD t.description
    scheduled_at := match data.scheduled_at with
      | some (some d) => d
      | _ => t.scheduled_at
    zoom_link := match data.zoom_link with
      | some z => some z
      | none => t.zoom_link
    status := data.status.getD t.status }

/-- The townhall table with the rows of id `id` rewritten by `data`. -/
def rewriteTownhalls (db : Db) (id : Int) (data : TownhallUpdateData) : Db :=
  { db with townhalls := db.townhalls.map (fun t => if t.id == id then data.applyTo t else t) }

/-- `prisma.townhall.update({ where: { id }, data })`: an invalid date in `data` is refused
with an exception and nothing is written. -/
def updateTownhallRow (db : Db) (id : Int) (data : TownhallUpdateData) : Except String Db :=
  if data.scheduled_at == some none then .error "PrismaClientValidationError"
  else .ok (rewriteTownhalls db id data)

/-- Line 160 of `updateTownhall`, `if (scheduled_at) updateData.scheduled_at = new Date(scheduled_at)`:
the key is set for a non-empty value, to what `new Date` reads from it. -/
def scheduledAtDate (scheduled_at : Option DateField) : Option (Option Int) :=
  match scheduled_at with
  | some f => if truthy (some f.value) then some f.date else none
  | none => none

/-- The handler `updateTownhall`. -/
def updateTownhall (db : Db) (req : Request) : Db × Outcome Townhall :=
  match req.params_id with
  | none => (db, .forwarded "PrismaClientValidationError")
  | some id =>
    match findTownhall db id with
    | .error e => (db, .forwarded e)
    | .ok none => (db, .json { code := 404, status := "error", message := some "Townhall not found", data := none })
    | .ok (some townhall) =>
      match req.user with
      | none => (db, .forwarded "TypeError")
      | some user =>
        -- Check if user is the organizer or admin
        if townhall.organizer_id != user.id && user.role != "ADMIN" then
          (db, .json { code := 403, status := "error", message := some "Insufficient permissions", data := none })
        else
          let updateData : TownhallUpdateData :=
            { title := if truthy req.title then req.title else none
              description := if truthy req.description then req.description else none
              scheduled_at := scheduledAtDate req.scheduled_at
              zoom_link := if truthy req.zoom_link then req.zoom_link else none
              status := if truthy req.status && user.role == "ADMIN" then req.status else none }
          match updateTownhallRow db id updateData with
          | .error e => (db, .forwarded e)
          | .ok db' =>
            (db', .json { code := 200, status := "success", message := some "Townhall updated successfully",
                          data := some (updateData.applyTo townhall) })

/-- The handler `deleteTownhall`. -/
def deleteTownhall (db : Db) (req : Request) : Db × Outcome Unit :=
  match req.params_id with
  | none => (db, .forwarded "PrismaClientValidationError")
  | some id =>
    match findTownhall db id with
    | .error e => (db, .forwarded e)
    | .ok none => (db, .json { code := 404, status := "error", message := some "Townhall not found", data := none })
    | .ok (some townhall) =>
      match req.user with
      | none => (db, .forwarded "TypeError")
      | some user =>
        -- Check if user is the organizer or admin
        if townhall.organizer_id != user.id && user.role != "ADMIN" then
          (db, .json { code := 403, status := "error", message := some "Insufficient permissions", data := none })
        else
          ({ db with townhalls := db.townhalls.filter (fun t => !(t.id == id)) },
           .json { code := 200, status := "success", message := some "Townhall deleted successfully",
                   data := none })

/-! ## Update-sync service (xUpdateService.js) -/

/-- A row of the mirrored-post table `xUpdate`; `id` is the primary key and
`post_id` the unique external id. -/
structure XUpdate where
  id : Int
  post_id : String
  content : String
  author : String
  posted_at : Int
  fetched_at : Int
deriving DecidableEq, Repr

/-- An item of the fetched batch, as `fetchFromXAPI` returns it. -/
structure XPost where
  post_id : String
  content : String
  author : String
  posted_at : Int
deriving DecidableEq, Repr

/-- The mirrored-post table with the next value of its `id` sequence. -/
structure XStore where
  rows : List XUpdate
  nextId : Int
deriving DecidableEq, Repr

/-- A tweet of the search response; `created_at` is the instant `new Date(..)` reads from it. -/
structure Tweet where
  id : String
  text : String
  author_id : String
  created_at : Int
deriving DecidableEq, Repr

/-- An entry of `includes.users` of the search response. -/
structure XUser where
  id : String
  username : String
deriving DecidableEq, Repr

/-- The body of the search response (`response.data`): both keys may be missing. -/
structure XResponse where
  users : Option (List XUser)
  data : Option (List Tweet)
deriving DecidableEq, Repr

/-- The `userMap` built by `users.reduce`: a later entry for an id replaces an earlier one. -/
def userMap (users : List XUser) : String → Option String :=
  users.foldl (fun map user => fun k => if k == user.id then some user.username else map k)
    (fun _ => none)

/-- `fetchFromXAPI`: the request either throws (`.error`) or yields a response body;
a thrown error is logged and the empty batch is returned. -/
def fetchFromXAPI (response : Except String XResponse) : List XPost :=
  match response with
  | .error _ => []
  | .ok body =>
    let users := body.users.getD []
    let map := userMap users
    match body.data with
    | none => []
    | some tweets =>
      tweets.map (fun tweet =>
        { post_id := tweet.id
          content := tweet.text
          author := if truthy (map tweet.author_id) then (map tweet.author_id).getD "Unknown" else "Unknown"
          posted_at := tweet.created_at })

/-- What the outside world decides while one batch item is processed: whether the
existence check throws, whether the insert throws, and what `new Date()` reads. -/
structure ItemEnv where
  findFails : Bool
  createFails : Bool
  now : Int
deriving DecidableEq, Repr

/-- What the outside world decides during one sync cycle. `item k` is the
environment of the `k`-th batch item; `orderBy` is the order in which the store
returns rows for `orderBy: { posted_at: 'desc' }` (ties are the store's choice). -/
structure SyncEnv where
  response : Except String XResponse
  item : Nat → ItemEnv
  findManyFails : Bool
  deleteManyFails : Bool
  orderBy : List XUpdate → List XUpdate

/-- `prisma.xUpdate.findUnique({ where: { post_id } })`. -/
def findByPostId (s : XStore) (post_id : String) : Option XUpdate :=
  s.rows.find? (fun r => r.post_id == post_id)

/-- `prisma.xUpdate.create({ data })`: throws when the environment says so or when the
unique key `post_id` is taken (P2002); otherwise appends the row under a fresh `id`. -/
def createXUpdate (s : XStore) (e : ItemEnv) (update : XPost) : Except String (XStore × XUpdate) :=
  if e.createFails then .error "create failed"
  else if (findByPostId s update.post_id).isSome then .error "P2002"
  else
    let saved : XUpdate :=
      { id := s.nextId
        post_id := update.post_id
        content := update.content
        author := update.author
        posted_at := update.posted_at
        fetched_at := e.now }
    .ok ({ rows := s.rows ++ [saved], nextId := s.nextId + 1 }, saved)

/-- Lines 46-68 of `fetchAndStoreUpdates`: the insertion pass. An exception of the
existence check or of the insert is caught per item and the loop goes on. -/
def storeUpdates (item : Nat → ItemEnv) : List XPost → XStore → List XUpdate → XStore × List XUpdate
  | [], s, newUpdates => (s, newUpdates)
  | update :: rest, s, newUpdates =>
    let later := fun k => item (k + 1)
    if (item 0).findFails then storeUpdates later rest s newUpdates
    else
      match findByPostId s update.post_id with
      | some _ => storeUpdates later rest s newUpdates
      | none =>
        match createXUpdate s (item 0) update with
        | .error _ => storeUpdates later rest s newUpdates
        | .ok (s', savedUpdate) => storeUpdates later rest s' (newUpdates ++ [savedUpdate])

/-- The retention count of the clean-up (`skip: 1000`). -/
def retention : Nat := 1000

/-- The ids `findMany({ skip: 1000, orderBy: { posted_at: 'desc' }, select: { id } })` returns. -/
def oldUpdateIds (orderBy : List XUpdate → List XUpdate) (s : XStore) : List Int :=
  ((orderBy s.rows).drop retention).map (fun update => update.id)

/-- Lines 70-85 of `fetchAndStoreUpdates`: the clean-up of old updates. -/
def pruneOldUpdates (env : SyncEnv) (s : XStore) : Except String XStore :=
  if env.findManyFails then .error "findMany failed"
  else
    let oldUpdates := oldUpdateIds env.orderBy s
    if oldUpdates.length > 0 then
      if env.deleteManyFails then .error "deleteMany failed"
      else .ok { s with rows := s.rows.filter (fun r => !(oldUpdates.contains r.id)) }
    else .ok s

/-- `fetchAndStoreUpdates`: the store afterwards, and the list of new updates it
returns or the error it rethrows. -/
def fetchAndStoreUpdates (env : SyncEnv) (s : XStore) : XStore × Except String (List XUpdate) :=
  let updates := fetchFromXAPI env.response
  let pass := storeUpdates env.item updates s []
  match pruneOldUpdates env pass.1 with
  | .error e => (pass.1, .error e)
  | .ok s' => (s', .ok pass.2)

/-- Sync cycles run one after another, each in its own environment. -/
def runCycles : List SyncEnv → XStore → XStore
  | [], s => s
  | env :: envs, s => runCycles envs (fetchAndStoreUpdates env s).1

/-- A store order for `posted_at: 'desc'` that keeps ties in storage order. -/
def orderByPostedAtDesc (rows : List XUpdate) : List XUpdate :=
  rows.insertionSort (fun a b => a.posted_at ≥ b.posted_at)

/-! ## Predicates of the specification -/

/-- At most one vote per `(user, project)` pair. -/
def OneVotePerPair (votes : List Vote) : Prop :=
  (votes.map (fun v => (v.user_id, v.project_id))).Nodup

/-- The `post_id` values of the stored posts are pairwise distinct. -/
def DistinctPostIds (rows : List XUpdate) : Prop :=
  (rows.map (fun r => r.post_id)).Nodup

/-- Primary key of the mirrored-post table: ids are pairwise distinct and below
the next value of the sequence. -/
def XStore.KeysOk (s : XStore) : Prop :=
  (s.rows.map (fun r => r.id)).Nodup ∧ ∀ r ∈ s.rows, r.id < s.nextId

/-- The answer to `orderBy: { posted_at: 'desc' }` holds the same rows, newest first. -/
def NewestFirst (orderBy : List XUpdate → List XUpdate) : Prop :=
  ∀ rows, (orderBy rows).Perm rows ∧ (orderBy rows).Pairwise (fun a b => a.posted_at ≥ b.posted_at)

instance (votes : List Vote) : Decidable (OneVotePerPair votes) := by
  unfold OneVotePerPair; infer_instance

instance (rows : List XUpdate) : Decidable (DistinctPostIds rows) := by
  unfold DistinctPostIds; infer_instance

instance (s : XStore) : Decidable s.KeysOk := by
  unfold XStore.KeysOk; infer_instance

/-- The tally in the words of the specification: the number of votes whose type is
UPVOTE, the number whose type is DOWNVOTE, and their sum. -/
def tallySpec (votes : List Vote) : VoteCounts :=
  { upvotes := votes.countP (fun v => v.vote_type = "UPVOTE")
    downvotes := votes.countP (fun v => v.vote_type = "DOWNVOTE")
    total := votes.countP (fun v => v.vote_type = "UPVOTE") + votes.countP (fun v => v.vote_type = "DOWNVOTE") }

/-! ## Sample data -/

/-- A store with one project and three votes on it. -/
def sampleDb : Db :=
  { projects := [{ id := 1, title := "Road repair", description := "Resurface the market road",
                   status := "PROPOSED", proposer_id := 7 }]
    votes := [{ user_id := 7, project_id := 1, vote_type := "UPVOTE" },
              { user_id := 8, project_id := 1, vote_type := "DOWNVOTE" },
              { user_id := 9, project_id := 1, vote_type := "UPVOTE" }]
    townhalls := [{ id := 3, title := "Budget hearing", description := "Open budget session",
                    scheduled_at := 1900000000000, zoom_link := none, status := "SCHEDULED",
                    organizer_id := 7 }] }

/-- An ordinary user who proposed nothing in `sampleDb`. -/
def sampleVoter : User := { id := 12, email := "ada@example.org", username := "ada", role := "USER" }

/-- A mirrored-post store with two posts. -/
def sampleStore : XStore :=
  { rows := [{ id := 1, post_id := "100", content := "Market day #AbiaState", author := "okoro",
               posted_at := 1000, fetched_at := 1500 },
             { id := 2, post_id := "101", content := "Road works #AbiaState", author := "nkem",
               posted_at := 2000, fetched_at := 2500 }]
    nextId := 3 }

/-- A search response whose batch repeats a stored id (with other content) and repeats a new id. -/
def sampleResponse : XResponse :=
  { users := some [{ id := "u1", username := "okoro" }]
    data := some [{ id := "100", text := "Edited text #AbiaState", author_id := "u1", created_at := 1000 },
                  { id := "102", text := "New school #AbiaState", author_id := "u2", created_at := 3000 },
                  { id := "102", text := "New school #AbiaState", author_id := "u2", created_at := 3000 }] }

/-- An environment in which no store operation fails and every insert reads the clock at 5000. -/
def quietItems : Nat → ItemEnv :=
  fun _ => { findFails := false, createFails := false, now := 5000 }

/-- A sync cycle that fetches `sampleResponse` and meets no failure. -/
def sampleEnv : SyncEnv :=
  { response := .ok sampleResponse
    item := quietItems
    findManyFails := false
    deleteManyFails := false
    orderBy := orderByPostedAtDesc }

/-- The item environments of a batch from which the item at position `k` is taken out. -/
def skipItem (item : Nat → ItemEnv) (k : Nat) : Nat → ItemEnv :=
  fun n => if n < k then item n else item (n + 1)

/-- The insert of the second batch item fails; nothing else does. -/
def secondInsertFails : Nat → ItemEnv :=
  fun k => { findFails := false, createFails := k == 1, now := 5000 }

/-- The batch of `sampleResponse` without its second item. -/
def shorterResponse : XResponse :=
  { users := some [{ id := "u1", username := "okoro" }]
    data := some [{ id := "100", text := "Edited text #AbiaState", author_id := "u1", created_at := 1000 },
                  { id := "102", text := "New school #AbiaState", author_id := "u2", created_at := 3000 }] }

/-! ## Validation of `scheduled_at` (validations.js) -/

/-- The comparison `scheduledDate <= now` of two dates: on the time values, and false when
the left one is an invalid date. -/
def dateLe (scheduledDate : Option Int) (now : Int) : Bool :=
  match scheduledDate with
  | some t => decide (t ≤ now)
  | none => false

/-- The `scheduled_at` chain of `createTownhallValidation`: the error messages it records
(none: the field is accepted). An absent field fails `isISO8601` and reads as an invalid date. -/
def createScheduledAtCheck (now : Int) (field : Option DateField) : List String :=
  let iso := match field with
    | some f => f.isISO8601
    | none => false
  let scheduledDate := match field with
    | some f => f.date
    | none => none
  (if iso then [] else ["Scheduled date must be a valid ISO 8601 date"]) ++
  (if dateLe scheduledDate now then ["Scheduled date must be in the future"] else [])

/-- The `scheduled_at` chain of `updateTownhallValidation`: `optional()` skips an absent
field, and the custom check looks at the date only `if (value)`. -/
def updateScheduledAtCheck (now : Int) (field : Option DateField) : List String :=
  match field with
  | none => []
  | some f =>
    (if f.isISO8601 then [] else ["Scheduled date must be a valid ISO 8601 date"]) ++
    (if truthy (some f.value) && dateLe f.date now then ["Scheduled date must be in the future"] else [])

/-- The values `updateProjectValidation` allows for `status`. -/
def projectStatuses : List String := ["PROPOSED", "APPROVED", "REJECTED"]

/-- The values `updateTownhallValidation` allows for `status`. -/
def townhallStatuses : List String := ["SCHEDULED", "LIVE", "COMPLETED", "CANCELLED"]

/-- The `status` chain of `updateProjectValidation` and of `updateTownhallValidation`,
`body('status').optional().isIn(allowed).withMessage(message)`: the error messages it
records. `optional()` skips an absent field only. -/
def statusCheck (allowed : List String) (message : String) (status : Option String) : List String :=
  match status with
  | none => []
  | some st => if allowed.contains st then [] else [message]

/-! ## Registration and login (authController.js) -/

/-- A row of the user table. -/
structure UserRecord where
  id : Int
  email : String
  username : String
  password_hash : String
  role : String
  created_at : Int
deriving DecidableEq, Repr

/-- The user table with the next value of its `id` sequence. -/
structure UserStore where
  users : List UserRecord
  nextId : Int
deriving DecidableEq, Repr

/-- The claims `generateToken` is called with. -/
structure TokenPayload where
  id : Int
  email : String
  role : String
deriving DecidableEq, Repr

/-- What the auth controller takes from outside: the password hashing and verification of
`bcryptjs`, the token issuer of `utils/jwt`, the clock and the schema's default role. -/
structure AuthEnv where
  hash : String → String
  compare : String → String → Bool
  generateToken : TokenPayload → String
  now : Int
  defaultRole : String

/-- A JSON value of a response object. -/
inductive JsValue where
  | num (n : Int)
  | str (s : String)
deriving DecidableEq, Repr

/-- A JSON object: its keys with their values. -/
abbrev JsObject := List (String × JsValue)

/-- The keys of a JSON object. -/
def JsObject.keys (o : JsObject) : List String :=
  o.map (fun kv => kv.1)

/-- Payload of `register` and `login`: `{ user, token }`. -/
structure AuthData where
  user : JsObject
  token : String
deriving DecidableEq, Repr

/-- The body of a registration or login request (`username` is not read by `login`). -/
structure AuthBody where
  email : String
  username : String := ""
  password : String
deriving DecidableEq, Repr

/-- `prisma.user.findFirst({ where: { OR: [{ email }, { username }] } })`. -/
def findFirstUser (s : UserStore) (email username : String) : Option UserRecord :=
  s.users.find? (fun u => u.email == email || u.username == username)

/-- `prisma.user.findUnique({ where: { email } })`. -/
def findUserByEmail (s : UserStore) (email : String) : Option UserRecord :=
  s.users.find? (fun u => u.email == email)

/-- The object `select: { id, email, username, role, created_at }` returns for a row. -/
def selectRegistered (u : UserRecord) : JsObject :=
  [("id", .num u.id), ("email", .str u.email), ("username", .str u.username),
   ("role", .str u.role), ("created_at", .num u.created_at)]

/-- `prisma.user.create({ data: { email, username, password_hash }, select })`: the unique
key `email` rejects a second row (P2002); otherwise the row is appended under a fresh id,
with the default role and the creation time. -/
def createUser (env : AuthEnv) (s : UserStore) (email username password_hash : String) :
    Except String (UserStore × UserRecord) :=
  if (findUserByEmail s email).isSome then .error "P2002"
  else
    let user : UserRecord :=
      { id := s.nextId, email := email, username := username, password_hash := password_hash,
        role := env.defaultRole, created_at := env.now }
    .ok ({ users := s.users ++ [user], nextId := s.nextId + 1 }, user)

/-- The handler `register`. -/
def register (env : AuthEnv) (s : UserStore) (body : AuthBody) : UserStore × Outcome AuthData :=
  -- Check if user already exists
  match findFirstUser s body.email body.username with
  | some _ =>
    (s, .json { code := 409, status := "error",
                message := some "User with this email or username already exists", data := none })
  | none =>
    let password_hash := env.hash body.password
    match createUser env s body.email body.username password_hash with
    | .error e => (s, .forwarded e)
    | .ok (s', user) =>
      let token := env.generateToken { id := user.id, email := user.email, role := user.role }
      (s', .json { code := 201, status := "success", message := some "User registered successfully",
                   data := some { user := selectRegistered user, token := token } })

/-- The handler `login`. -/
def login (env : AuthEnv) (s : UserStore) (body : AuthBody) : UserStore × Outcome AuthData :=
  -- Find user
  match findUserByEmail s body.email with
  | none =>
    (s, .json { code := 401, status := "error", message := some "Invalid credentials", data := none })
  | some user =>
    -- Check password
    if !(env.compare body.password user.password_hash) then
      (s, .json { code := 401, status := "error", message := some "Invalid credentials", data := none })
    else
      let token := env.generateToken { id := user.id, email := user.email, role := user.role }
      (s, .json { code := 200, status := "success", message := some "Login successful",
                  data := some { user := [("id", .num user.id), ("email", .str user.email),
                                          ("username", .str user.username), ("role", .str user.role)],
                                 token := token } })

/-! ## Error translation (errorHandler.js) -/

/-- An error as `errorHandler` reads it: the properties it looks at, each possibly missing. -/
structure AppError where
  code : Option String := none
  name : Option String := none
  statusCode : Option Nat := none
  message : Option String := none
  errors : Option (List String) := none
deriving DecidableEq, Repr

/-- The response of `errorHandler`. -/
structure ErrorReply where
  code : Nat
  status : String
  message : String
  errors : Option (List String) := none
deriving DecidableEq, Repr

/-- `errorHandler`. -/
def errorHandler (err : AppError) : ErrorReply :=
  -- Prisma errors
  if err.code == some "P2002" then
    { code := 409, status := "error", message := "Resource already exists" }
  else if err.code == some "P2025" then
    { code := 404, status := "error", message := "Resource not found" }
  -- Validation errors
  else if err.name == some "ValidationError" then
    { code := 400, status := "error", message := "Validation failed", errors := err.errors }
  -- JWT errors
  else if err.name == some "JsonWebTokenError" then
    { code := 401, status := "error", message := "Invalid token" }
  else if err.name == some "TokenExpiredError" then
    { code := 401, status := "error", message := "Token expired" }
  -- Default error
  else
    { code := match err.statusCode with
        | some n => if n = 0 then 500 else n
        | none => 500
      status := "error"
      message := if truthy err.message then err.message.getD "" else "Internal server error" }

/-- The errors `errorHandler` has a branch of its own for. -/
def AppError.recognised (err : AppError) : Bool :=
  err.code == some "P2002" || err.code == some "P2025" || err.name == some "ValidationError" ||
  err.name == some "JsonWebTokenError" || err.name == some "TokenExpiredError"

/-! ## Role gate (auth.js, `authorize`) and manual refresh (xUpdateController.js) -/

/-- What a middleware does with a request: it answers, or it calls `next()`. -/
inductive Passage where
  | json (reply : Reply Unit)
  | next
deriving DecidableEq, Repr

/-- The middleware `authorize(roles)`. -/
def authorize (roles : List String) (req : Request) : Passage :=
  match req.user with
  | none =>
    .json { code := 401, status := "error", message := some "Authentication required", data := none }
  | some user =>
    if roles.length != 0 && !(roles.contains user.role) then
      .json { code := 403, status := "error", message := some "Insufficient permissions", data := none }
    else .next

/-- Payload of `refreshXUpdates`. -/
structure RefreshData where
  new_updates_count : Nat
deriving DecidableEq, Repr

/-- The guard of `refreshXUpdates`: `req.user && req.user.role !== 'ADMIN'`. -/
def refreshDenied (req : Request) : Bool :=
  match req.user with
  | none => false
  | some user => user.role != "ADMIN"

/-- The handler `refreshXUpdates`: the mirrored-post store afterwards and the outcome. -/
def refreshXUpdates (env : SyncEnv) (s : XStore) (req : Request) : XStore × Outcome RefreshData :=
  -- Only allow admins to manually refresh
  if refreshDenied req then
    (s, .json { code := 403, status := "error", message := some "Insufficient permissions", data := none })
  else
    match fetchAndStoreUpdates env s with
    | (s', .error e) => (s', .forwarded e)
    | (s', .ok newUpdates) =>
      (s', .json { code := 200, status := "success", message := some "X updates refreshed successfully",
                   data := some { new_updates_count := newUpdates.length } })

/-! ## Further predicates and sample data -/

/-- The stored emails are pairwise distinct, and so are the stored usernames. -/
def DistinctUsers (s : UserStore) : Prop :=
  (s.users.map (fun u => u.email)).Nodup ∧ (s.users.map (fun u => u.username)).Nodup

instance (s : UserStore) : Decidable (DistinctUsers s) := by
  unfold DistinctUsers; infer_instance

/-- A user store with one registered user. -/
def sampleUsers : UserStore :=
  { users := [{ id := 7, email := "test@example.com", username := "testuser",
                password_hash := "hashed:Test123456", role := "USER", created_at := 100 }]
    nextId := 8 }

/-- A toy credential service: the hash is the tagged password, the token lists its claims. -/
def sampleAuthEnv : AuthEnv :=
  { hash := fun password => "hashed:" ++ password
    compare := fun password h => h == "hashed:" ++ password
    generateToken := fun payload => "token-" ++ payload.email ++ "-" ++ payload.role
    now := 200
    defaultRole := "USER" }

/-- The proposer of the project and organizer of the townhall in `sampleDb`, an ordinary user. -/
def sampleOwner : User := { id := 7, email := "test@example.com", username := "testuser", role := "USER" }

/-- An administrator. -/
def sampleAdmin : User := { id := 1, email := "root@example.org", username := "root", role := "ADMIN" }

/-- An error of the body parser: it carries its own HTTP status. -/
def payloadTooLarge : AppError :=
  { name := some "PayloadTooLargeError", statusCode := some 413, message := some "request entity too large" }

/-! ## Date range check (validations.js, `validateDateRange`) -/

/-- The comparison `fromDate >= toDate` of two dates: on the time values, and false as soon
as one of them is an invalid date. -/
def dateGe (fromDate toDate : Option Int) : Bool :=
  match fromDate, toDate with
  | some a, some b => decide (a ≥ b)
  | _, _ => false

/-- The middleware `validateDateRange`; the two arguments are `req.query.from_date` and
`req.query.to_date`. -/
def validateDateRange (from_date to_date : Option DateField) : Passage :=
  match from_date, to_date with
  | some f, some t =>
    if truthy (some f.value) && truthy (some t.value) then
      if dateGe f.date t.date then
        .json { code := 400, status := "error", message := some "From date must be before to date",
                data := none }
      else .next
    else .next
  | _, _ => .next

/-! ## Token check (auth.js, `authenticate`) -/

/-- What `authenticate` does with a request: it answers, or it attaches the user and calls
`next()`. -/
inductive Authenticated where
  | json (reply : Reply Unit)
  | next (user : User)
deriving DecidableEq, Repr

/-- `prisma.user.findUnique({ where: { id }, select: { id, email, username, role } })`. -/
def findUserById (s : UserStore) (id : Int) : Option User :=
  (s.users.find? (fun u => u.id == id)).map
    (fun u => { id := u.id, email := u.email, username := u.username, role := u.role })

/-- The middleware `authenticate`. `token` is `req.header('Authorization')?.replace('Bearer ', '')`
and `verifyToken` the verifier of `utils/jwt`, which throws on a token it does not accept;
`lookupFails` says that the user query throws. -/
def authenticate (verifyToken : String → Except String TokenPayload) (lookupFails : Bool)
    (s : UserStore) (token : Option String) : Authenticated :=
  if !(truthy token) then
    .json { code := 401, status := "error", message := some "Access token required", data := none }
  else
    match verifyToken (token.getD "") with
    | .error _ =>
      .json { code := 401, status := "error", message := some "Invalid token", data := none }
    | .ok decoded =>
      if lookupFails then
        .json { code := 401, status := "error", message := some "Invalid token", data := none }
      else
        match findUserById s decoded.id with
        | none =>
          .json { code := 401, status := "error", message := some "Invalid token", data := none }
        | some user => .next user

/-- A toy verifier: a token `id:email:role` made of three parts decodes to these claims. -/
def sampleVerify (token : String) : Except String TokenPayload :=
  if token == "7:test@example.com:USER" then
    .ok { id := 7, email := "test@example.com", role := "USER" }
  else if token == "7:mallory@example.com:ADMIN" then
    .ok { id := 7, email := "mallory@example.com", role := "ADMIN" }
  else if token == "99:ghost@example.com:USER" then
    .ok { id := 99, email := "ghost@example.com", role := "USER" }
  else .error "JsonWebTokenError"

/-! ## Tally of a project -/

/-- The `vote_counts` that `getProjectVotes` reports for project `id`. -/
def projectTally (db : Db) (id : Int) : VoteCounts :=
  (getProjectVotesData id (projectVotes db id)).vote_counts

/-- The count of a tally for a vote type. -/
def VoteCounts.ofType (c : VoteCounts) (t : String) : Nat :=
  if t == "UPVOTE" then c.upvotes else c.downvotes

/-- The other of the two vote types. -/
def otherType (t : String) : String :=
  if t == "UPVOTE" then "DOWNVOTE" else "UPVOTE"

/-! ## List endpoints (`getProjects`, `getTownhalls`, `getXUpdates`) -/

/-- `parseInt(x) || d`: an absent or non-numeric parameter (`NaN`) and `0` give the default. -/
def parsedOr (parsed : Option Int) (d : Int) : Int :=
  match parsed with
  | some n => if n = 0 then d else n
  | none => d

/-- `Math.ceil(total / limit)`, on the exact quotient. -/
def mathCeilDiv (total limit : Int) : Int :=
  ⌈(total : ℚ) / (limit : ℚ)⌉

/-- The `meta` object of a list response. -/
structure PageMeta where
  page : Int
  limit : Int
  total : Int
  pages : Int
deriving DecidableEq, Repr

/-- Payload of a list response: the `data` array and the `meta` object. -/
structure ListData (α : Type) where
  data : List α
  pageMeta : PageMeta
deriving DecidableEq, Repr

/-- `findMany({ skip, take })` over the matching rows in their order: a negative `skip`
is refused, a negative `take` reads from the end. -/
def findManyPage {α : Type} (matching : List α) (skip take : Int) : Except String (List α) :=
  if skip < 0 then .error "PrismaClientValidationError"
  else if take < 0 then
    .ok (((matching.reverse.drop skip.toNat).take (-take).toNat).reverse)
  else .ok ((matching.drop skip.toNat).take take.toNat)

/-- The two store queries of a list endpoint and its response: `findMany` with `skip` and
`take` over the rows that match the `where` clause, in the order `orderBy` gives them, and
`count` of the matching rows; `shape` is what the handler does to the fetched rows before
sending them. -/
def pageReply {α β : Type} (shape : List α → List β) (orderBy : List α → List α)
    (matching : List α) (page limit : Int) : Outcome (ListData β) :=
  let skip := (page - 1) * limit
  match findManyPage (orderBy matching) skip limit with
  | .error e => .forwarded e
  | .ok rows =>
    let total : Int := matching.length
    .json { code := 200, status := "success", message := none,
            data := some { data := shape rows,
                           pageMeta := { page := page, limit := limit, total := total,
                                         pages := mathCeilDiv total limit } } }

/-- A date bound of a `where` clause: `new Date(value)` of a non-empty parameter; an invalid
date is refused by the persistence client. -/
def dateBound (field : Option DateField) : Except String (Option Int) :=
  match field with
  | none => .ok none
  | some f =>
    if truthy (some f.value) then
      match f.date with
      | some t => .ok (some t)
      | none => .error "PrismaClientValidationError"
    else .ok none

/-- An id filter of a `where` clause (`proposer_id`, `organizer_id`): `parseInt(value)` of a
non-empty parameter (`some none`: `NaN`); `NaN` and a value that is no value of the id
column are refused by the persistence client. -/
def idFilter (parsed : Option (Option Int)) : Except String (Option Int) :=
  match parsed with
  | none => .ok none
  | some none => .error "PrismaClientValidationError"
  | some (some id) => if fitsInt id then .ok (some id) else .error "PrismaClientValidationError"

/-- The query of `GET /api/projects`. `page` and `limit` are `parseInt` of the parameters;
`proposer` is `parseInt(req.query.proposer)` for a non-empty parameter (`some none`: `NaN`). -/
structure ProjectsQuery where
  page : Option Int := none
  limit : Option Int := none
  status : Option String := none
  proposer : Option (Option Int) := none
deriving DecidableEq, Repr

/-- The handler `getProjects`; `orderBy` is the store's order for `created_at: 'desc'`. -/
def getProjects (orderBy : List Project → List Project) (db : Db) (q : ProjectsQuery) :
    Outcome (ListData ProjectWithVotes) :=
  let page := parsedOr q.page 1
  let limit := parsedOr q.limit 10
  match idFilter q.proposer with
  | .error e => .forwarded e
  | .ok proposer =>
    let matching := db.projects.filter (fun p =>
      (if truthy q.status then some p.status == q.status else true) &&
      (match proposer with
        | some id => p.proposer_id == id
        | none => true))
    pageReply (fun projects => projectsWithVotes (projects.map (fun p => (p, projectVotes db p.id))))
      orderBy matching page limit

/-- The query of `GET /api/townhalls`. -/
structure TownhallsQuery where
  page : Option Int := none
  limit : Option Int := none
  status : Option String := none
  organizer : Option (Option Int) := none
  from_date : Option DateField := none
  to_date : Option DateField := none
deriving DecidableEq, Repr

/-- The handler `getTownhalls`; `orderBy` is the store's order for `scheduled_at: 'asc'`. -/
def getTownhalls (orderBy : List Townhall → List Townhall) (db : Db) (q : TownhallsQuery) :
    Outcome (ListData Townhall) :=
  let page := parsedOr q.page 1
  let limit := parsedOr q.limit 10
  match idFilter q.organizer, dateBound q.from_date, dateBound q.to_date with
  | .error e, _, _ => .forwarded e
  | _, .error e, _ => .forwarded e
  | _, _, .error e => .forwarded e
  | .ok organizer, .ok gte, .ok lte =>
    let matching := db.townhalls.filter (fun t =>
      (if truthy q.status then some t.status == q.status else true) &&
      (match organizer with
        | some id => t.organizer_id == id
        | none => true) &&
      (match gte with
        | some a => decide (a ≤ t.scheduled_at)
        | none => true) &&
      (match lte with
        | some b => decide (t.scheduled_at ≤ b)
        | none => true))
    pageReply (fun townhalls => townhalls) orderBy matching page limit

/-- The query of `GET /api/x-updates`. -/
structure XUpdatesQuery where
  page : Option Int := none
  limit : Option Int := none
  author : Option String := none
  from_date : Option DateField := none
  to_date : Option DateField := none
deriving DecidableEq, Repr

/-- The handler `getXUpdates`; `contains` is the store's case-insensitive containment test
(`contains` with `mode: 'insensitive'`) and `orderBy` its order for `posted_at: 'desc'`. -/
def getXUpdates (contains : String → String → Bool) (orderBy : List XUpdate → List XUpdate)
    (s : XStore) (q : XUpdatesQuery) : Outcome (ListData XUpdate) :=
  let page := parsedOr q.page 1
  let limit := parsedOr q.limit 10
  match dateBound q.from_date, dateBound q.to_date with
  | .error e, _ => .forwarded e
  | _, .error e => .forwarded e
  | .ok gte, .ok lte =>
    let matching := s.rows.filter (fun r =>
      (match q.author with
        | some author => if truthy (some author) then contains r.author author else true
        | none => true) &&
      (match gte with
        | some a => decide (a ≤ r.posted_at)
        | none => true) &&
      (match lte with
        | some b => decide (r.posted_at ≤ b)
        | none => true))
    pageReply (fun xUpdates => xUpdates) orderBy matching page limit

/-- A store with three townhalls, in the order of their dates. -/
def townhallDb : Db :=
  { projects := []
    votes := []
    townhalls := [{ id := 1, title := "Water board", description := "Quarterly water session",
                    scheduled_at := 1900000000000, zoom_link := none, status := "SCHEDULED",
                    organizer_id := 7 },
                  { id := 2, title := "Market roads", description := "Road works hearing",
                    scheduled_at := 1910000000000, zoom_link := none, status := "SCHEDULED",
                    organizer_id := 8 },
                  { id := 3, title := "School budget", description := "Budget of the schools",
                    scheduled_at := 1920000000000, zoom_link := none, status := "CANCELLED",
                    organizer_id := 7 }] }

/-- The townhalls of `townhallDb` with status `SCHEDULED`. -/
def scheduledTownhalls : List Townhall :=
  [{ id := 1, title := "Water board", description := "Quarterly water session",
     scheduled_at := 1900000000000, zoom_link := none, status := "SCHEDULED", organizer_id := 7 },
   { id := 2, title := "Market roads", description := "Road works hearing",
     scheduled_at := 1910000000000, zoom_link := none, status := "SCHEDULED", organizer_id := 8 }]

/-! ## The refresh route (routes/xUpdates.js) -/

/-- The reply of a middleware as a reply of the route: its status code and envelope, which
carries no payload. -/
def Reply.withoutData {δ : Type} (reply : Reply Unit) : Reply δ :=
  { code := reply.code, status := reply.status, message := reply.message, data := none }

/-- The route `router.post('/refresh', authenticate, authorize(['ADMIN']), refreshXUpdates)`:
each middleware answers or hands the request, with the user `authenticate` attached, to the
next one. -/
def refreshRoute (verifyToken : String → Except String TokenPayload) (lookupFails : Bool)
    (users : UserStore) (env : SyncEnv) (s : XStore) (token : Option String) :
    XStore × Outcome RefreshData :=
  match authenticate verifyToken lookupFails users token with
  | .json reply => (s, .json reply.withoutData)
  | .next user =>
    let req : Request := { user := some user, params_id := none }
    match authorize ["ADMIN"] req with
    | .json reply => (s, .json reply.withoutData)
    | .next => refreshXUpdates env s req

/-- A user store with an ordinary user and an administrator. -/
def staffUsers : UserStore :=
  { users := [{ id := 7, email := "test@example.com", username := "testuser",
                password_hash := "hashed:Test123456", role := "USER", created_at := 100 },
              { id := 1, email := "root@example.org", username := "root",
                password_hash := "hashed:Root123456", role := "ADMIN", created_at := 50 }]
    nextId := 8 }

/-- A toy verifier: the token `user-token` decodes to the id 7, `admin-token` to the id 1. -/
def staffVerify (token : String) : Except String TokenPayload :=
  if token == "user-token" then .ok { id := 7, email := "test@example.com", role := "USER" }
  else if token == "admin-token" then .ok { id := 1, email := "root@example.org", role := "ADMIN" }
  else .error "JsonWebTokenError"

/-! ## What a cycle returns -/

/-- The batch item a stored row was made from. -/
def XUpdate.toPost (r : XUpdate) : XPost :=
  { post_id := r.post_id, content := r.content, author := r.author, posted_at := r.posted_at }

/-- The new posts of a batch in the words of the specification: in batch order, the first
occurrence of each `post_id` that is not among the stored ones. -/
def newPosts (stored : List String) : List XPost → List XPost
  | [] => []
  | x :: rest =>
    if stored.contains x.post_id then newPosts stored rest
    else x :: newPosts (x.post_id :: stored) rest

/-- No existence check and no insert of the cycle throws. -/
def QuietItems (item : Nat → ItemEnv) : Prop :=
  ∀ k, (item k).findFails = false ∧ (item k).createFails = false

/-- A request of an administrator without parameters. -/
def adminRequest : Request := { user := some sampleAdmin, params_id := none }

/-- 1000 posts with the ids "1", "11", "111", ..., all posted at the same instant 5000. -/
def fullRows : List XUpdate :=
  (List.range 1000).map (fun (i : Nat) =>
    { id := (i : Int) + 1, post_id := String.mk (List.replicate (i + 1) '1'),
      content := "Stored post #AbiaState", author := "okoro", posted_at := 5000,
      fetched_at := 6000 })

/-- A store at the retention count. -/
def fullStore : XStore :=
  { rows := fullRows, nextId := 1001 }

/-- A search response with one post that is older than everything in `fullStore`. -/
def staleResponse : XResponse :=
  { users := none
    data := some [{ id := "2", text := "An older post #AbiaState", author_id := "u9",
                    created_at := 1000 }] }

/-- A sync cycle that fetches `staleResponse` and meets no failure. -/
def staleEnv : SyncEnv :=
  { response := .ok staleResponse
    item := quietItems
    findManyFails := false
    deleteManyFails := false
    orderBy := orderByPostedAtDesc }

/-- The row the cycle of `staleEnv` inserts into `fullStore`. -/
def staleRow : XUpdate :=
  { id := 1001, post_id := "2", content := "An older post #AbiaState", author := "Unknown",
    posted_at := 1000, fetched_at := 5000 }

/-! ## Overlapping cycles (xUpdateService.js, `fetchAndStoreUpdates` step by step)

Two calls of `fetchAndStoreUpdates` (the timer's and a manual refresh) overlap at their
`await`s only: each store operation runs to its end before another one starts. A cycle in
progress is therefore a task that performs one store operation per step, and an overlap of
two cycles is a schedule that says which task performs the next step. -/

/-- The store operation a cycle in progress performs next. -/
inductive SyncPhase where
  /-- `findUnique` for the head of the pending items, or `findMany` when none is pending. -/
  | check
  /-- `create` for the item whose existence check found nothing. -/
  | insert (update : XPost)
  /-- `deleteMany` for the ids `findMany` returned. -/
  | delete (ids : List Int)
  /-- The cycle has returned its list of new updates or has rethrown an error. -/
  | returned (result : Except String (List XUpdate))

/-- A cycle in progress: its environment, the environments of the items still to process,
the items not yet checked, the next operation and the new updates so far. -/
structure SyncTask where
  env : SyncEnv
  item : Nat → ItemEnv
  pending : List XPost
  phase : SyncPhase
  newUpdates : List XUpdate

/-- A cycle that has fetched its batch and is about to process the first item. -/
def SyncTask.start (env : SyncEnv) : SyncTask :=
  { env := env, item := env.item, pending := fetchFromXAPI env.response, phase := .check,
    newUpdates := [] }

/-- One store operation of a cycle in progress, on the store as it is then. -/
def SyncTask.step (t : SyncTask) (s : XStore) : SyncTask × XStore :=
  match t.phase with
  | .returned _ => (t, s)
  | .delete ids =>
    if t.env.deleteManyFails then
      ({ t with phase := .returned (.error "deleteMany failed") }, s)
    else
      ({ t with phase := .returned (.ok t.newUpdates) },
       { s with rows := s.rows.filter (fun r => !(ids.contains r.id)) })
  | .insert update =>
    match createXUpdate s (t.item 0) update with
    | .error _ => ({ t with item := fun k => t.item (k + 1), phase := .check }, s)
    | .ok (s', savedUpdate) =>
      ({ t with item := fun k => t.item (k + 1), phase := .check,
                newUpdates := t.newUpdates ++ [savedUpdate] }, s')
  | .check =>
    match t.pending with
    | update :: rest =>
      if (t.item 0).findFails then
        ({ t with item := fun k => t.item (k + 1), pending := rest }, s)
      else
        match findByPostId s update.post_id with
        | some _ => ({ t with item := fun k => t.item (k + 1), pending := rest }, s)
        | none => ({ t with pending := rest, phase := .insert update }, s)
    | [] =>
      if t.env.findManyFails then
        ({ t with phase := .returned (.error "findMany failed") }, s)
      else
        let oldUpdates := oldUpdateIds t.env.orderBy s
        if oldUpdates.length > 0 then ({ t with phase := .delete oldUpdates }, s)
        else ({ t with phase := .returned (.ok t.newUpdates) }, s)

/-- An upper bound on the store operations a cycle in progress still performs. -/
def SyncTask.remaining (t : SyncTask) : Nat :=
  match t.phase with
  | .returned _ => 0
  | .delete _ => 1
  | .check => 2 * t.pending.length + 2
  | .insert _ => 2 * t.pending.length + 3

/-- A cycle that has returned or rethrown. -/
def SyncTask.finished (t : SyncTask) : Prop :=
  ∃ result, t.phase = .returned result

/-- A cycle that has not rethrown an error. -/
def SyncTask.notRaised (t : SyncTask) : Prop :=
  ∀ e, t.phase ≠ .returned (.error e)

/-- A cycle running alone for `n` store operations. -/
def runAlone : Nat → SyncTask → XStore → SyncTask × XStore
  | 0, t, s => (t, s)
  | n + 1, t, s => runAlone n (t.step s).1 (t.step s).2

/-- Two cycles overlapping over one store: the schedule says, step by step, whether the
first (`true`) or the second (`false`) performs its next store operation. -/
def interleave : List Bool → SyncTask → SyncTask → XStore → SyncTask × SyncTask × XStore
  | [], a, b, s => (a, b, s)
  | true :: schedule, a, b, s => interleave schedule (a.step s).1 b (a.step s).2
  | false :: schedule, a, b, s => interleave schedule a (b.step s).1 (b.step s).2

/-! # Properties -/

/-! ## Vote aggregation -/

theorem filter_length_eq_countP (votes : List Vote) (t : String) :
    (votes.filter (fun vote => vote.vote_type == t)).length = votes.countP (fun v => v.vote_type = t) := by
  induction votes with
  | nil => rfl
  | cons v vs ih =>
    by_cases h : v.vote_type = t <;> simp [List.filter_cons, List.countP_cons, h, ih]

/-- C1: for an existing project, the summary sent by `getProjectVotes` and by `getProject`,
and the one `getProjects` attaches to each fetched project, has `upvotes` equal to the number
of the project's votes of type UPVOTE, `downvotes` equal to the number of type DOWNVOTE, and
`total` equal to their sum. -/
theorem vote_summary_counts (db : Db) (req : Request) (id : Int) (project : Project)
    (hid : req.params_id = some id) (hp : findProject db id = .ok (some project)) :
    getProjectVotes db req =
      .json { code := 200, status := "success", message := none,
              data := some { project_id := id, vote_counts := tallySpec (projectVotes db id),
                             votes := projectVotes db id } } ∧
    getProject db req =
      .json { code := 200, status := "success", message := none,
              data := some { project := project, votes := some (projectVotes db id),
                             vote_counts := tallySpec (projectVotes db id) } } ∧
    ∀ fetched : List (Project × List Vote),
      projectsWithVotes fetched =
        fetched.map (fun p => { project := p.1, votes := none, vote_counts := tallySpec p.2 }) := by
  refine ⟨?_, ?_, ?_⟩
  · simp [getProjectVotes, hid, hp, getProjectVotesData, tallySpec, filter_length_eq_countP]
  · simp [getProject, hid, hp, getProjectData, tallySpec, filter_length_eq_countP]
  · intro fetched
    simp [projectsWithVotes, tallySpec, filter_length_eq_countP]

theorem vote_summary_counts_witness :
    (getProjectVotes sampleDb { user := none, params_id := some 1 } =
      .json { code := 200, status := "success", message := none,
              data := some { project_id := 1, vote_counts := { upvotes := 2, downvotes := 1, total := 3 },
                             votes := sampleDb.votes } }) ∧
    tallySpec (projectVotes sampleDb 1) = { upvotes := 2, downvotes := 1, total := 3 } :=
  ⟨by
    have h := (vote_summary_counts sampleDb { user := none, params_id := some 1 } 1
      { id := 1, title := "Road repair", description := "Resurface the market road",
        status := "PROPOSED", proposer_id := 7 } rfl (by decide)).1
    rw [h]; decide, by decide⟩

/-! ## Voting -/

theorem findVote_eq_none_iff (db : Db) (u p : Int) :
    findVote db u p = none ↔ ∀ v ∈ db.votes, ¬(v.user_id = u ∧ v.project_id = p) := by
  simp [findVote, List.find?_eq_none]

theorem findVote_some_key {db : Db} {u p : Int} {v : Vote} (h : findVote db u p = some v) :
    v ∈ db.votes ∧ v.user_id = u ∧ v.project_id = p := by
  unfold findVote at h
  have h1 := List.mem_of_find?_eq_some h
  have h2 := List.find?_some h
  simp at h2
  exact ⟨h1, h2⟩

/-- A vote request on an existing project by a user without a vote on it appends the vote. -/
theorem voteOnProject_create {db : Db} {req : Request} {u : User} {p : Int} {t : String}
    {project : Project} (hu : req.user = some u) (hid : req.params_id = some p)
    (ht : req.vote_type = some t) (hp : findProject db p = .ok (some project))
    (hv : findVote db u.id p = none) :
    voteOnProject db req =
      ({ db with votes := db.votes ++ [{ user_id := u.id, project_id := p, vote_type := t }] },
       .json { code := 201, status := "success", message := some "Vote created successfully",
               data := some { user_id := u.id, project_id := p, vote_type := t } }) := by
  simp [voteOnProject, hu, hid, ht, hp, hv, createVote]

/-- A vote request on an existing project by a user with a vote on it rewrites the vote. -/
theorem voteOnProject_update {db : Db} {req : Request} {u : User} {p : Int}
    {project : Project} {existing : Vote} (hu : req.user = some u) (hid : req.params_id = some p)
    (hp : findProject db p = .ok (some project)) (hv : findVote db u.id p = some existing) :
    voteOnProject db req =
      (updateVote db u.id p req.vote_type,
       .json { code := 200, status := "success", message := some "Vote updated successfully",
               data := some { existing with vote_type := req.vote_type.getD existing.vote_type } }) := by
  simp [voteOnProject, hu, hid, hp, hv]

/-- The store after a vote request is the store before, the store with one vote appended for
the request's pair, or the store with the votes of the request's pair rewritten. -/
theorem voteOnProject_cases (db : Db) (req : Request) :
    (voteOnProject db req).1 = db ∨
    (∃ u p t, req.user = some u ∧ req.params_id = some p ∧ req.vote_type = some t ∧
      findVote db u.id p = none ∧
      (voteOnProject db req).1 =
        { db with votes := db.votes ++ [{ user_id := u.id, project_id := p, vote_type := t }] }) ∨
    (∃ u p, req.user = some u ∧ req.params_id = some p ∧
      (voteOnProject db req).1 = updateVote db u.id p req.vote_type) := by
  cases hid : req.params_id with
  | none => left; simp [voteOnProject, hid]
  | some p =>
    rcases hp : findProject db p with e | _ | project
    · left; simp [voteOnProject, hid, hp]
    · left; simp [voteOnProject, hid, hp]
    · cases hu : req.user with
      | none => left; simp [voteOnProject, hid, hp, hu]
      | some u =>
        cases hv : findVote db u.id p with
        | some e =>
          right; right
          exact ⟨u, p, rfl, rfl, by rw [voteOnProject_update hu hid hp hv]⟩
        | none =>
          cases ht : req.vote_type with
          | none => left; simp [voteOnProject, hid, hp, hu, ht, hv]
          | some t =>
            right; left
            exact ⟨u, p, t, rfl, rfl, rfl, hv, by rw [voteOnProject_create hu hid ht hp hv]⟩

/-- C2: on a store without a vote by `u` on the existing project `p`, a vote request of type
`t1` by `u` on `p` followed by one of type `t2` leaves exactly one vote record for the pair
`(u, p)`, of type `t2`. -/
theorem vote_twice_one_record (db : Db) (r1 r2 : Request) (u : User) (p : Int) (t1 t2 : String)
    (project : Project) (hp : findProject db p = .ok (some project))
    (hno : ∀ v ∈ db.votes, ¬(v.user_id = u.id ∧ v.project_id = p))
    (h1 : r1.user = some u ∧ r1.params_id = some p ∧ r1.vote_type = some t1)
    (h2 : r2.user = some u ∧ r2.params_id = some p ∧ r2.vote_type = some t2) :
    (voteOnProject (voteOnProject db r1).1 r2).1.votes.filter
        (fun v => v.user_id == u.id && v.project_id == p) =
      [{ user_id := u.id, project_id := p, vote_type := t2 }] := by
  obtain ⟨h1u, h1p, h1t⟩ := h1
  obtain ⟨h2u, h2p, h2t⟩ := h2
  have hv : findVote db u.id p = none := (findVote_eq_none_iff db u.id p).2 hno
  rw [voteOnProject_create h1u h1p h1t hp hv]
  have hnone : db.votes.find? (fun v => v.user_id == u.id && v.project_id == p) = none := hv
  have hv2 : findVote { db with votes := db.votes ++ [{ user_id := u.id, project_id := p, vote_type := t1 }] }
      u.id p = some { user_id := u.id, project_id := p, vote_type := t1 } := by
    simp [findVote, List.find?_append, hnone]
  have hp2 : findProject { db with votes := db.votes ++ [{ user_id := u.id, project_id := p, vote_type := t1 }] }
      p = .ok (some project) := hp
  rw [voteOnProject_update h2u h2p hp2 hv2, h2t]
  have hfil : db.votes.filter (fun v => v.user_id == u.id && v.project_id == p) = [] := by
    rw [List.filter_eq_nil_iff]
    intro v hvm
    have := hno v hvm
    simpa using this
  have hmap : ∀ l : List Vote,
      (l.map (fun v => if (v.user_id == u.id && v.project_id == p) = true
          then { v with vote_type := t2 } else v)).filter
        (fun v => v.user_id == u.id && v.project_id == p) =
      (l.filter (fun v => v.user_id == u.id && v.project_id == p)).map
        (fun v => { v with vote_type := t2 }) := by
    intro l
    induction l with
    | nil => rfl
    | cons a l ih =>
      by_cases ha : (a.user_id == u.id && a.project_id == p) = true
      · simp only [List.map_cons, ha, if_true, List.filter_cons, List.map_cons, ih]
      · simp only [List.map_cons, ha, if_false, List.filter_cons, ih]
        simp
        simpa using ha
  simp only [updateVote, Option.getD_some]
  rw [hmap, List.filter_append, hfil]
  simp

theorem vote_twice_one_record_witness :
    (voteOnProject (voteOnProject sampleDb
        { user := some sampleVoter, params_id := some 1, vote_type := some "UPVOTE" }).1
        { user := some sampleVoter, params_id := some 1, vote_type := some "DOWNVOTE" }).1.votes.filter
        (fun v => v.user_id == sampleVoter.id && v.project_id == 1) =
      [{ user_id := sampleVoter.id, project_id := 1, vote_type := "DOWNVOTE" }] :=
  vote_twice_one_record sampleDb _ _ sampleVoter 1 "UPVOTE" "DOWNVOTE"
    { id := 1, title := "Road repair", description := "Resurface the market road",
      status := "PROPOSED", proposer_id := 7 }
    (by decide) (by decide) ⟨rfl, rfl, rfl⟩ ⟨rfl, rfl, rfl⟩

theorem updateVote_keys (db : Db) (u p : Int) (t : Option String) :
    (updateVote db u p t).votes.map (fun v => (v.user_id, v.project_id)) =
      db.votes.map (fun v => (v.user_id, v.project_id)) := by
  simp only [updateVote, List.map_map]
  apply List.map_congr_left
  intro v _
  simp only [Function.comp]
  split <;> rfl

theorem updateVote_count_other (db : Db) (u p : Int) (t : Option String) (v : Vote)
    (hv : ¬(v.user_id = u ∧ v.project_id = p)) :
    (updateVote db u p t).votes.count v = db.votes.count v := by
  simp only [updateVote]
  induction db.votes with
  | nil => rfl
  | cons a l ih =>
    simp only [List.map_cons, List.count_cons, ih]
    congr 1
    by_cases ha : (a.user_id == u && a.project_id == p) = true
    · have hak : a.user_id = u ∧ a.project_id = p := by simpa using ha
      have h1 : ¬ a = v := fun h => hv (h ▸ hak)
      have h2 : ¬ ({ a with vote_type := t.getD a.vote_type } : Vote) = v := fun h => hv (h ▸ hak)
      simp [ha, h1, h2]
    · simp [ha]

/-- C3: `voteOnProject` preserves "at most one vote per (user, project) pair": on a store
that satisfies it, after any vote request the store still satisfies it, holds at most one
more vote record, and holds every vote of another pair exactly as before. -/
theorem vote_unique_preserved (db : Db) (req : Request) (h : OneVotePerPair db.votes) :
    OneVotePerPair (voteOnProject db req).1.votes ∧
    (voteOnProject db req).1.votes.length ≤ db.votes.length + 1 ∧
    ∀ v : Vote, ¬(req.user.map (fun u => u.id) = some v.user_id ∧ req.params_id = some v.project_id) →
      (voteOnProject db req).1.votes.count v = db.votes.count v := by
  rcases voteOnProject_cases db req with h0 | ⟨u, p, t, hu, hid, _, hv, h1⟩ | ⟨u, p, hu, hid, h2⟩
  · rw [h0]
    exact ⟨h, Nat.le_succ _, fun _ _ => rfl⟩
  · rw [h1]
    refine ⟨?_, by simp, ?_⟩
    · unfold OneVotePerPair at h ⊢
      have hno := (findVote_eq_none_iff db u.id p).1 hv
      rw [List.map_append, List.nodup_append]
      refine ⟨h, List.nodup_singleton _, ?_⟩
      intro k hk hk'
      simp only [List.map_cons, List.map_nil, List.mem_singleton] at hk'
      subst hk'
      obtain ⟨w, hw, hwk⟩ := List.mem_map.1 hk
      simp only [Prod.mk.injEq] at hwk
      exact hno w hw hwk
    · intro v hne
      have hvne : ¬ ({ user_id := u.id, project_id := p, vote_type := t } : Vote) = v := by
        intro hEq
        apply hne
        subst hEq
        simp [hu, hid]
      simp [List.count_append, List.count_cons, hvne]
  · rw [h2]
    refine ⟨?_, by simp [updateVote], ?_⟩
    · unfold OneVotePerPair at h ⊢
      rw [updateVote_keys]
      exact h
    · intro v hne
      apply updateVote_count_other
      intro hk
      apply hne
      simp [hu, hid, hk.1, hk.2]

theorem vote_unique_preserved_witness :
    OneVotePerPair sampleDb.votes ∧
    OneVotePerPair (voteOnProject sampleDb
      { user := some sampleVoter, params_id := some 1, vote_type := some "UPVOTE" }).1.votes :=
  ⟨by decide,
   (vote_unique_preserved sampleDb
      { user := some sampleVoter, params_id := some 1, vote_type := some "UPVOTE" } (by decide)).1⟩

/-! ## Update sync: the insertion pass -/

theorem findByPostId_eq_none_iff (s : XStore) (post_id : String) :
    findByPostId s post_id = none ↔ ∀ r ∈ s.rows, r.post_id ≠ post_id := by
  simp [findByPostId, List.find?_eq_none]

/-- A successful insert appends one row, built from the batch item, under the next id. -/
theorem createXUpdate_ok {s s' : XStore} {e : ItemEnv} {update : XPost} {saved : XUpdate}
    (h : createXUpdate s e update = .ok (s', saved)) :
    saved = { id := s.nextId, post_id := update.post_id, content := update.content,
              author := update.author, posted_at := update.posted_at, fetched_at := e.now } ∧
    s' = { rows := s.rows ++ [saved], nextId := s.nextId + 1 } := by
  unfold createXUpdate at h
  split at h
  · cases h
  · split at h
    · cases h
    · simp only [Except.ok.injEq, Prod.mk.injEq] at h
      obtain ⟨h1, h2⟩ := h
      subst h2
      exact ⟨rfl, h1.symm⟩

/-- Whatever holds of the store and the list of new updates before the insertion pass, and
is kept by every insert the pass performs, holds after the pass. -/
theorem storeUpdates_invariant (P : XStore → List XUpdate → Prop)
    (hstep : ∀ (s s' : XStore) (acc : List XUpdate) (e : ItemEnv) (update : XPost) (saved : XUpdate),
      P s acc → findByPostId s update.post_id = none →
      createXUpdate s e update = .ok (s', saved) → P s' (acc ++ [saved])) :
    ∀ (updates : List XPost) (item : Nat → ItemEnv) (s : XStore) (acc : List XUpdate),
      P s acc → P (storeUpdates item updates s acc).1 (storeUpdates item updates s acc).2 := by
  intro updates
  induction updates with
  | nil => intro item s acc h; simpa [storeUpdates] using h
  | cons update rest ih =>
    intro item s acc h
    unfold storeUpdates
    simp only
    split
    · exact ih _ s acc h
    · cases hf : findByPostId s update.post_id with
      | some r => exact ih _ s acc h
      | none =>
        cases hc : createXUpdate s (item 0) update with
        | error err => exact ih _ s acc h
        | ok res =>
          obtain ⟨s', saved⟩ := res
          exact ih _ s' _ (hstep s s' acc (item 0) update saved h hf hc)

/-- The insertion pass keeps the `post_id` values pairwise distinct. -/
theorem storeUpdates_distinct (updates : List XPost) (item : Nat → ItemEnv) (s : XStore)
    (acc : List XUpdate) (h : DistinctPostIds s.rows) :
    DistinctPostIds (storeUpdates item updates s acc).1.rows := by
  refine storeUpdates_invariant (fun s _ => DistinctPostIds s.rows) ?_ updates item s acc h
  intro s s' acc e update saved hd hf hc
  obtain ⟨hsaved, hs'⟩ := createXUpdate_ok hc
  subst hs'
  unfold DistinctPostIds at hd ⊢
  rw [List.map_append, List.nodup_append]
  refine ⟨hd, List.nodup_singleton _, ?_⟩
  intro k hk hk'
  simp only [List.map_cons, List.map_nil, List.mem_singleton] at hk'
  obtain ⟨r, hr, hrk⟩ := List.mem_map.1 hk
  have := (findByPostId_eq_none_iff s update.post_id).1 hf r hr
  apply this
  rw [hrk, hk', hsaved]

/-- The insertion pass keeps the primary key intact. -/
theorem storeUpdates_keysOk (updates : List XPost) (item : Nat → ItemEnv) (s : XStore)
    (acc : List XUpdate) (h : s.KeysOk) :
    (storeUpdates item updates s acc).1.KeysOk := by
  refine storeUpdates_invariant (fun s _ => s.KeysOk) ?_ updates item s acc h
  intro s s' acc e update saved hk _ hc
  obtain ⟨hsaved, hs'⟩ := createXUpdate_ok hc
  subst hs'
  obtain ⟨hnd, hlt⟩ := hk
  have hid : saved.id = s.nextId := by rw [hsaved]
  refine ⟨?_, ?_⟩
  · rw [List.map_append, List.nodup_append]
    refine ⟨hnd, List.nodup_singleton _, ?_⟩
    intro k hk hk'
    simp only [List.map_cons, List.map_nil, List.mem_singleton] at hk'
    obtain ⟨r, hr, hrk⟩ := List.mem_map.1 hk
    have := hlt r hr
    omega
  · intro r hr
    simp only [List.mem_append, List.mem_singleton] at hr
    rcases hr with hr | hr
    · have := hlt r hr
      simp only
      omega
    · subst hr
      simp only
      omega

/-- Rows of the store after the insertion pass are rows it held before or rows inserted for
a `post_id` it did not hold before; rows it held before are still there. -/
theorem storeUpdates_rows (updates : List XPost) (item : Nat → ItemEnv) (s0 : XStore)
    (acc : List XUpdate) :
    (∀ r ∈ s0.rows, r ∈ (storeUpdates item updates s0 acc).1.rows) ∧
    (∀ r ∈ (storeUpdates item updates s0 acc).1.rows,
      r ∈ s0.rows ∨ ∀ r0 ∈ s0.rows, r0.post_id ≠ r.post_id) := by
  refine storeUpdates_invariant
    (fun s _ => (∀ r ∈ s0.rows, r ∈ s.rows) ∧
      (∀ r ∈ s.rows, r ∈ s0.rows ∨ ∀ r0 ∈ s0.rows, r0.post_id ≠ r.post_id))
    ?_ updates item s0 acc ⟨fun _ h => h, fun _ h => Or.inl h⟩
  intro s s' acc e update saved hP hf hc
  obtain ⟨hsaved, hs'⟩ := createXUpdate_ok hc
  subst hs'
  obtain ⟨hsub, hold⟩ := hP
  refine ⟨fun r hr => List.mem_append_left _ (hsub r hr), ?_⟩
  intro r hr
  simp only [List.mem_append, List.mem_singleton] at hr
  rcases hr with hr | hr
  · exact hold r hr
  · right
    intro r0 hr0
    have := (findByPostId_eq_none_iff s update.post_id).1 hf r0 (hsub r0 hr0)
    rw [hr, hsaved]
    exact this

/-- With an empty batch the insertion pass does nothing. -/
theorem storeUpdates_nil (item : Nat → ItemEnv) (s : XStore) (acc : List XUpdate) :
    storeUpdates item [] s acc = (s, acc) := by
  simp [storeUpdates]

/-! ## Update sync: the clean-up -/

/-- A clean-up that completes leaves the rows whose id it did not select, and the sequence as it was. -/
theorem pruneOldUpdates_ok {env : SyncEnv} {s s' : XStore} (h : pruneOldUpdates env s = .ok s') :
    s'.nextId = s.nextId ∧
    s'.rows = s.rows.filter (fun r => !((oldUpdateIds env.orderBy s).contains r.id)) := by
  unfold pruneOldUpdates at h
  split at h
  · cases h
  · simp only at h
    split at h
    · split at h
      · cases h
      · cases h
        exact ⟨rfl, rfl⟩
    · rename_i hlen
      cases h
      have hnil : oldUpdateIds env.orderBy s = [] := by
        cases hl : oldUpdateIds env.orderBy s with
        | nil => rfl
        | cons a l => rw [hl] at hlen; simp at hlen
      refine ⟨rfl, ?_⟩
      rw [hnil]
      simp

/-- Without a failing store operation the clean-up completes. -/
theorem pruneOldUpdates_completes (env : SyncEnv) (s : XStore)
    (hf : env.findManyFails = false) (hd : env.deleteManyFails = false) :
    ∃ s', pruneOldUpdates env s = .ok s' := by
  unfold pruneOldUpdates
  simp only [hf, hd]
  by_cases hlen : (oldUpdateIds env.orderBy s).length > 0
  · exact ⟨{ s with rows := s.rows.filter (fun r => !((oldUpdateIds env.orderBy s).contains r.id)) },
      by simp [hlen]⟩
  · exact ⟨s, by simp [hlen]⟩

theorem pruneOldUpdates_sublist {env : SyncEnv} {s s' : XStore}
    (h : pruneOldUpdates env s = .ok s') : s'.rows.Sublist s.rows := by
  rw [(pruneOldUpdates_ok h).2]
  exact List.filter_sublist _

/-- With a primary key on `id`, deleting the selected ids keeps exactly the rows the store
listed before the `skip`. -/
theorem prune_rows_perm (orderBy : List XUpdate → List XUpdate) (s : XStore)
    (hnd : (s.rows.map (fun r => r.id)).Nodup) (hperm : (orderBy s.rows).Perm s.rows) :
    (s.rows.filter (fun r => !((oldUpdateIds orderBy s).contains r.id))).Perm
      ((orderBy s.rows).take retention) := by
  have hndL : ((orderBy s.rows).map (fun r => r.id)).Nodup :=
    ((hperm.map (fun r => r.id)).nodup_iff).2 hnd
  have hsplit : orderBy s.rows = (orderBy s.rows).take retention ++ (orderBy s.rows).drop retention :=
    (List.take_append_drop _ _).symm
  rw [hsplit, List.map_append, List.nodup_append] at hndL
  obtain ⟨_, _, hdisj⟩ := hndL
  have h1 : ((orderBy s.rows).take retention).filter
      (fun r => !((oldUpdateIds orderBy s).contains r.id)) = (orderBy s.rows).take retention := by
    rw [List.filter_eq_self]
    intro r hr
    have hmem : r.id ∈ ((orderBy s.rows).take retention).map (fun r => r.id) :=
      List.mem_map_of_mem _ hr
    have hnot : r.id ∉ oldUpdateIds orderBy s := fun hin => hdisj hmem hin
    simpa using hnot
  have h2 : ((orderBy s.rows).drop retention).filter
      (fun r => !((oldUpdateIds orderBy s).contains r.id)) = [] := by
    rw [List.filter_eq_nil_iff]
    intro r hr
    have hmem : r.id ∈ oldUpdateIds orderBy s := List.mem_map_of_mem _ hr
    simpa using hmem
  have h3 : (s.rows.filter (fun r => !((oldUpdateIds orderBy s).contains r.id))).Perm
      ((orderBy s.rows).filter (fun r => !((oldUpdateIds orderBy s).contains r.id))) :=
    (hperm.filter _).symm
  refine h3.trans ?_
  conv_lhs => rw [hsplit]
  rw [List.filter_append, h1, h2, List.append_nil]

/-- The store order used for the sample runs is a newest-first order. -/
theorem orderByPostedAtDesc_newestFirst : NewestFirst orderByPostedAtDesc := by
  intro rows
  refine ⟨List.perm_insertionSort _ rows, ?_⟩
  have : IsTotal XUpdate (fun a b => a.posted_at ≥ b.posted_at) :=
    ⟨fun a b => le_total b.posted_at a.posted_at⟩
  have : IsTrans XUpdate (fun a b => a.posted_at ≥ b.posted_at) :=
    ⟨fun a b c hab hbc => le_trans hbc hab⟩
  exact List.sorted_insertionSort (fun a b : XUpdate => a.posted_at ≥ b.posted_at) rows

/-! ## Update sync: the whole cycle -/

/-- One cycle keeps the `post_id` values pairwise distinct. -/
theorem fetchAndStoreUpdates_distinct (env : SyncEnv) (s : XStore) (h : DistinctPostIds s.rows) :
    DistinctPostIds (fetchAndStoreUpdates env s).1.rows := by
  have hpass := storeUpdates_distinct (fetchFromXAPI env.response) env.item s [] h
  unfold fetchAndStoreUpdates
  simp only
  cases hp : pruneOldUpdates env (storeUpdates env.item (fetchFromXAPI env.response) s []).1 with
  | error e => exact hpass
  | ok s' =>
    unfold DistinctPostIds at hpass ⊢
    exact hpass.sublist ((pruneOldUpdates_sublist hp).map _)

/-- C4: on a store whose `post_id` values are pairwise distinct, the store after
`fetchAndStoreUpdates` has pairwise distinct `post_id` values, whatever batch was fetched
and whatever failed; hence so has the store after any sequence of cycles. -/
theorem sync_distinct_post_ids (env : SyncEnv) (s : XStore) (h : DistinctPostIds s.rows) :
    DistinctPostIds (fetchAndStoreUpdates env s).1.rows ∧
    ∀ envs : List SyncEnv, DistinctPostIds (runCycles envs s).rows := by
  refine ⟨fetchAndStoreUpdates_distinct env s h, ?_⟩
  intro envs
  induction envs generalizing s with
  | nil => exact h
  | cons e es ih => exact ih _ (fetchAndStoreUpdates_distinct e s h)

theorem sync_distinct_post_ids_witness :
    DistinctPostIds sampleStore.rows ∧
    (fetchFromXAPI sampleEnv.response).map (fun u => u.post_id) = ["100", "102", "102"] ∧
    DistinctPostIds (fetchAndStoreUpdates sampleEnv sampleStore).1.rows :=
  ⟨by decide, by decide, (sync_distinct_post_ids sampleEnv sampleStore (by decide)).1⟩

/-- C5: on a store of any size with an intact primary key, whatever batch was fetched, a
cycle of `fetchAndStoreUpdates` that completes leaves at most 1000 posts; and the cycle
completes whenever the two store operations of the clean-up do not fail. -/
theorem sync_retention (env : SyncEnv) (s : XStore) (hk : s.KeysOk)
    (hperm : ∀ rows, (env.orderBy rows).Perm rows) :
    (∀ newUpdates, (fetchAndStoreUpdates env s).2 = .ok newUpdates →
      (fetchAndStoreUpdates env s).1.rows.length ≤ 1000) ∧
    (env.findManyFails = false → env.deleteManyFails = false →
      ∃ newUpdates, (fetchAndStoreUpdates env s).2 = .ok newUpdates) := by
  have hpass := storeUpdates_keysOk (fetchFromXAPI env.response) env.item s [] hk
  unfold fetchAndStoreUpdates
  simp only
  cases hp : pruneOldUpdates env (storeUpdates env.item (fetchFromXAPI env.response) s []).1 with
  | error e =>
    refine ⟨fun _ h => (by cases h), fun hf hd => ?_⟩
    obtain ⟨s', hs'⟩ := pruneOldUpdates_completes env
      (storeUpdates env.item (fetchFromXAPI env.response) s []).1 hf hd
    rw [hs'] at hp
    cases hp
  | ok s' =>
    refine ⟨fun _ _ => ?_, fun _ _ => ⟨_, rfl⟩⟩
    simp only
    rw [(pruneOldUpdates_ok hp).2, (prune_rows_perm env.orderBy _ hpass.1 (hperm _)).length_eq,
      List.length_take]
    exact Nat.min_le_left _ _

theorem sync_retention_witness :
    sampleStore.KeysOk ∧
    (fetchAndStoreUpdates sampleEnv sampleStore).1.rows.length ≤ 1000 :=
  ⟨by decide,
   (sync_retention sampleEnv sampleStore (by decide)
      (fun rows => (orderByPostedAtDesc_newestFirst rows).1)).1
     (storeUpdates sampleEnv.item (fetchFromXAPI sampleEnv.response) sampleStore []).2 rfl⟩

/-- C6: on a store with an intact primary key and a store order that lists the rows newest
first, the clean-up of `fetchAndStoreUpdates` completes and keeps exactly the first 1000
rows of that order: a row stays if and only if it is among the first 1000, every row kept
has `posted_at` at least that of every row deleted, `min n 1000` of the `n` rows are kept,
and nothing is deleted when `n ≤ 1000`. -/
theorem prune_keeps_newest (env : SyncEnv) (s : XStore)
    (hnd : (s.rows.map (fun r => r.id)).Nodup) (hord : NewestFirst env.orderBy)
    (hf : env.findManyFails = false) (hd : env.deleteManyFails = false) :
    ∃ s', pruneOldUpdates env s = .ok s' ∧
      s'.rows.Sublist s.rows ∧
      (∀ r, r ∈ s'.rows ↔ r ∈ (env.orderBy s.rows).take 1000) ∧
      (∀ kept ∈ s'.rows, ∀ deleted ∈ s.rows, deleted ∉ s'.rows →
        kept.posted_at ≥ deleted.posted_at) ∧
      s'.rows.length = min s.rows.length 1000 ∧
      (s.rows.length ≤ 1000 → s' = s) := by
  obtain ⟨s', hs'⟩ := pruneOldUpdates_completes env s hf hd
  obtain ⟨hperm, hsorted⟩ := hord s.rows
  have hrows := (pruneOldUpdates_ok hs').2
  have hkept : s'.rows.Perm ((env.orderBy s.rows).take 1000) := by
    rw [hrows]
    exact prune_rows_perm env.orderBy s hnd hperm
  have hmem : ∀ r, r ∈ s'.rows ↔ r ∈ (env.orderBy s.rows).take 1000 := fun r => hkept.mem_iff
  refine ⟨s', hs', pruneOldUpdates_sublist hs', hmem, ?_, ?_, ?_⟩
  · intro kept hk deleted hdel hnot
    have hk' := (hmem kept).1 hk
    have hdl : deleted ∈ env.orderBy s.rows := hperm.mem_iff.2 hdel
    rw [← List.take_append_drop 1000 (env.orderBy s.rows), List.mem_append] at hdl
    have hdrop : deleted ∈ (env.orderBy s.rows).drop 1000 := by
      rcases hdl with h | h
      · exact absurd ((hmem deleted).2 h) hnot
      · exact h
    rw [← List.take_append_drop 1000 (env.orderBy s.rows), List.pairwise_append] at hsorted
    exact hsorted.2.2 kept hk' deleted hdrop
  · rw [hkept.length_eq, List.length_take, hperm.length_eq, Nat.min_comm]
  · intro hlen
    have hdropnil : (env.orderBy s.rows).drop retention = [] := by
      apply List.drop_eq_nil_of_le
      rw [hperm.length_eq]
      exact hlen
    have hold : oldUpdateIds env.orderBy s = [] := by
      simp [oldUpdateIds, hdropnil]
    have hr : s'.rows = s.rows := by
      rw [hrows, hold]
      simp
    have hn := (pruneOldUpdates_ok hs').1
    cases s
    cases s'
    simp only at hr hn
    rw [hr, hn]

theorem prune_keeps_newest_witness :
    ∃ s', pruneOldUpdates sampleEnv sampleStore = .ok s' ∧
      s'.rows.Sublist sampleStore.rows ∧
      (∀ r, r ∈ s'.rows ↔ r ∈ (sampleEnv.orderBy sampleStore.rows).take 1000) ∧
      (∀ kept ∈ s'.rows, ∀ deleted ∈ sampleStore.rows, deleted ∉ s'.rows →
        kept.posted_at ≥ deleted.posted_at) ∧
      s'.rows.length = min sampleStore.rows.length 1000 ∧
      (sampleStore.rows.length ≤ 1000 → s' = sampleStore) :=
  prune_keeps_newest sampleEnv sampleStore (by decide) orderByPostedAtDesc_newestFirst rfl rfl

/-- Rows of the store after a cycle are rows it held before or rows inserted for a
`post_id` it did not hold before. -/
theorem fetchAndStoreUpdates_rows (env : SyncEnv) (s : XStore) :
    ∀ r ∈ (fetchAndStoreUpdates env s).1.rows,
      r ∈ s.rows ∨ ∀ r0 ∈ s.rows, r0.post_id ≠ r.post_id := by
  intro r hr
  have hpass := (storeUpdates_rows (fetchFromXAPI env.response) env.item s []).2
  unfold fetchAndStoreUpdates at hr
  simp only at hr
  cases hp : pruneOldUpdates env (storeUpdates env.item (fetchFromXAPI env.response) s []).1 with
  | error e =>
    rw [hp] at hr
    exact hpass r hr
  | ok s' =>
    rw [hp] at hr
    exact hpass r ((pruneOldUpdates_sublist hp).subset hr)

/-- C7: a post that is stored before a cycle and whose `post_id` is in the fetched batch is
not modified by `fetchAndStoreUpdates`: a row stored under that `post_id` after the cycle is
a row of the store before, and with pairwise distinct `post_id` values it is that very post,
with the same content, author, `posted_at` and `fetched_at`. -/
theorem sync_leaves_stored_post (env : SyncEnv) (s : XStore) (r r' : XUpdate)
    (hr : r ∈ s.rows)
    (_hb : r.post_id ∈ (fetchFromXAPI env.response).map (fun u => u.post_id))
    (hr' : r' ∈ (fetchAndStoreUpdates env s).1.rows) (hid : r'.post_id = r.post_id) :
    r' ∈ s.rows ∧ (DistinctPostIds s.rows → r' = r) := by
  have hold : r' ∈ s.rows := by
    rcases fetchAndStoreUpdates_rows env s r' hr' with h | h
    · exact h
    · exact absurd hid.symm (h r hr)
  refine ⟨hold, fun hd => ?_⟩
  exact List.inj_on_of_nodup_map hd hold hr hid

theorem sync_leaves_stored_post_witness :
    (fetchFromXAPI sampleEnv.response).head? =
      some { post_id := "100", content := "Edited text #AbiaState", author := "okoro", posted_at := 1000 } ∧
    (({ id := 1, post_id := "100", content := "Market day #AbiaState", author := "okoro",
        posted_at := 1000, fetched_at := 1500 } : XUpdate) ∈ sampleStore.rows ∧
     (DistinctPostIds sampleStore.rows →
      ({ id := 1, post_id := "100", content := "Market day #AbiaState", author := "okoro",
         posted_at := 1000, fetched_at := 1500 } : XUpdate) =
      { id := 1, post_id := "100", content := "Market day #AbiaState", author := "okoro",
        posted_at := 1000, fetched_at := 1500 })) :=
  ⟨by decide,
   sync_leaves_stored_post sampleEnv sampleStore
     { id := 1, post_id := "100", content := "Market day #AbiaState", author := "okoro",
       posted_at := 1000, fetched_at := 1500 }
     { id := 1, post_id := "100", content := "Market day #AbiaState", author := "okoro",
       posted_at := 1000, fetched_at := 1500 }
     (by decide) (by decide) (by decide) rfl⟩

/-- C8: when the request to the external feed fails, `fetchFromXAPI` returns the empty
batch; `fetchAndStoreUpdates` then inserts no post (the rows after are rows before and the
id sequence has not moved), and when the store operations of the clean-up do not fail it
returns the empty list of new updates instead of raising. -/
theorem sync_fetch_failure (env : SyncEnv) (s : XStore) (error : String)
    (hfail : env.response = .error error) :
    fetchFromXAPI env.response = [] ∧
    (∀ r ∈ (fetchAndStoreUpdates env s).1.rows, r ∈ s.rows) ∧
    (fetchAndStoreUpdates env s).1.nextId = s.nextId ∧
    (env.findManyFails = false → env.deleteManyFails = false →
      (fetchAndStoreUpdates env s).2 = .ok []) := by
  have hbatch : fetchFromXAPI env.response = [] := by rw [hfail]; rfl
  unfold fetchAndStoreUpdates
  simp only [hbatch, storeUpdates_nil]
  refine ⟨trivial, ?_⟩
  cases hp : pruneOldUpdates env s with
  | error e =>
    refine ⟨fun r hr => hr, rfl, fun hf hd => ?_⟩
    obtain ⟨s', hs'⟩ := pruneOldUpdates_completes env s hf hd
    rw [hs'] at hp
    cases hp
  | ok s' =>
    exact ⟨fun r hr => (pruneOldUpdates_sublist hp).subset hr, (pruneOldUpdates_ok hp).1,
      fun _ _ => rfl⟩

theorem sync_fetch_failure_witness :
    fetchFromXAPI (.error "Request failed with status code 429") = [] ∧
    (fetchAndStoreUpdates { sampleEnv with response := .error "Request failed with status code 429" }
      sampleStore).1.nextId = sampleStore.nextId :=
  ⟨(sync_fetch_failure { sampleEnv with response := .error "Request failed with status code 429" }
      sampleStore "Request failed with status code 429" rfl).1,
   (sync_fetch_failure { sampleEnv with response := .error "Request failed with status code 429" }
      sampleStore "Request failed with status code 429" rfl).2.2.1⟩

/-! ## Update sync: a failing item -/

/-- A batch item whose existence check or insert throws leaves the store and the list of new
updates as they were, and the pass goes on with the next item. -/
theorem storeUpdates_failing_head (item : Nat → ItemEnv) (x : XPost) (rest : List XPost)
    (s : XStore) (acc : List XUpdate)
    (hfail : (item 0).findFails = true ∨ (item 0).createFails = true) :
    storeUpdates item (x :: rest) s acc = storeUpdates (fun k => item (k + 1)) rest s acc := by
  rw [storeUpdates]
  split
  · rfl
  · rename_i hff
    have hcf : (item 0).createFails = true := by
      rcases hfail with h | h
      · exact absurd h hff
      · exact h
    cases hfind : findByPostId s x.post_id with
    | some r => rfl
    | none => simp [createXUpdate, hcf]

theorem skipItem_zero (item : Nat → ItemEnv) : skipItem item 0 = fun k => item (k + 1) := by
  funext k
  simp [skipItem]

theorem skipItem_succ (item : Nat → ItemEnv) (n : Nat) :
    (fun k => skipItem item (n + 1) (k + 1)) = skipItem (fun k => item (k + 1)) n := by
  funext k
  simp [skipItem]

/-- Taking a failing item out of the batch does not change the insertion pass. -/
theorem storeUpdates_skip (pre : List XPost) (x : XPost) (post : List XPost) :
    ∀ (item : Nat → ItemEnv) (s : XStore) (acc : List XUpdate),
      ((item pre.length).findFails = true ∨ (item pre.length).createFails = true) →
      storeUpdates item (pre ++ x :: post) s acc =
        storeUpdates (skipItem item pre.length) (pre ++ post) s acc := by
  induction pre with
  | nil =>
    intro item s acc hfail
    simp only [List.nil_append, List.length_nil]
    rw [storeUpdates_failing_head item x post s acc hfail, skipItem_zero]
  | cons a pre ih =>
    intro item s acc hfail
    have hhead : skipItem item (pre.length + 1) 0 = item 0 := by simp [skipItem]
    have hfail' : ((fun k => item (k + 1)) pre.length).findFails = true ∨
        ((fun k => item (k + 1)) pre.length).createFails = true := hfail
    simp only [List.cons_append, List.length_cons]
    rw [storeUpdates, storeUpdates]
    simp only [hhead, skipItem_succ]
    split
    · exact ih _ s acc hfail'
    · cases hfind : findByPostId s a.post_id with
      | some r => exact ih _ s acc hfail'
      | none =>
        cases hc : createXUpdate s (item 0) a with
        | error e => exact ih _ s acc hfail'
        | ok res => exact ih _ res.1 _ hfail'

/-- The insertion pass reads the item environments of the batch positions only. -/
theorem storeUpdates_congr (updates : List XPost) :
    ∀ (item item' : Nat → ItemEnv) (s : XStore) (acc : List XUpdate),
      (∀ k, k < updates.length → item k = item' k) →
      storeUpdates item updates s acc = storeUpdates item' updates s acc := by
  induction updates with
  | nil => intro item item' s acc _; simp [storeUpdates]
  | cons a rest ih =>
    intro item item' s acc h
    have h0 : item 0 = item' 0 := h 0 (by simp)
    have hlater : ∀ k, k < rest.length → (fun k => item (k + 1)) k = (fun k => item' (k + 1)) k :=
      fun k hk => h (k + 1) (by simpa using hk)
    rw [storeUpdates, storeUpdates]
    simp only [h0]
    split
    · exact ih _ _ s acc hlater
    · cases hfind : findByPostId s a.post_id with
      | some r => exact ih _ _ s acc hlater
      | none =>
        cases hc : createXUpdate s (item' 0) a with
        | error e => exact ih _ _ s acc hlater
        | ok res => exact ih _ _ res.1 _ hlater

/-- C9: when the existence check or the insert of the batch item at some position throws,
processing that item changes neither the store nor the list of new updates, and the whole
cycle (store afterwards, list returned, raised or not) is the one of the same batch without
that item: every later item is processed as if the failing one had not been fetched. -/
theorem sync_skips_failing_item (env env' : SyncEnv) (s : XStore)
    (pre post : List XPost) (x : XPost)
    (hbatch : fetchFromXAPI env.response = pre ++ x :: post)
    (hbatch' : fetchFromXAPI env'.response = pre ++ post)
    (hitem : env'.item = skipItem env.item pre.length)
    (hrest : env'.findManyFails = env.findManyFails ∧ env'.deleteManyFails = env.deleteManyFails ∧
      env'.orderBy = env.orderBy)
    (hfail : (env.item pre.length).findFails = true ∨ (env.item pre.length).createFails = true) :
    storeUpdates env.item (pre ++ [x]) s [] = storeUpdates env.item pre s [] ∧
    fetchAndStoreUpdates env s = fetchAndStoreUpdates env' s := by
  constructor
  · rw [storeUpdates_skip pre x [] env.item s [] hfail, List.append_nil]
    apply storeUpdates_congr
    intro k hk
    simp [skipItem, hk]
  · obtain ⟨h1, h2, h3⟩ := hrest
    have hpass : storeUpdates env.item (fetchFromXAPI env.response) s [] =
        storeUpdates env'.item (fetchFromXAPI env'.response) s [] := by
      rw [hbatch, hbatch', hitem]
      exact storeUpdates_skip pre x post env.item s [] hfail
    have hprune : ∀ st, pruneOldUpdates env st = pruneOldUpdates env' st := by
      intro st
      simp only [pruneOldUpdates, h1, h2, h3]
    simp only [fetchAndStoreUpdates, hpass, hprune]

theorem sync_skips_failing_item_witness :
    fetchAndStoreUpdates { sampleEnv with item := secondInsertFails } sampleStore =
      fetchAndStoreUpdates
        { sampleEnv with response := .ok shorterResponse, item := skipItem secondInsertFails 1 }
        sampleStore ∧
    (fetchAndStoreUpdates { sampleEnv with item := secondInsertFails } sampleStore).1.rows.map
        (fun r => r.post_id) = ["100", "101", "102"] :=
  ⟨(sync_skips_failing_item { sampleEnv with item := secondInsertFails }
      { sampleEnv with response := .ok shorterResponse, item := skipItem secondInsertFails 1 }
      sampleStore
      [{ post_id := "100", content := "Edited text #AbiaState", author := "okoro", posted_at := 1000 }]
      [{ post_id := "102", content := "New school #AbiaState", author := "Unknown", posted_at := 3000 }]
      { post_id := "102", content := "New school #AbiaState", author := "Unknown", posted_at := 3000 }
      (by decide) (by decide) rfl ⟨rfl, rfl, rfl⟩ (Or.inr (by decide))).2,
   by decide⟩

/-! ## Role-gated mutation -/

/-- C10: a requester `u` who is not of role ADMIN gets 403 "Insufficient permissions" from
`updateProject` and `deleteProject` on every existing project whose `proposer_id` is not
`u`, and from `updateTownhall` and `deleteTownhall` on every existing townhall whose
`organizer_id` is not `u`; the store is left as it was. -/
theorem mutation_forbidden_for_others (onDelete : Int → List Vote → Except String (List Vote))
    (db : Db) (req : Request) (u : User) (id : Int)
    (hu : req.user = some u) (hid : req.params_id = some id) (hrole : u.role ≠ "ADMIN") :
    (∀ project : Project, findProject db id = .ok (some project) → project.proposer_id ≠ u.id →
      updateProject db req =
        (db, .json { code := 403, status := "error", message := some "Insufficient permissions",
                     data := none }) ∧
      deleteProject onDelete db req =
        (db, .json { code := 403, status := "error", message := some "Insufficient permissions",
                     data := none })) ∧
    (∀ townhall : Townhall, findTownhall db id = .ok (some townhall) → townhall.organizer_id ≠ u.id →
      updateTownhall db req =
        (db, .json { code := 403, status := "error", message := some "Insufficient permissions",
                     data := none }) ∧
      deleteTownhall db req =
        (db, .json { code := 403, status := "error", message := some "Insufficient permissions",
                     data := none })) := by
  refine ⟨?_, ?_⟩
  · intro project hp hnot
    exact ⟨by simp [updateProject, hu, hid, hp, hnot, hrole],
           by simp [deleteProject, hu, hid, hp, hnot, hrole]⟩
  · intro townhall ht hnot
    exact ⟨by simp [updateTownhall, hu, hid, ht, hnot, hrole],
           by simp [deleteTownhall, hu, hid, ht, hnot, hrole]⟩

theorem mutation_forbidden_for_others_witness :
    updateProject { projects := sampleDb.projects, votes := [], townhalls := [] }
        { user := some sampleVoter, params_id := some 1, title := some "Taken over", status := some "APPROVED" } =
      ({ projects := sampleDb.projects, votes := [], townhalls := [] },
       .json { code := 403, status := "error", message := some "Insufficient permissions",
               data := none }) ∧
    deleteTownhall sampleDb { user := some sampleVoter, params_id := some 3 } =
      (sampleDb, .json { code := 403, status := "error", message := some "Insufficient permissions",
                         data := none }) :=
  ⟨((mutation_forbidden_for_others cascadeVotes
        { projects := sampleDb.projects, votes := [], townhalls := [] }
        { user := some sampleVoter, params_id := some 1, title := some "Taken over", status := some "APPROVED" }
        sampleVoter 1 rfl rfl (by decide)).1
      { id := 1, title := "Road repair", description := "Resurface the market road",
        status := "PROPOSED", proposer_id := 7 } (by decide) (by decide)).1,
   ((mutation_forbidden_for_others cascadeVotes sampleDb
        { user := some sampleVoter, params_id := some 3 } sampleVoter 3 rfl rfl (by decide)).2
      { id := 3, title := "Budget hearing", description := "Open budget session",
        scheduled_at := 1900000000000, zoom_link := none, status := "SCHEDULED", organizer_id := 7 }
      (by decide) (by decide)).2⟩

/-- A lookup by an id of the id column that no stored project has finds nothing. -/
theorem findProject_missing {db : Db} {id : Int} (hfit : fitsInt id = true)
    (hno : ∀ p ∈ db.projects, p.id ≠ id) : findProject db id = .ok none := by
  have h : db.projects.find? (fun p => p.id == id) = none := by
    rw [List.find?_eq_none]
    intro p hp
    simpa using hno p hp
  simp [findProject, hfit, h]

/-- A lookup by an id of the id column that no stored townhall has finds nothing. -/
theorem findTownhall_missing {db : Db} {id : Int} (hfit : fitsInt id = true)
    (hno : ∀ t ∈ db.townhalls, t.id ≠ id) : findTownhall db id = .ok none := by
  have h : db.townhalls.find? (fun t => t.id == id) = none := by
    rw [List.find?_eq_none]
    intro t ht
    simpa using hno t ht
  simp [findTownhall, hfit, h]

/-- C11 as stated fails for an id beyond the id column: 2147483648 names no stored project
and no stored townhall of `sampleDb` and passes the `isInt({ min: 1 })` check of the routes,
yet the four handlers, called by an ADMIN, do not answer 404: the lookup throws and the
error is handed to `next`. -/
theorem out_of_range_id_not_404 :
    (∀ p ∈ sampleDb.projects, p.id ≠ 2147483648) ∧
    (∀ t ∈ sampleDb.townhalls, t.id ≠ 2147483648) ∧
    updateProject sampleDb { user := some sampleAdmin, params_id := some 2147483648 } =
      (sampleDb, .forwarded "PrismaClientValidationError") ∧
    deleteProject cascadeVotes sampleDb { user := some sampleAdmin, params_id := some 2147483648 } =
      (sampleDb, .forwarded "PrismaClientValidationError") ∧
    updateTownhall sampleDb { user := some sampleAdmin, params_id := some 2147483648 } =
      (sampleDb, .forwarded "PrismaClientValidationError") ∧
    deleteTownhall sampleDb { user := some sampleAdmin, params_id := some 2147483648 } =
      (sampleDb, .forwarded "PrismaClientValidationError") ∧
    updateProject sampleDb { user := some sampleAdmin, params_id := some 2147483648 } ≠
      (sampleDb, .json { code := 404, status := "error", message := some "Project not found",
                         data := none }) := by
  decide

/-- C11 (amended): for an id within the range of the id column, whoever the requester is
(none, an ordinary user, an owner of other resources or an ADMIN), `updateProject` and
`deleteProject` answer 404 when no stored project has the id, and `updateTownhall` and
`deleteTownhall` answer 404 when no stored townhall has it; the store is left as it was:
the permission check is not reached. -/
theorem missing_resource_not_found (onDelete : Int → List Vote → Except String (List Vote))
    (db : Db) (req : Request) (id : Int)
    (hid : req.params_id = some id) (hfit : fitsInt id = true) :
    ((∀ p ∈ db.projects, p.id ≠ id) →
      updateProject db req =
        (db, .json { code := 404, status := "error", message := some "Project not found",
                     data := none }) ∧
      deleteProject onDelete db req =
        (db, .json { code := 404, status := "error", message := some "Project not found",
                     data := none })) ∧
    ((∀ t ∈ db.townhalls, t.id ≠ id) →
      updateTownhall db req =
        (db, .json { code := 404, status := "error", message := some "Townhall not found",
                     data := none }) ∧
      deleteTownhall db req =
        (db, .json { code := 404, status := "error", message := some "Townhall not found",
                     data := none })) := by
  refine ⟨?_, ?_⟩
  · intro hno
    have hp := findProject_missing hfit hno
    exact ⟨by simp [updateProject, hid, hp], by simp [deleteProject, hid, hp]⟩
  · intro hno
    have ht := findTownhall_missing hfit hno
    exact ⟨by simp [updateTownhall, hid, ht], by simp [deleteTownhall, hid, ht]⟩

theorem missing_resource_not_found_witness :
    updateProject sampleDb { user := some sampleAdmin, params_id := some 99, status := some "APPROVED" } =
      (sampleDb, .json { code := 404, status := "error", message := some "Project not found",
                         data := none }) ∧
    deleteTownhall sampleDb { user := some sampleVoter, params_id := some 2147483647 } =
      (sampleDb, .json { code := 404, status := "error", message := some "Townhall not found",
                         data := none }) :=
  ⟨((missing_resource_not_found cascadeVotes sampleDb
       { user := some sampleAdmin, params_id := some 99, status := some "APPROVED" } 99 rfl
       (by decide)).1 (by decide)).1,
   ((missing_resource_not_found cascadeVotes sampleDb
       { user := some sampleVoter, params_id := some 2147483647 } 2147483647 rfl
       (by decide)).2 (by decide)).2⟩

/-- The `updateData` object `updateProject` builds for a requester and a body. -/
theorem updateProject_permitted {db : Db} {req : Request} {u : User} {id : Int} {project : Project}
    (hu : req.user = some u) (hid : req.params_id = some id)
    (hp : findProject db id = .ok (some project))
    (hperm : project.proposer_id = u.id ∨ u.role = "ADMIN") :
    updateProject db req =
      (updateProjectRow db id
          { title := if truthy req.title then req.title else none
            description := if truthy req.description then req.description else none
            status := if truthy req.status && u.role == "ADMIN" then req.status else none },
       .json { code := 200, status := "success", message := some "Project updated successfully",
               data := some (ProjectUpdateData.applyTo
                 { title := if truthy req.title then req.title else none
                   description := if truthy req.description then req.description else none
                   status := if truthy req.status && u.role == "ADMIN" then req.status else none }
                 project) }) := by
  have hguard : (project.proposer_id != u.id && u.role != "ADMIN") = false := by
    rcases hperm with h | h <;> simp [h]
  simp [updateProject, hu, hid, hp, hguard]

/-- What `updateTownhall` does for a permitted requester whose `scheduled_at`, if supplied
with a non-empty value, is read by `new Date`: the rows of the id are rewritten with the
`updateData` it built. -/
theorem updateTownhall_permitted {db : Db} {req : Request} {u : User} {id : Int}
    {townhall : Townhall} (hu : req.user = some u) (hid : req.params_id = some id)
    (hp : findTownhall db id = .ok (some townhall))
    (hperm : townhall.organizer_id = u.id ∨ u.role = "ADMIN")
    (hdate : scheduledAtDate req.scheduled_at ≠ some none) :
    updateTownhall db req =
      (rewriteTownhalls db id
          { title := if truthy req.title then req.title else none
            description := if truthy req.description then req.description else none
            scheduled_at := scheduledAtDate req.scheduled_at
            zoom_link := if truthy req.zoom_link then req.zoom_link else none
            status := if truthy req.status && u.role == "ADMIN" then req.status else none },
       .json { code := 200, status := "success", message := some "Townhall updated successfully",
               data := some (TownhallUpdateData.applyTo
                 { title := if truthy req.title then req.title else none
                   description := if truthy req.description then req.description else none
                   scheduled_at := scheduledAtDate req.scheduled_at
                   zoom_link := if truthy req.zoom_link then req.zoom_link else none
                   status := if truthy req.status && u.role == "ADMIN" then req.status else none }
                 townhall) }) := by
  have hguard : (townhall.organizer_id != u.id && u.role != "ADMIN") = false := by
    rcases hperm with h | h <;> simp [h]
  simp [updateTownhall, updateTownhallRow, hu, hid, hp, hguard, hdate]

/-- What `updateTownhall` does for a permitted requester whose `scheduled_at` is read as an
invalid date: the update throws, the error is handed to `next` and nothing is written. -/
theorem updateTownhall_unreadable {db : Db} {req : Request} {u : User} {id : Int}
    {townhall : Townhall} (hu : req.user = some u) (hid : req.params_id = some id)
    (hp : findTownhall db id = .ok (some townhall))
    (hperm : townhall.organizer_id = u.id ∨ u.role = "ADMIN")
    (hdate : scheduledAtDate req.scheduled_at = some none) :
    updateTownhall db req = (db, .forwarded "PrismaClientValidationError") := by
  have hguard : (townhall.organizer_id != u.id && u.role != "ADMIN") = false := by
    rcases hperm with h | h <;> simp [h]
  simp [updateTownhall, updateTownhallRow, hu, hid, hp, hguard, hdate]

/-- `updateProject` leaves the store as it was or rewrites the rows of the requested id with
the `updateData` it built. -/
theorem updateProject_cases (db : Db) (req : Request) :
    (updateProject db req).1 = db ∨
    ∃ u id, req.user = some u ∧ req.params_id = some id ∧
      (updateProject db req).1 = updateProjectRow db id
          { title := if truthy req.title then req.title else none
            description := if truthy req.description then req.description else none
            status := if truthy req.status && u.role == "ADMIN" then req.status else none } := by
  cases hid : req.params_id with
  | none => left; simp [updateProject, hid]
  | some id =>
    rcases hp : findProject db id with e | _ | project
    · left; simp [updateProject, hid, hp]
    · left; simp [updateProject, hid, hp]
    · cases hu : req.user with
      | none => left; simp [updateProject, hid, hp, hu]
      | some u =>
        by_cases hperm : project.proposer_id = u.id ∨ u.role = "ADMIN"
        · right
          exact ⟨u, id, rfl, rfl, by rw [updateProject_permitted hu hid hp hperm]⟩
        · left
          have hguard : (project.proposer_id != u.id && u.role != "ADMIN") = true := by
            simp only [not_or] at hperm
            simp [hperm.1, hperm.2]
          simp [updateProject, hid, hp, hu, hguard]

/-- `updateTownhall` leaves the store as it was or rewrites the rows of the requested id with
the `updateData` it built. -/
theorem updateTownhall_cases (db : Db) (req : Request) :
    (updateTownhall db req).1 = db ∨
    ∃ u id, req.user = some u ∧ req.params_id = some id ∧
      (updateTownhall db req).1 = rewriteTownhalls db id
          { title := if truthy req.title then req.title else none
            description := if truthy req.description then req.description else none
            scheduled_at := scheduledAtDate req.scheduled_at
            zoom_link := if truthy req.zoom_link then req.zoom_link else none
            status := if truthy req.status && u.role == "ADMIN" then req.status else none } := by
  cases hid : req.params_id with
  | none => left; simp [updateTownhall, hid]
  | some id =>
    rcases hp : findTownhall db id with e | _ | townhall
    · left; simp [updateTownhall, hid, hp]
    · left; simp [updateTownhall, hid, hp]
    · cases hu : req.user with
      | none => left; simp [updateTownhall, hid, hp, hu]
      | some u =>
        by_cases hperm : townhall.organizer_id = u.id ∨ u.role = "ADMIN"
        · by_cases hdate : scheduledAtDate req.scheduled_at = some none
          · left
            rw [updateTownhall_unreadable hu hid hp hperm hdate]
          · right
            exact ⟨u, id, rfl, rfl, by rw [updateTownhall_permitted hu hid hp hperm hdate]⟩
        · left
          have hguard : (townhall.organizer_id != u.id && u.role != "ADMIN") = true := by
            simp only [not_or] at hperm
            simp [hperm.1, hperm.2]
          simp [updateTownhall, hid, hp, hu, hguard]

/-- An `updateData` without a status leaves every stored project status. -/
theorem updateProjectRow_statuses (db : Db) (id : Int) (data : ProjectUpdateData)
    (h : data.status = none) :
    (updateProjectRow db id data).projects.map (fun p => p.status) =
      db.projects.map (fun p => p.status) := by
  simp only [updateProjectRow, List.map_map]
  apply List.map_congr_left
  intro p _
  simp only [Function.comp]
  split
  · simp [ProjectUpdateData.applyTo, h]
  · rfl

/-- An `updateData` without a status leaves every stored townhall status. -/
theorem rewriteTownhalls_statuses (db : Db) (id : Int) (data : TownhallUpdateData)
    (h : data.status = none) :
    (rewriteTownhalls db id data).townhalls.map (fun t => t.status) =
      db.townhalls.map (fun t => t.status) := by
  simp only [rewriteTownhalls, List.map_map]
  apply List.map_congr_left
  intro t _
  simp only [Function.comp]
  split
  · simp [TownhallUpdateData.applyTo, h]
  · rfl

/-- An `updateData` with a status gives it to every row of the requested id. -/
theorem updateProjectRow_status_written (db : Db) (id : Int) (data : ProjectUpdateData)
    (st : String) (h : data.status = some st) :
    ∀ p ∈ (updateProjectRow db id data).projects, p.id = id → p.status = st := by
  intro p hp hpid
  simp only [updateProjectRow, List.mem_map] at hp
  obtain ⟨q, _, hq⟩ := hp
  by_cases hqid : (q.id == id) = true
  · rw [if_pos hqid] at hq
    rw [← hq]
    simp [ProjectUpdateData.applyTo, h]
  · rw [if_neg hqid] at hq
    subst hq
    exact absurd (by simpa using hpid) hqid

/-- An `updateData` with a status gives it to every row of the requested id. -/
theorem rewriteTownhalls_status_written (db : Db) (id : Int) (data : TownhallUpdateData)
    (st : String) (h : data.status = some st) :
    ∀ t ∈ (rewriteTownhalls db id data).townhalls, t.id = id → t.status = st := by
  intro t ht htid
  simp only [rewriteTownhalls, List.mem_map] at ht
  obtain ⟨q, _, hq⟩ := ht
  by_cases hqid : (q.id == id) = true
  · rw [if_pos hqid] at hq
    rw [← hq]
    simp [TownhallUpdateData.applyTo, h]
  · rw [if_neg hqid] at hq
    subst hq
    exact absurd (by simpa using htid) hqid

/-- A status the `status` chain of the route accepts is not the empty string. -/
theorem statusCheck_truthy {allowed : List String} {message st : String}
    (hne : "" ∉ allowed) (h : statusCheck allowed message (some st) = []) :
    truthy (some st) = true := by
  have hmem : st ∈ allowed := by
    by_contra hc
    simp [statusCheck, hc] at h
  have : st ≠ "" := fun h0 => hne (h0 ▸ hmem)
  simp [truthy, this]

/-- A `scheduled_at` that is absent, empty or read by `new Date` puts no invalid date into
the `updateData`. -/
theorem scheduledAtDate_readable {scheduled_at : Option DateField}
    (h : ∀ f, scheduled_at = some f → f.value ≠ "" → f.date ≠ none) :
    scheduledAtDate scheduled_at ≠ some none := by
  cases hs : scheduled_at with
  | none => simp [scheduledAtDate]
  | some f =>
    by_cases hv : f.value = ""
    · simp [scheduledAtDate, truthy, hv]
    · have hd := h f hs hv
      simp [scheduledAtDate, truthy, hv, hd]

/-- C12 as stated fails for an update of a townhall whose `scheduled_at` the validation
accepts and `new Date` cannot read (the week date `2030-W01`): the update throws, so the
call of the townhall's organizer does not succeed and does not apply the new title, and the
status `LIVE` an ADMIN supplies with it is not written; the store stays as it was. -/
theorem update_with_unreadable_date_fails :
    sampleOwner.role ≠ "ADMIN" ∧ sampleAdmin.role = "ADMIN" ∧
    sampleDb.townhalls.map (fun t => (t.id, t.organizer_id, t.status)) = [(3, sampleOwner.id, "SCHEDULED")] ∧
    updateScheduledAtCheck 1800000000000
      (some { value := "2030-W01", isISO8601 := true, date := none }) = [] ∧
    statusCheck townhallStatuses "Status must be one of: SCHEDULED, LIVE, COMPLETED, CANCELLED"
      (some "LIVE") = [] ∧
    updateTownhall sampleDb
        { user := some sampleOwner, params_id := some 3, title := some "Budget hearing, second session",
          scheduled_at := some { value := "2030-W01", isISO8601 := true, date := none } } =
      (sampleDb, .forwarded "PrismaClientValidationError") ∧
    updateTownhall sampleDb
        { user := some sampleAdmin, params_id := some 3, status := some "LIVE",
          scheduled_at := some { value := "2030-W01", isISO8601 := true, date := none } } =
      (sampleDb, .forwarded "PrismaClientValidationError") := by
  decide

/-- C12 (amended): a requester whose role is not ADMIN never writes a status through
`updateProject` or `updateTownhall`, whatever the body carries: the stored statuses after the
call are the stored statuses before. For the resource's creator the call still succeeds with
the other fields applied and no status in the update, and for an ADMIN a status value that
the route's validation accepts is written to the resource; for `updateTownhall` both hold
when `scheduled_at` is absent, empty or a value `new Date` reads. -/
theorem status_written_by_admin_only (db : Db) :
    (∀ req : Request, (∀ u, req.user = some u → u.role ≠ "ADMIN") →
      (updateProject db req).1.projects.map (fun p => p.status) =
        db.projects.map (fun p => p.status) ∧
      (updateTownhall db req).1.townhalls.map (fun t => t.status) =
        db.townhalls.map (fun t => t.status)) ∧
    (∀ (req : Request) (u : User) (pid : Int) (project : Project),
      req.user = some u → u.role ≠ "ADMIN" → req.params_id = some pid →
      findProject db pid = .ok (some project) → project.proposer_id = u.id →
      updateProject db req =
        (updateProjectRow db pid
            { title := if truthy req.title then req.title else none
              description := if truthy req.description then req.description else none
              status := none },
         .json { code := 200, status := "success", message := some "Project updated successfully",
                 data := some (ProjectUpdateData.applyTo
                   { title := if truthy req.title then req.title else none
                     description := if truthy req.description then req.description else none
                     status := none }
                   project) })) ∧
    (∀ (req : Request) (u : User) (tid : Int) (townhall : Townhall),
      req.user = some u → u.role ≠ "ADMIN" → req.params_id = some tid →
      findTownhall db tid = .ok (some townhall) → townhall.organizer_id = u.id →
      (∀ f, req.scheduled_at = some f → f.value ≠ "" → f.date ≠ none) →
      updateTownhall db req =
        (rewriteTownhalls db tid
            { title := if truthy req.title then req.title else none
              description := if truthy req.description then req.description else none
              scheduled_at := scheduledAtDate req.scheduled_at
              zoom_link := if truthy req.zoom_link then req.zoom_link else none
              status := none },
         .json { code := 200, status := "success", message := some "Townhall updated successfully",
                 data := some (TownhallUpdateData.applyTo
                   { title := if truthy req.title then req.title else none
                     description := if truthy req.description then req.description else none
                     scheduled_at := scheduledAtDate req.scheduled_at
                     zoom_link := if truthy req.zoom_link then req.zoom_link else none
                     status := none }
                   townhall) })) ∧
    (∀ (req : Request) (admin : User) (pid : Int) (st : String) (project : Project),
      req.user = some admin → admin.role = "ADMIN" → req.params_id = some pid →
      req.status = some st →
      statusCheck projectStatuses "Status must be one of: PROPOSED, APPROVED, REJECTED" req.status = [] →
      findProject db pid = .ok (some project) →
      (∃ updated : Project, (updateProject db req).2 =
          .json { code := 200, status := "success", message := some "Project updated successfully",
                  data := some updated } ∧ updated.status = st) ∧
      ∀ p ∈ (updateProject db req).1.projects, p.id = pid → p.status = st) ∧
    (∀ (req : Request) (admin : User) (tid : Int) (st : String) (townhall : Townhall),
      req.user = some admin → admin.role = "ADMIN" → req.params_id = some tid →
      req.status = some st →
      statusCheck townhallStatuses "Status must be one of: SCHEDULED, LIVE, COMPLETED, CANCELLED"
        req.status = [] →
      findTownhall db tid = .ok (some townhall) →
      (∀ f, req.scheduled_at = some f → f.value ≠ "" → f.date ≠ none) →
      (∃ updated : Townhall, (updateTownhall db req).2 =
          .json { code := 200, status := "success", message := some "Townhall updated successfully",
                  data := some updated } ∧ updated.status = st) ∧
      ∀ t ∈ (updateTownhall db req).1.townhalls, t.id = tid → t.status = st) := by
  refine ⟨?_, ?_, ?_, ?_, ?_⟩
  · intro req hnon
    constructor
    · rcases updateProject_cases db req with h | ⟨u, pid, hu, _, h⟩
      · rw [h]
      · rw [h]
        apply updateProjectRow_statuses
        simp [hnon u hu]
    · rcases updateTownhall_cases db req with h | ⟨u, tid, hu, _, h⟩
      · rw [h]
      · rw [h]
        apply rewriteTownhalls_statuses
        simp [hnon u hu]
  · intro req u pid project hu hnon hpid hp hown
    rw [updateProject_permitted hu hpid hp (Or.inl hown)]
    simp [hnon]
  · intro req u tid townhall hu hnon htid hp hown hdate
    rw [updateTownhall_permitted hu htid hp (Or.inl hown) (scheduledAtDate_readable hdate)]
    simp [hnon]
  · intro req admin pid st project hadmin hrole hid hst hcheck hp
    have htruthy : truthy (some st) = true := by
      rw [hst] at hcheck
      exact statusCheck_truthy (by decide) hcheck
    rw [updateProject_permitted hadmin hid hp (Or.inr hrole)]
    refine ⟨⟨_, rfl, ?_⟩, ?_⟩
    · simp [ProjectUpdateData.applyTo, hst, htruthy, hrole]
    · apply updateProjectRow_status_written
      simp [hst, htruthy, hrole]
  · intro req admin tid st townhall hadmin hrole hid hst hcheck hp hdate
    have htruthy : truthy (some st) = true := by
      rw [hst] at hcheck
      exact statusCheck_truthy (by decide) hcheck
    rw [updateTownhall_permitted hadmin hid hp (Or.inr hrole) (scheduledAtDate_readable hdate)]
    refine ⟨⟨_, rfl, ?_⟩, ?_⟩
    · simp [TownhallUpdateData.applyTo, hst, htruthy, hrole]
    · apply rewriteTownhalls_status_written
      simp [hst, htruthy, hrole]

theorem status_written_by_admin_only_witness :
    (updateProject sampleDb
        { user := some sampleOwner, params_id := some 1, title := some "Road repair, phase two",
          status := some "APPROVED" }).1.projects.map (fun p => p.status) = ["PROPOSED"] ∧
    (∀ t ∈ (updateTownhall sampleDb
        { user := some sampleAdmin, params_id := some 3, status := some "LIVE",
          scheduled_at := some { value := "2031-01-01", isISO8601 := true,
                                 date := some 1924992000000 } }).1.townhalls,
      t.id = 3 → t.status = "LIVE") :=
  ⟨((status_written_by_admin_only sampleDb).1
      { user := some sampleOwner, params_id := some 1, title := some "Road repair, phase two",
        status := some "APPROVED" } (by decide)).1,
   ((status_written_by_admin_only sampleDb).2.2.2.2
      { user := some sampleAdmin, params_id := some 3, status := some "LIVE",
        scheduled_at := some { value := "2031-01-01", isISO8601 := true,
                               date := some 1924992000000 } }
      sampleAdmin 3 "LIVE"
      { id := 3, title := "Budget hearing", description := "Open budget session",
        scheduled_at := 1900000000000, zoom_link := none, status := "SCHEDULED", organizer_id := 7 }
      rfl rfl rfl rfl (by decide) (by decide) (by decide)).2⟩

/-! ## Validation of `scheduled_at` -/

/-- C13 as stated fails for a valid ISO 8601 value that `new Date` cannot read: the week date
`2020-W01` denotes the instant 1577664000000 (30 December 2019), which is in the past at
`now = 1800000000000`, yet the checks of `createTownhallValidation` and of
`updateTownhallValidation` both accept it, because `scheduledDate <= now` is false for an
invalid date. -/
theorem past_week_date_accepted :
    ¬ (createScheduledAtCheck 1800000000000
          (some { value := "2020-W01", isISO8601 := true, date := none }) = [] ↔
        (1800000000000 : Int) < 1577664000000) ∧
    ¬ (updateScheduledAtCheck 1800000000000
          (some { value := "2020-W01", isISO8601 := true, date := none }) = [] ↔
        (1800000000000 : Int) < 1577664000000) := by
  decide

/-- C13 (amended): for a value the ISO 8601 check accepts and `new Date` reads, as the
instant `t` it denotes, at current time `now`, the `scheduled_at` checks of
`createTownhallValidation` and of `updateTownhallValidation` record no error if and only if
`now < t`; when `t ≤ now` they record exactly "Scheduled date must be in the future"; and the
update check accepts a request without `scheduled_at`. -/
theorem scheduled_at_strictly_future (now t : Int) (f : DateField)
    (hiso : f.isISO8601 = true) (hval : f.value ≠ "") (hdate : f.date = some t) :
    (createScheduledAtCheck now (some f) = [] ↔ now < t) ∧
    (updateScheduledAtCheck now (some f) = [] ↔ now < t) ∧
    (t ≤ now → createScheduledAtCheck now (some f) = ["Scheduled date must be in the future"] ∧
      updateScheduledAtCheck now (some f) = ["Scheduled date must be in the future"]) ∧
    updateScheduledAtCheck now none = [] := by
  have htr : truthy (some f.value) = true := by simp [truthy, hval]
  refine ⟨?_, ?_, ?_, rfl⟩
  · simp only [createScheduledAtCheck, hiso, hdate, dateLe]
    by_cases h : t ≤ now
    · simp [h]
    · simp [h]
      omega
  · simp only [updateScheduledAtCheck, hiso, hdate, dateLe, htr]
    by_cases h : t ≤ now
    · simp [h]
    · simp [h]
      omega
  · intro h
    simp [createScheduledAtCheck, updateScheduledAtCheck, hiso, hdate, dateLe, htr, h]

/-- A value that `new Date` reads as an invalid date is never refused by the date comparison:
`scheduledDate <= now` is false for it, whatever the current time. -/
theorem scheduled_at_invalid_date_passes (now : Int) (f : DateField)
    (hiso : f.isISO8601 = true) (hdate : f.date = none) :
    createScheduledAtCheck now (some f) = [] ∧ updateScheduledAtCheck now (some f) = [] := by
  simp [createScheduledAtCheck, updateScheduledAtCheck, hiso, hdate, dateLe]

theorem scheduled_at_strictly_future_witness :
    (createScheduledAtCheck 1700000000000
        (some { value := "2023-11-14T22:13:20.000Z", isISO8601 := true, date := some 1700000000000 }) = [] ↔
      (1700000000000 : Int) < 1700000000000) ∧
    createScheduledAtCheck 1700000000000
        (some { value := "2023-11-14T22:13:20.000Z", isISO8601 := true, date := some 1700000000000 }) =
      ["Scheduled date must be in the future"] :=
  have h := scheduled_at_strictly_future 1700000000000 1700000000000
    { value := "2023-11-14T22:13:20.000Z", isISO8601 := true, date := some 1700000000000 }
    rfl (by decide) rfl
  ⟨h.1, (h.2.2.1 (le_refl _)).1⟩

/-! ## Registration and login -/

theorem findFirstUser_eq_none_iff (s : UserStore) (email username : String) :
    findFirstUser s email username = none ↔
      ∀ u ∈ s.users, u.email ≠ email ∧ u.username ≠ username := by
  simp [findFirstUser, List.find?_eq_none]

/-- A registration that meets a stored email or a stored username is answered 409 and
creates nothing. -/
theorem register_existing {env : AuthEnv} {s : UserStore} {body : AuthBody}
    (h : ∃ u ∈ s.users, u.email = body.email ∨ u.username = body.username) :
    register env s body =
      (s, .json { code := 409, status := "error",
                  message := some "User with this email or username already exists",
                  data := none }) := by
  cases hf : findFirstUser s body.email body.username with
  | some u => simp [register, hf]
  | none =>
    obtain ⟨u, hu, hdup⟩ := h
    have := (findFirstUser_eq_none_iff s body.email body.username).1 hf u hu
    rcases hdup with h1 | h1
    · exact absurd h1 this.1
    · exact absurd h1 this.2

/-- A registration that meets no stored email and no stored username appends the user. -/
theorem register_fresh {env : AuthEnv} {s : UserStore} {body : AuthBody}
    (h : findFirstUser s body.email body.username = none) :
    register env s body =
      ({ users := s.users ++ [{ id := s.nextId, email := body.email, username := body.username,
                                password_hash := env.hash body.password, role := env.defaultRole,
                                created_at := env.now }]
         nextId := s.nextId + 1 },
       .json { code := 201, status := "success", message := some "User registered successfully",
               data := some
                 { user := selectRegistered
                     { id := s.nextId, email := body.email, username := body.username,
                       password_hash := env.hash body.password, role := env.defaultRole,
                       created_at := env.now }
                   token := env.generateToken
                     { id := s.nextId, email := body.email, role := env.defaultRole } } }) := by
  have hnone := (findFirstUser_eq_none_iff s body.email body.username).1 h
  have hemail : findUserByEmail s body.email = none := by
    simp only [findUserByEmail, List.find?_eq_none]
    intro u hu
    simpa using (hnone u hu).1
  simp [register, h, createUser, hemail]

/-- Registration keeps stored emails pairwise distinct and stored usernames pairwise distinct. -/
theorem register_keeps_distinct (env : AuthEnv) (s : UserStore) (body : AuthBody)
    (h : DistinctUsers s) : DistinctUsers (register env s body).1 := by
  cases hf : findFirstUser s body.email body.username with
  | some u =>
    simp only [register, hf]
    exact h
  | none =>
    rw [register_fresh hf]
    have hnone := (findFirstUser_eq_none_iff s body.email body.username).1 hf
    obtain ⟨he, hn⟩ := h
    constructor
    · simp only [List.map_append, List.map_cons, List.map_nil]
      rw [List.nodup_append]
      refine ⟨he, List.nodup_singleton _, ?_⟩
      intro k hk hk'
      simp only [List.mem_singleton] at hk'
      obtain ⟨u, hu, huk⟩ := List.mem_map.1 hk
      exact (hnone u hu).1 (by rw [huk, hk'])
    · simp only [List.map_append, List.map_cons, List.map_nil]
      rw [List.nodup_append]
      refine ⟨hn, List.nodup_singleton _, ?_⟩
      intro k hk hk'
      simp only [List.mem_singleton] at hk'
      obtain ⟨u, hu, huk⟩ := List.mem_map.1 hk
      exact (hnone u hu).2 (by rw [huk, hk'])

/-- C14: a registration whose email is the email of a stored user, or whose username is the
username of a stored user, is answered 409 "User with this email or username already exists"
and the user store is left as it was, so stored emails and stored usernames stay pairwise
distinct. -/
theorem register_conflict (env : AuthEnv) (s : UserStore) (body : AuthBody)
    (hdup : ∃ u ∈ s.users, u.email = body.email ∨ u.username = body.username) :
    register env s body =
      (s, .json { code := 409, status := "error",
                  message := some "User with this email or username already exists",
                  data := none }) ∧
    (DistinctUsers s → DistinctUsers (register env s body).1) :=
  ⟨register_existing hdup, register_keeps_distinct env s body⟩

theorem register_conflict_witness :
    register sampleAuthEnv sampleUsers
        { email := "newemail@example.com", username := "testuser", password := "Test123456" } =
      (sampleUsers, .json { code := 409, status := "error",
                            message := some "User with this email or username already exists",
                            data := none }) :=
  (register_conflict sampleAuthEnv sampleUsers
    { email := "newemail@example.com", username := "testuser", password := "Test123456" }
    ⟨{ id := 7, email := "test@example.com", username := "testuser",
       password_hash := "hashed:Test123456", role := "USER", created_at := 100 },
     by decide, Or.inr rfl⟩).1

/-- A login with a stored email and a verifying password is answered with the user and a token. -/
theorem login_success {env : AuthEnv} {s : UserStore} {body : AuthBody} {user : UserRecord}
    (hfind : findUserByEmail s body.email = some user)
    (hpw : env.compare body.password user.password_hash = true) :
    login env s body =
      (s, .json { code := 200, status := "success", message := some "Login successful",
                  data := some { user := [("id", .num user.id), ("email", .str user.email),
                                          ("username", .str user.username), ("role", .str user.role)],
                                 token := env.generateToken
                                   { id := user.id, email := user.email, role := user.role } } }) := by
  simp [login, hfind, hpw]

/-- C19: whenever `register` or `login` answers with a payload, the user object in it has no
`password_hash` key: the keys are exactly id, email, username, role, created_at for `register`
and exactly id, email, username, role for `login`. A registration that meets no stored email
or username, and a login with a stored email and a verifying password, are so answered
(201 and 200). -/
theorem auth_response_hides_hash (env : AuthEnv) (s : UserStore) (body : AuthBody) :
    (∀ (r : Reply AuthData) (d : AuthData), (register env s body).2 = .json r → r.data = some d →
      d.user.keys = ["id", "email", "username", "role", "created_at"] ∧
      "password_hash" ∉ d.user.keys) ∧
    (∀ (r : Reply AuthData) (d : AuthData), (login env s body).2 = .json r → r.data = some d →
      d.user.keys = ["id", "email", "username", "role"] ∧ "password_hash" ∉ d.user.keys) ∧
    (findFirstUser s body.email body.username = none →
      ∃ r d, (register env s body).2 = .json r ∧ r.code = 201 ∧ r.data = some d) ∧
    (∀ user, findUserByEmail s body.email = some user →
      env.compare body.password user.password_hash = true →
      ∃ r d, (login env s body).2 = .json r ∧ r.code = 200 ∧ r.data = some d) := by
  refine ⟨?_, ?_, ?_, ?_⟩
  · intro r d hr hd
    cases hf : findFirstUser s body.email body.username with
    | some u =>
      simp only [register, hf, Outcome.json.injEq] at hr
      subst hr
      simp at hd
    | none =>
      rw [register_fresh hf] at hr
      simp only [Outcome.json.injEq] at hr
      subst hr
      simp only [Option.some.injEq] at hd
      subst hd
      simp [JsObject.keys, selectRegistered]
  · intro r d hr hd
    cases hf : findUserByEmail s body.email with
    | none =>
      simp only [login, hf, Outcome.json.injEq] at hr
      subst hr
      simp at hd
    | some user =>
      cases hpw : env.compare body.password user.password_hash with
      | false =>
        simp only [login, hf, hpw, Outcome.json.injEq] at hr
        simp at hr
        subst hr
        simp at hd
      | true =>
        rw [login_success hf hpw] at hr
        simp only [Outcome.json.injEq] at hr
        subst hr
        simp only [Option.some.injEq] at hd
        subst hd
        simp [JsObject.keys]
  · intro hf
    rw [register_fresh hf]
    exact ⟨_, _, rfl, rfl, rfl⟩
  · intro user hf hpw
    rw [login_success hf hpw]
    exact ⟨_, _, rfl, rfl, rfl⟩

theorem auth_response_hides_hash_witness :
    (register sampleAuthEnv sampleUsers
        { email := "ada@example.org", username := "ada", password := "Secret123" }).2 =
      .json { code := 201, status := "success", message := some "User registered successfully",
              data := some { user := [("id", .num 8), ("email", .str "ada@example.org"),
                                      ("username", .str "ada"), ("role", .str "USER"),
                                      ("created_at", .num 200)],
                             token := "token-ada@example.org-USER" } } ∧
    "password_hash" ∉ JsObject.keys [("id", .num 8), ("email", .str "ada@example.org"),
                                    ("username", .str "ada"), ("role", .str "USER"),
                                    ("created_at", .num 200)] :=
  ⟨by decide,
   ((auth_response_hides_hash sampleAuthEnv sampleUsers
        { email := "ada@example.org", username := "ada", password := "Secret123" }).1
      { code := 201, status := "success", message := some "User registered successfully",
        data := some { user := [("id", .num 8), ("email", .str "ada@example.org"),
                                ("username", .str "ada"), ("role", .str "USER"),
                                ("created_at", .num 200)],
                       token := "token-ada@example.org-USER" } }
      { user := [("id", .num 8), ("email", .str "ada@example.org"),
                 ("username", .str "ada"), ("role", .str "USER"), ("created_at", .num 200)],
        token := "token-ada@example.org-USER" } (by decide) rfl).2⟩

/-- C20: a login with an email that names no stored user and a login with a stored email
whose password does not verify get the same answer, 401 "Invalid credentials", and leave
the store as it was. -/
theorem login_failures_indistinguishable (env : AuthEnv) (s : UserStore) (b1 b2 : AuthBody)
    (user : UserRecord)
    (hunknown : findUserByEmail s b1.email = none)
    (hknown : findUserByEmail s b2.email = some user)
    (hwrong : env.compare b2.password user.password_hash = false) :
    login env s b1 =
      (s, .json { code := 401, status := "error", message := some "Invalid credentials",
                  data := none }) ∧
    login env s b2 =
      (s, .json { code := 401, status := "error", message := some "Invalid credentials",
                  data := none }) ∧
    login env s b1 = login env s b2 := by
  have h1 : login env s b1 =
      (s, .json { code := 401, status := "error", message := some "Invalid credentials",
                  data := none }) := by
    simp [login, hunknown]
  have h2 : login env s b2 =
      (s, .json { code := 401, status := "error", message := some "Invalid credentials",
                  data := none }) := by
    simp [login, hknown, hwrong]
  exact ⟨h1, h2, h1.trans h2.symm⟩

theorem login_failures_indistinguishable_witness :
    login sampleAuthEnv sampleUsers { email := "wrong@example.com", password := "Test123456" } =
      login sampleAuthEnv sampleUsers { email := "test@example.com", password := "WrongPassword" } :=
  (login_failures_indistinguishable sampleAuthEnv sampleUsers
    { email := "wrong@example.com", password := "Test123456" }
    { email := "test@example.com", password := "WrongPassword" }
    { id := 7, email := "test@example.com", username := "testuser",
      password_hash := "hashed:Test123456", role := "USER", created_at := 100 }
    (by decide) (by decide) (by decide)).2.2

/-! ## Error translation -/

/-- C15: an error whose code is P2002 is answered 409 and an error whose code is P2025 is
answered 404, whatever its name, statusCode, message and errors are. -/
theorem persistence_errors_translated (err : AppError) :
    (err.code = some "P2002" → (errorHandler err).code = 409) ∧
    (err.code = some "P2025" → (errorHandler err).code = 404) := by
  constructor
  · intro h
    simp [errorHandler, h]
  · intro h
    simp [errorHandler, h]

theorem persistence_errors_translated_witness :
    (errorHandler { code := some "P2002", name := some "ValidationError", statusCode := some 500,
                    message := some "Unique constraint failed" }).code = 409 ∧
    (errorHandler { code := some "P2025", name := some "TokenExpiredError", statusCode := some 401 }).code = 404 :=
  ⟨(persistence_errors_translated
      { code := some "P2002", name := some "ValidationError", statusCode := some 500,
        message := some "Unique constraint failed" }).1 rfl,
   (persistence_errors_translated
      { code := some "P2025", name := some "TokenExpiredError", statusCode := some 401 }).2 rfl⟩

/-- C16 as stated fails for an error that carries its own status: the body parser's
"payload too large" error is none of the recognised kinds, and `errorHandler` answers it
with its `statusCode` 413, which is neither 500 nor any other status of the taxonomy. -/
theorem unrecognised_error_own_status :
    payloadTooLarge.recognised = false ∧
    (errorHandler payloadTooLarge).code = 413 ∧
    (errorHandler payloadTooLarge).code ≠ 500 ∧
    (errorHandler payloadTooLarge).code ∉ [400, 401, 403, 404, 409, 500] := by
  decide

/-- C16 (amended): an error that is not a recognised persistence, validation or token error
is answered with its own `statusCode` when it carries a non-zero one and with 500 otherwise;
and for every error the status of the answer is one of 400, 401, 403, 404, 409, 500 or the
error's own `statusCode`. -/
theorem unrecognised_error_status (err : AppError) :
    (err.recognised = false →
      (errorHandler err).code = (match err.statusCode with
        | some n => if n = 0 then 500 else n
        | none => 500)) ∧
    (err.recognised = false → (err.statusCode = none ∨ err.statusCode = some 0) →
      (errorHandler err).code = 500) ∧
    ((errorHandler err).code ∈ [400, 401, 403, 404, 409, 500] ∨
      err.statusCode = some (errorHandler err).code) := by
  have hdefault : err.recognised = false →
      (errorHandler err).code = (match err.statusCode with
        | some n => if n = 0 then 500 else n
        | none => 500) := by
    intro h
    simp only [AppError.recognised, Bool.or_eq_false_iff] at h
    obtain ⟨⟨⟨⟨h1, h2⟩, h3⟩, h4⟩, h5⟩ := h
    simp only [errorHandler, h1, h2, h3, h4, h5]
    simp
  refine ⟨hdefault, ?_, ?_⟩
  · intro h hs
    rw [hdefault h]
    rcases hs with hs | hs <;> simp [hs]
  · cases hrec : err.recognised with
    | false =>
      rw [hdefault hrec]
      cases hsc : err.statusCode with
      | none => left; simp
      | some n =>
        by_cases hn : n = 0
        · left; simp [hn]
        · right; simp [hn]
    | true =>
      left
      simp only [AppError.recognised, Bool.or_eq_true] at hrec
      unfold errorHandler
      split
      · simp
      · split
        · simp
        · split
          · simp
          · split
            · simp
            · split
              · simp
              · rename_i h1 h2 h3 h4 h5
                simp [h1, h2, h3, h4, h5] at hrec

theorem unrecognised_error_status_witness :
    (errorHandler { name := some "TypeError", message := some "Cannot read properties of undefined" }).code = 500 ∧
    (errorHandler payloadTooLarge).code = 413 :=
  ⟨(unrecognised_error_status
      { name := some "TypeError", message := some "Cannot read properties of undefined" }).2.1
      (by decide) (Or.inl rfl),
   ((unrecognised_error_status payloadTooLarge).1 (by decide)).trans (by decide)⟩

/-! ## Role gate and manual refresh -/

/-- C17: `authorize(roles)` answers 401 when the request has no authenticated user, answers
403 when `roles` is non-empty and the user's role is not in it, and calls `next` otherwise;
`authorize(['ADMIN'])` lets a request through exactly when its user has role ADMIN, and
`authorize([])` lets every authenticated user through. -/
theorem authorize_gate (roles : List String) (req : Request) :
    (req.user = none →
      authorize roles req =
        .json { code := 401, status := "error", message := some "Authentication required",
                data := none }) ∧
    (∀ u, req.user = some u → roles ≠ [] → u.role ∉ roles →
      authorize roles req =
        .json { code := 403, status := "error", message := some "Insufficient permissions",
                data := none }) ∧
    (∀ u, req.user = some u → (roles = [] ∨ u.role ∈ roles) → authorize roles req = .next) ∧
    (authorize ["ADMIN"] req = .next ↔ ∃ u, req.user = some u ∧ u.role = "ADMIN") ∧
    (∀ u, req.user = some u → authorize [] req = .next) := by
  refine ⟨?_, ?_, ?_, ?_, ?_⟩
  · intro h
    simp [authorize, h]
  · intro u hu hne hnot
    have hlen : roles.length ≠ 0 := fun h => hne (List.length_eq_zero.1 h)
    simp [authorize, hu, hlen, hnot]
  · intro u hu h
    rcases h with h | h
    · simp [authorize, hu, h]
    · simp [authorize, hu, h]
  · cases hu : req.user with
    | none => simp [authorize, hu]
    | some u =>
      by_cases hr : u.role = "ADMIN"
      · simp [authorize, hu, hr]
      · simp [authorize, hu, hr]
  · intro u hu
    simp [authorize, hu]

theorem authorize_gate_witness :
    authorize ["ADMIN"] { user := some sampleVoter, params_id := none } =
      .json { code := 403, status := "error", message := some "Insufficient permissions",
              data := none } ∧
    authorize ["ADMIN"] { user := some sampleAdmin, params_id := none } = .next :=
  ⟨(authorize_gate ["ADMIN"] { user := some sampleVoter, params_id := none }).2.1
      sampleVoter rfl (by decide) (by decide),
   (authorize_gate ["ADMIN"] { user := some sampleAdmin, params_id := none }).2.2.1
      sampleAdmin rfl (Or.inr (by decide))⟩

/-- C18 as stated fails at a request without an authenticated user: the guard of
`refreshXUpdates` does not deny it, the sync cycle runs (the store gains the fetched post
102) and the answer is 200 with one new update, not 403; an ordinary user is answered 403
and the store is untouched. -/
theorem refresh_without_user_runs_sync :
    refreshDenied { user := none, params_id := none } = false ∧
    refreshXUpdates sampleEnv sampleStore { user := none, params_id := none } =
      ((fetchAndStoreUpdates sampleEnv sampleStore).1,
       .json { code := 200, status := "success", message := some "X updates refreshed successfully",
               data := some { new_updates_count := 1 } }) ∧
    (refreshXUpdates sampleEnv sampleStore { user := none, params_id := none }).1.rows.map
        (fun r => r.post_id) = ["100", "101", "102"] ∧
    refreshXUpdates sampleEnv sampleStore { user := some sampleVoter, params_id := none } =
      (sampleStore,
       .json { code := 403, status := "error", message := some "Insufficient permissions",
               data := none }) := by
  decide

/-- Every answer of `authenticate` itself is a 401. -/
theorem authenticate_reply_code {verifyToken : String → Except String TokenPayload}
    {lookupFails : Bool} {users : UserStore} {token : Option String} {reply : Reply Unit}
    (h : authenticate verifyToken lookupFails users token = .json reply) : reply.code = 401 := by
  unfold authenticate at h
  split at h
  · cases h; rfl
  · split at h
    · cases h; rfl
    · split at h
      · cases h; rfl
      · split at h
        · cases h; rfl
        · cases h

/-- C18 (amended): called with a request that carries an authenticated user,
`refreshXUpdates` runs `fetchAndStoreUpdates` only if the user has role ADMIN (the store
afterwards and the count it reports are those of the cycle) and otherwise answers 403
"Insufficient permissions" with the store untouched; on the route
`authenticate, authorize(['ADMIN']), refreshXUpdates` a request to which `authenticate`
attaches no user is answered 401 with the store untouched and does not reach the controller,
a user of another role is answered 403 with the store untouched, and only a request of an
ADMIN reaches the controller. -/
theorem refresh_admin_only (env : SyncEnv) (s : XStore) :
    (∀ (req : Request) (u : User), req.user = some u → u.role ≠ "ADMIN" →
      refreshXUpdates env s req =
        (s, .json { code := 403, status := "error", message := some "Insufficient permissions",
                    data := none })) ∧
    (∀ (req : Request) (u : User), req.user = some u → u.role = "ADMIN" →
      (refreshXUpdates env s req).1 = (fetchAndStoreUpdates env s).1 ∧
      ∀ newUpdates, (fetchAndStoreUpdates env s).2 = .ok newUpdates →
        (refreshXUpdates env s req).2 =
          .json { code := 200, status := "success",
                  message := some "X updates refreshed successfully",
                  data := some { new_updates_count := newUpdates.length } }) ∧
    (∀ (verifyToken : String → Except String TokenPayload) (lookupFails : Bool)
        (users : UserStore) (token : Option String),
      (∀ reply, authenticate verifyToken lookupFails users token = .json reply →
        reply.code = 401 ∧
        refreshRoute verifyToken lookupFails users env s token = (s, .json reply.withoutData)) ∧
      (∀ user, authenticate verifyToken lookupFails users token = .next user →
        user.role ≠ "ADMIN" →
        refreshRoute verifyToken lookupFails users env s token =
          (s, .json { code := 403, status := "error", message := some "Insufficient permissions",
                      data := none })) ∧
      (∀ user, authenticate verifyToken lookupFails users token = .next user →
        user.role = "ADMIN" →
        refreshRoute verifyToken lookupFails users env s token =
          refreshXUpdates env s { user := some user, params_id := none })) := by
  refine ⟨?_, ?_, ?_⟩
  · intro req u hu hrole
    simp [refreshXUpdates, refreshDenied, hu, hrole]
  · intro req u hu hrole
    have hden : refreshDenied req = false := by simp [refreshDenied, hu, hrole]
    constructor
    · simp only [refreshXUpdates, hden]
      rcases hres : fetchAndStoreUpdates env s with ⟨s', e | newUpdates⟩ <;> simp
    · intro newUpdates hnew
      simp only [refreshXUpdates, hden]
      rcases hres : fetchAndStoreUpdates env s with ⟨s', e | news⟩
      · rw [hres] at hnew
        cases hnew
      · rw [hres] at hnew
        cases hnew
        simp
  · intro verifyToken lookupFails users token
    refine ⟨?_, ?_, ?_⟩
    · intro reply h
      exact ⟨authenticate_reply_code h, by simp [refreshRoute, h]⟩
    · intro user h hrole
      simp [refreshRoute, h, authorize, hrole, Reply.withoutData]
    · intro user h hrole
      simp [refreshRoute, h, authorize, hrole]

theorem refresh_admin_only_witness :
    refreshRoute staffVerify false staffUsers sampleEnv sampleStore (some "user-token") =
      (sampleStore,
       .json { code := 403, status := "error", message := some "Insufficient permissions",
               data := none }) ∧
    refreshXUpdates sampleEnv sampleStore { user := some sampleVoter, params_id := none } =
      (sampleStore,
       .json { code := 403, status := "error", message := some "Insufficient permissions",
               data := none }) :=
  ⟨((refresh_admin_only sampleEnv sampleStore).2.2 staffVerify false staffUsers
      (some "user-token")).2.1
      { id := 7, email := "test@example.com", username := "testuser", role := "USER" }
      (by decide) (by decide),
   (refresh_admin_only sampleEnv sampleStore).1 { user := some sampleVoter, params_id := none }
      sampleVoter rfl (by decide)⟩

/-! ## Outcomes of a vote request -/

/-- C21 as stated fails for a project id beyond the id column: 2147483648 names no stored
project of `sampleDb` and passes the `isInt({ min: 1 })` check of the route, yet the vote
request is not answered 404: the lookup throws and the error is handed to `next`. -/
theorem vote_on_out_of_range_id :
    (∀ p ∈ sampleDb.projects, p.id ≠ 2147483648) ∧
    voteOnProject sampleDb
        { user := some sampleVoter, params_id := some 2147483648, vote_type := some "UPVOTE" } =
      (sampleDb, .forwarded "PrismaClientValidationError") ∧
    voteOnProject sampleDb
        { user := some sampleVoter, params_id := some 2147483648, vote_type := some "UPVOTE" } ≠
      (sampleDb, .json { code := 404, status := "error", message := some "Project not found",
                         data := none }) := by
  decide

/-- C21 (amended): a vote request by user `u` on project id `p` is answered 404 with no vote
created or changed when `p` lies within the range of the id column and names no stored
project, 201 "Vote created successfully" when `p` exists and `u` has no vote on it (the vote
is appended), and 200 "Vote updated successfully" when `p` exists and `u` already has a vote
on it (that vote gets the new type). -/
theorem vote_outcomes (db : Db) (req : Request) (u : User) (p : Int) (t : String)
    (hu : req.user = some u) (hid : req.params_id = some p) (ht : req.vote_type = some t) :
    (fitsInt p = true → (∀ project ∈ db.projects, project.id ≠ p) →
      voteOnProject db req =
        (db, .json { code := 404, status := "error", message := some "Project not found",
                     data := none })) ∧
    (∀ project, findProject db p = .ok (some project) →
      (∀ v ∈ db.votes, ¬(v.user_id = u.id ∧ v.project_id = p)) →
      voteOnProject db req =
        ({ db with votes := db.votes ++ [{ user_id := u.id, project_id := p, vote_type := t }] },
         .json { code := 201, status := "success", message := some "Vote created successfully",
                 data := some { user_id := u.id, project_id := p, vote_type := t } })) ∧
    (∀ project, findProject db p = .ok (some project) →
      (∃ v ∈ db.votes, v.user_id = u.id ∧ v.project_id = p) →
      voteOnProject db req =
        (updateVote db u.id p (some t),
         .json { code := 200, status := "success", message := some "Vote updated successfully",
                 data := some { user_id := u.id, project_id := p, vote_type := t } })) := by
  refine ⟨?_, ?_, ?_⟩
  · intro hfit hmissing
    have hp := findProject_missing hfit hmissing
    simp [voteOnProject, hid, hp]
  · intro project hp hno
    exact voteOnProject_create hu hid ht hp ((findVote_eq_none_iff db u.id p).2 hno)
  · intro project hp hex
    cases hv : findVote db u.id p with
    | none =>
      obtain ⟨v, hvm, hk⟩ := hex
      exact absurd hk ((findVote_eq_none_iff db u.id p).1 hv v hvm)
    | some existing =>
      obtain ⟨_, hk1, hk2⟩ := findVote_some_key hv
      rw [voteOnProject_update hu hid hp hv, ht]
      simp [hk1, hk2]

theorem vote_outcomes_witness :
    voteOnProject sampleDb
        { user := some sampleVoter, params_id := some 2147483647, vote_type := some "UPVOTE" } =
      (sampleDb, .json { code := 404, status := "error", message := some "Project not found",
                         data := none }) ∧
    voteOnProject sampleDb { user := some sampleVoter, params_id := some 1, vote_type := some "UPVOTE" } =
      ({ sampleDb with votes := sampleDb.votes ++ [{ user_id := 12, project_id := 1, vote_type := "UPVOTE" }] },
       .json { code := 201, status := "success", message := some "Vote created successfully",
               data := some { user_id := 12, project_id := 1, vote_type := "UPVOTE" } }) :=
  ⟨(vote_outcomes sampleDb
      { user := some sampleVoter, params_id := some 2147483647, vote_type := some "UPVOTE" }
      sampleVoter 2147483647 "UPVOTE" rfl rfl rfl).1 (by decide) (by decide),
   (vote_outcomes sampleDb { user := some sampleVoter, params_id := some 1, vote_type := some "UPVOTE" }
      sampleVoter 1 "UPVOTE" rfl rfl rfl).2.1
      { id := 1, title := "Road repair", description := "Resurface the market road",
        status := "PROPOSED", proposer_id := 7 } (by decide) (by decide)⟩

/-! ## Date range check -/

/-- C23 as stated fails for bounds that `new Date` cannot read: the week dates `2030-W02`
(from the instant 1893974400000, 7 January 2030) and `2030-W01` (from 1893369600000,
31 December 2029) pass the ISO 8601 check of the route, the instant of `from_date` is the
later one, yet `validateDateRange` calls `next`: `fromDate >= toDate` is false for invalid
dates. -/
theorem week_date_range_passes :
    ¬ (validateDateRange
          (some { value := "2030-W02", isISO8601 := true, date := none })
          (some { value := "2030-W01", isISO8601 := true, date := none }) =
        .json { code := 400, status := "error", message := some "From date must be before to date",
                data := none } ↔ (1893974400000 : Int) ≥ 1893369600000) ∧
    validateDateRange
        (some { value := "2030-W02", isISO8601 := true, date := none })
        (some { value := "2030-W01", isISO8601 := true, date := none }) = .next := by
  decide

/-- C23 (amended): for a query that carries both `from_date` and `to_date`, read by
`new Date` as the instants `a` and `b` they denote, `validateDateRange` answers 400 "From
date must be before to date" if and only if `a ≥ b` (equal dates are refused) and calls
`next` otherwise; when either bound is absent it calls `next`. -/
theorem date_range_check (f t : DateField) (a b : Int)
    (hf : f.value ≠ "") (ht : t.value ≠ "") (hfa : f.date = some a) (htb : t.date = some b) :
    (validateDateRange (some f) (some t) =
        .json { code := 400, status := "error", message := some "From date must be before to date",
                data := none } ↔ a ≥ b) ∧
    (validateDateRange (some f) (some t) = .next ↔ a < b) ∧
    validateDateRange none (some t) = .next ∧
    validateDateRange (some f) none = .next ∧
    validateDateRange none none = .next := by
  have h1 : truthy (some f.value) = true := by simp [truthy, hf]
  have h2 : truthy (some t.value) = true := by simp [truthy, ht]
  refine ⟨?_, ?_, rfl, rfl, rfl⟩
  · simp only [validateDateRange, h1, h2, hfa, htb, dateGe]
    by_cases h : a ≥ b <;> simp [h]
  · simp only [validateDateRange, h1, h2, hfa, htb, dateGe]
    by_cases h : a ≥ b
    · simp [h]
    · simp [h]
      omega

theorem date_range_check_witness :
    validateDateRange
        (some { value := "2024-05-01", isISO8601 := true, date := some 1714521600000 })
        (some { value := "2024-05-01", isISO8601 := true, date := some 1714521600000 }) =
      .json { code := 400, status := "error", message := some "From date must be before to date",
              data := none } :=
  (date_range_check
    { value := "2024-05-01", isISO8601 := true, date := some 1714521600000 }
    { value := "2024-05-01", isISO8601 := true, date := some 1714521600000 }
    1714521600000 1714521600000 (by decide) (by decide) rfl rfl).1.2 (le_refl _)

/-! ## Fields written by an update -/

/-- Rewriting the rows of one id leaves what the rewrite does not touch: a reading `g` of a
row that `applyTo` preserves is the same on every stored row afterwards. -/
theorem updateProjectRow_map_fixed {β : Type} (g : Project → β) (db : Db) (id : Int)
    (data : ProjectUpdateData) (hg : ∀ p, g (data.applyTo p) = g p) :
    (updateProjectRow db id data).projects.map g = db.projects.map g := by
  simp only [updateProjectRow, List.map_map]
  apply List.map_congr_left
  intro p _
  simp only [Function.comp]
  split
  · exact hg p
  · rfl

/-- An empty `updateData` rewrites nothing. -/
theorem updateProjectRow_empty (db : Db) (pid : Int) :
    updateProjectRow db pid { title := none, description := none, status := none } = db := by
  have hmap : db.projects.map (fun p : Project => if (p.id == pid) = true
      then ProjectUpdateData.applyTo { title := none, description := none, status := none } p
      else p) = db.projects := by
    conv_rhs => rw [← List.map_id db.projects]
    apply List.map_congr_left
    intro p _
    split <;> rfl
  cases db
  simp only [updateProjectRow] at hmap ⊢
  rw [hmap]

/-- Rewriting the rows of one id leaves the rows of every other id in place. -/
theorem updateProjectRow_others (db : Db) (pid : Int) (data : ProjectUpdateData) :
    (updateProjectRow db pid data).projects.filter (fun p => !(p.id == pid)) =
      db.projects.filter (fun p => !(p.id == pid)) := by
  simp only [updateProjectRow]
  induction db.projects with
  | nil => rfl
  | cons a l ih =>
    simp only [List.map_cons, List.filter_cons]
    cases ha : (a.id == pid) with
    | true =>
      have hid : ((data.applyTo a).id == pid) = true := ha
      simp only [if_true, hid, Bool.not_true, Bool.false_eq_true, if_false]
      exact ih
    | false =>
      simp only [Bool.false_eq_true, if_false, ha, Bool.not_false, if_true]
      rw [ih]

/-- C30: for an existing project and a permitted requester (its proposer or an ADMIN),
`updateProject` changes only what the body supplies with a non-empty value: no row's `id` or
`proposer_id` changes, rows of other ids stay as they are, titles stay unless a non-empty
title is supplied (which is then written), descriptions likewise, statuses stay unless a
non-empty status is supplied by an ADMIN, and a request with an empty body leaves the store
unchanged. -/
theorem update_writes_supplied_fields (db : Db) (req : Request) (u : User) (id : Int)
    (project : Project) (hu : req.user = some u) (hid : req.params_id = some id)
    (hp : findProject db id = .ok (some project))
    (hperm : project.proposer_id = u.id ∨ u.role = "ADMIN") :
    (updateProject db req).1.projects.map (fun p => (p.id, p.proposer_id)) =
      db.projects.map (fun p => (p.id, p.proposer_id)) ∧
    (updateProject db req).1.projects.filter (fun p => !(p.id == id)) =
      db.projects.filter (fun p => !(p.id == id)) ∧
    (truthy req.title = false →
      (updateProject db req).1.projects.map (fun p => p.title) = db.projects.map (fun p => p.title)) ∧
    (truthy req.description = false →
      (updateProject db req).1.projects.map (fun p => p.description) =
        db.projects.map (fun p => p.description)) ∧
    ((truthy req.status && u.role == "ADMIN") = false →
      (updateProject db req).1.projects.map (fun p => p.status) = db.projects.map (fun p => p.status)) ∧
    (∀ t, req.title = some t → t ≠ "" →
      ∀ p ∈ (updateProject db req).1.projects, p.id = id → p.title = t) ∧
    (∀ d, req.description = some d → d ≠ "" →
      ∀ p ∈ (updateProject db req).1.projects, p.id = id → p.description = d) ∧
    (req.title = none → req.description = none → req.status = none →
      updateProject db req =
        (db, .json { code := 200, status := "success", message := some "Project updated successfully",
                     data := some project })) := by
  rw [updateProject_permitted hu hid hp hperm]
  refine ⟨?_, ?_, ?_, ?_, ?_, ?_, ?_, ?_⟩
  · exact updateProjectRow_map_fixed _ db id _ (fun _ => rfl)
  · exact updateProjectRow_others db id _
  · intro h
    apply updateProjectRow_map_fixed
    intro p
    simp [ProjectUpdateData.applyTo, h]
  · intro h
    apply updateProjectRow_map_fixed
    intro p
    simp [ProjectUpdateData.applyTo, h]
  · intro h
    apply updateProjectRow_map_fixed
    intro p
    simp only [ProjectUpdateData.applyTo, h]
    simp
  · intro t ht hne p hpm hpid
    simp only [updateProjectRow, List.mem_map] at hpm
    obtain ⟨q, _, hq⟩ := hpm
    by_cases hqid : (q.id == id) = true
    · rw [if_pos hqid] at hq
      rw [← hq]
      simp [ProjectUpdateData.applyTo, ht, truthy, hne]
    · rw [if_neg hqid] at hq
      subst hq
      exact absurd (by simpa using hpid) hqid
  · intro d hd hne p hpm hpid
    simp only [updateProjectRow, List.mem_map] at hpm
    obtain ⟨q, _, hq⟩ := hpm
    by_cases hqid : (q.id == id) = true
    · rw [if_pos hqid] at hq
      rw [← hq]
      simp [ProjectUpdateData.applyTo, hd, truthy, hne]
    · rw [if_neg hqid] at hq
      subst hq
      exact absurd (by simpa using hpid) hqid
  · intro h1 h2 h3
    simp only [h1, h2, h3, truthy, Bool.false_and]
    simp only [Bool.false_eq_true, if_false]
    rw [updateProjectRow_empty]
    rfl

theorem update_writes_supplied_fields_witness :
    updateProject sampleDb { user := some sampleOwner, params_id := some 1 } =
      (sampleDb, .json { code := 200, status := "success", message := some "Project updated successfully",
                         data := some { id := 1, title := "Road repair",
                                        description := "Resurface the market road",
                                        status := "PROPOSED", proposer_id := 7 } }) :=
  (update_writes_supplied_fields sampleDb { user := some sampleOwner, params_id := some 1 }
    sampleOwner 1
    { id := 1, title := "Road repair", description := "Resurface the market road",
      status := "PROPOSED", proposer_id := 7 }
    rfl rfl (by decide) (Or.inl (by decide))).2.2.2.2.2.2.2 rfl rfl rfl

/-! ## Token check -/

/-- C29: the user `authenticate` attaches is the stored record of the id the token decodes
to: two accepted tokens that decode to the same id get the same outcome whatever their
email and role claims are, and that outcome is the stored id, email, username and role when
a record exists; the answer is 401 when the token is absent, when the verifier refuses it,
and when no user is stored under the decoded id. -/
theorem authenticate_uses_stored_user (verifyToken : String → Except String TokenPayload)
    (lookupFails : Bool) (s : UserStore) (tok1 tok2 : String) (p1 p2 : TokenPayload)
    (h1 : verifyToken tok1 = .ok p1) (h2 : verifyToken tok2 = .ok p2) (hid : p1.id = p2.id)
    (hne1 : tok1 ≠ "") (hne2 : tok2 ≠ "") :
    authenticate verifyToken lookupFails s (some tok1) =
      authenticate verifyToken lookupFails s (some tok2) ∧
    (∀ stored : UserRecord, s.users.find? (fun u => u.id == p1.id) = some stored →
      authenticate verifyToken false s (some tok1) =
        .next { id := stored.id, email := stored.email, username := stored.username,
                role := stored.role }) ∧
    (s.users.find? (fun u => u.id == p1.id) = none →
      authenticate verifyToken false s (some tok1) =
        .json { code := 401, status := "error", message := some "Invalid token", data := none }) ∧
    authenticate verifyToken lookupFails s none =
      .json { code := 401, status := "error", message := some "Access token required",
              data := none } ∧
    (∀ (tok : String) (e : String), verifyToken tok = .error e → tok ≠ "" →
      authenticate verifyToken lookupFails s (some tok) =
        .json { code := 401, status := "error", message := some "Invalid token", data := none }) := by
  have ht1 : truthy (some tok1) = true := by simp [truthy, hne1]
  have ht2 : truthy (some tok2) = true := by simp [truthy, hne2]
  refine ⟨?_, ?_, ?_, ?_, ?_⟩
  · simp [authenticate, ht1, ht2, h1, h2, hid]
  · intro stored hs
    simp [authenticate, ht1, h1, findUserById, hs]
  · intro hs
    simp [authenticate, ht1, h1, findUserById, hs]
  · simp [authenticate, truthy]
  · intro tok e he hne
    have ht : truthy (some tok) = true := by simp [truthy, hne]
    simp [authenticate, ht, he]

theorem authenticate_uses_stored_user_witness :
    authenticate sampleVerify false sampleUsers (some "7:test@example.com:USER") =
      authenticate sampleVerify false sampleUsers (some "7:mallory@example.com:ADMIN") ∧
    authenticate sampleVerify false sampleUsers (some "7:mallory@example.com:ADMIN") =
      .next { id := 7, email := "test@example.com", username := "testuser", role := "USER" } :=
  have h := authenticate_uses_stored_user sampleVerify false sampleUsers
    "7:test@example.com:USER" "7:mallory@example.com:ADMIN"
    { id := 7, email := "test@example.com", role := "USER" }
    { id := 7, email := "mallory@example.com", role := "ADMIN" }
    rfl rfl rfl (by decide) (by decide)
  ⟨h.1, h.1 ▸ h.2.1 { id := 7, email := "test@example.com", username := "testuser",
                      password_hash := "hashed:Test123456", role := "USER", created_at := 100 }
                    (by decide)⟩

/-! ## Tally under a vote request -/

/-- The number of votes of type `t` on project `q` in a list of votes. -/
theorem projectTally_counts (db : Db) (q : Int) :
    (projectTally db q).upvotes =
      db.votes.countP (fun v => decide (v.project_id = q ∧ v.vote_type = "UPVOTE")) ∧
    (projectTally db q).downvotes =
      db.votes.countP (fun v => decide (v.project_id = q ∧ v.vote_type = "DOWNVOTE")) ∧
    (projectTally db q).total = (projectTally db q).upvotes + (projectTally db q).downvotes := by
  have h : ∀ t : String, ((projectVotes db q).filter (fun vote => vote.vote_type == t)).length =
      db.votes.countP (fun v => decide (v.project_id = q ∧ v.vote_type = t)) := by
    intro t
    simp only [projectVotes, List.filter_filter, List.countP_eq_length_filter]
    congr 1
    apply List.filter_congr
    intro v _
    by_cases h1 : v.project_id = q <;> by_cases h2 : v.vote_type = t <;> simp [h1, h2]
  exact ⟨h "UPVOTE", h "DOWNVOTE", rfl⟩

/-- With at most one vote per pair, the vote of a pair splits the list in two parts that hold
no vote of the pair. -/
theorem votes_split_unique {votes : List Vote} {e : Vote} (hnd : OneVotePerPair votes)
    (he : e ∈ votes) :
    ∃ l1 l2, votes = l1 ++ e :: l2 ∧
      (∀ v ∈ l1, ¬(v.user_id = e.user_id ∧ v.project_id = e.project_id)) ∧
      (∀ v ∈ l2, ¬(v.user_id = e.user_id ∧ v.project_id = e.project_id)) := by
  obtain ⟨l1, l2, hsplit⟩ := List.append_of_mem he
  refine ⟨l1, l2, hsplit, ?_, ?_⟩
  · intro v hv hk
    unfold OneVotePerPair at hnd
    rw [hsplit, List.map_append, List.map_cons, List.nodup_append] at hnd
    have hin : (v.user_id, v.project_id) ∈ l1.map (fun v => (v.user_id, v.project_id)) :=
      List.mem_map_of_mem _ hv
    exact hnd.2.2 hin (by simp [hk.1, hk.2])
  · intro v hv hk
    unfold OneVotePerPair at hnd
    rw [hsplit, List.map_append, List.map_cons, List.nodup_append, List.nodup_cons] at hnd
    have hin : (v.user_id, v.project_id) ∈ l2.map (fun v => (v.user_id, v.project_id)) :=
      List.mem_map_of_mem _ hv
    apply hnd.2.1.1
    rw [← hk.1, ← hk.2]
    exact hin

/-- The rewrite of `updateVote` leaves a list without a vote of the pair as it is. -/
theorem map_update_no_key (l : List Vote) (u p : Int) (t : Option String)
    (h : ∀ v ∈ l, ¬(v.user_id = u ∧ v.project_id = p)) :
    l.map (fun v => if v.user_id == u && v.project_id == p
      then { v with vote_type := t.getD v.vote_type } else v) = l := by
  conv_rhs => rw [← List.map_id l]
  apply List.map_congr_left
  intro v hv
  have := h v hv
  have hk : (v.user_id == u && v.project_id == p) = false := by
    simpa using this
  simp [hk]

/-- With at most one vote per pair, `updateVote` replaces the one vote of the pair. -/
theorem updateVote_unique {db : Db} {u p : Int} {t : String} {e : Vote}
    (hnd : OneVotePerPair db.votes) (he : findVote db u p = some e) :
    ∃ l1 l2, db.votes = l1 ++ e :: l2 ∧
      (updateVote db u p (some t)).votes = l1 ++ { e with vote_type := t } :: l2 := by
  obtain ⟨hmem, hku, hkp⟩ := findVote_some_key he
  obtain ⟨l1, l2, hsplit, h1, h2⟩ := votes_split_unique hnd hmem
  refine ⟨l1, l2, hsplit, ?_⟩
  rw [hku, hkp] at h1 h2
  simp only [updateVote, hsplit, List.map_append, List.map_cons]
  rw [map_update_no_key l1 u p (some t) h1, map_update_no_key l2 u p (some t) h2]
  simp [hku, hkp]

/-- The tally of a project written with the counts over the whole vote table. -/
theorem projectTally_eq (db : Db) (q : Int) :
    projectTally db q =
      { upvotes := db.votes.countP (fun v => decide (v.project_id = q ∧ v.vote_type = "UPVOTE"))
        downvotes := db.votes.countP (fun v => decide (v.project_id = q ∧ v.vote_type = "DOWNVOTE"))
        total := db.votes.countP (fun v => decide (v.project_id = q ∧ v.vote_type = "UPVOTE")) +
          db.votes.countP (fun v => decide (v.project_id = q ∧ v.vote_type = "DOWNVOTE")) } := by
  obtain ⟨h1, h2, _⟩ := projectTally_counts db q
  have h3 : projectTally db q =
      { upvotes := (projectTally db q).upvotes, downvotes := (projectTally db q).downvotes,
        total := (projectTally db q).upvotes + (projectTally db q).downvotes } := rfl
  rw [h3, h1, h2]

/-- The store after a vote request on an existing project, by a user with a vote type. -/
theorem voteOnProject_votes {db : Db} {req : Request} {u : User} {p : Int} {t : String}
    {project : Project} (hnd : OneVotePerPair db.votes)
    (hu : req.user = some u) (hid : req.params_id = some p) (ht : req.vote_type = some t)
    (hp : findProject db p = .ok (some project)) :
    ((∀ v ∈ db.votes, ¬(v.user_id = u.id ∧ v.project_id = p)) ∧
      (voteOnProject db req).1.votes =
        db.votes ++ [{ user_id := u.id, project_id := p, vote_type := t }]) ∨
    (∃ e l1 l2, e.user_id = u.id ∧ e.project_id = p ∧ db.votes = l1 ++ e :: l2 ∧
      (∀ v ∈ l1, ¬(v.user_id = u.id ∧ v.project_id = p)) ∧
      (∀ v ∈ l2, ¬(v.user_id = u.id ∧ v.project_id = p)) ∧
      (voteOnProject db req).1.votes = l1 ++ { e with vote_type := t } :: l2) := by
  cases hv : findVote db u.id p with
  | none =>
    left
    refine ⟨(findVote_eq_none_iff db u.id p).1 hv, ?_⟩
    rw [voteOnProject_create hu hid ht hp hv]
  | some e =>
    right
    obtain ⟨hmem, hku, hkp⟩ := findVote_some_key hv
    obtain ⟨l1, l2, hsplit, h1, h2⟩ := votes_split_unique hnd hmem
    rw [hku, hkp] at h1 h2
    refine ⟨e, l1, l2, hku, hkp, hsplit, h1, h2, ?_⟩
    rw [voteOnProject_update hu hid hp hv, ht]
    simp only [updateVote, hsplit, List.map_append, List.map_cons]
    rw [map_update_no_key l1 u.id p (some t) h1, map_update_no_key l2 u.id p (some t) h2]
    simp [hku, hkp]

/-- C25: on a store with at most one vote per pair, a vote request of type `t` (UPVOTE or
DOWNVOTE) by `u` on the existing project `p` changes the tally of `p` thus: if `u` had no
vote on `p`, total and the count of `t` grow by one and the other count stays; if `u` had a
vote of the other type, total stays, the count of `t` grows by one and the other count
shrinks by one; if `u` had a vote of type `t`, the tally stays; the tally of every other
project stays. -/
theorem tally_under_vote (db : Db) (req : Request) (u : User) (p : Int) (t : String)
    (project : Project) (hnd : OneVotePerPair db.votes)
    (hu : req.user = some u) (hid : req.params_id = some p) (ht : req.vote_type = some t)
    (hp : findProject db p = .ok (some project)) (htype : t = "UPVOTE" ∨ t = "DOWNVOTE") :
    ((∀ v ∈ db.votes, ¬(v.user_id = u.id ∧ v.project_id = p)) →
      (projectTally (voteOnProject db req).1 p).total = (projectTally db p).total + 1 ∧
      (projectTally (voteOnProject db req).1 p).ofType t = (projectTally db p).ofType t + 1 ∧
      (projectTally (voteOnProject db req).1 p).ofType (otherType t) =
        (projectTally db p).ofType (otherType t)) ∧
    (∀ e ∈ db.votes, e.user_id = u.id → e.project_id = p → e.vote_type = otherType t →
      (projectTally (voteOnProject db req).1 p).total = (projectTally db p).total ∧
      (projectTally (voteOnProject db req).1 p).ofType t = (projectTally db p).ofType t + 1 ∧
      (projectTally (voteOnProject db req).1 p).ofType (otherType t) + 1 =
        (projectTally db p).ofType (otherType t)) ∧
    (∀ e ∈ db.votes, e.user_id = u.id → e.project_id = p → e.vote_type = t →
      projectTally (voteOnProject db req).1 p = projectTally db p) ∧
    (∀ q, q ≠ p → projectTally (voteOnProject db req).1 q = projectTally db q) := by
  have hcases := voteOnProject_votes hnd hu hid ht hp
  refine ⟨?_, ?_, ?_, ?_⟩
  · intro hno
    rcases hcases with ⟨_, hvotes⟩ | ⟨e, l1, l2, hku, hkp, hsplit, _, _, _⟩
    · rw [projectTally_eq, projectTally_eq, hvotes]
      rcases htype with rfl | rfl <;>
        simp [VoteCounts.ofType, otherType, List.countP_append, List.countP_cons] <;> omega
    · exact absurd ⟨hku, hkp⟩ (hno e (by rw [hsplit]; simp))
  · intro e he heu hep hety
    rcases hcases with ⟨hno, _⟩ | ⟨e', l1, l2, hku, hkp, hsplit, h1, h2, hvotes⟩
    · exact absurd ⟨heu, hep⟩ (hno e he)
    · have hee : e' = e := by
        rw [hsplit] at he
        simp only [List.mem_append, List.mem_cons] at he
        rcases he with h | h | h
        · exact absurd ⟨heu, hep⟩ (h1 e h)
        · exact h.symm
        · exact absurd ⟨heu, hep⟩ (h2 e h)
      subst hee
      rw [projectTally_eq, projectTally_eq, hvotes, hsplit]
      rcases htype with rfl | rfl <;>
        simp [VoteCounts.ofType, otherType, List.countP_append, List.countP_cons, hkp, hety] <;>
        omega
  · intro e he heu hep hety
    rcases hcases with ⟨hno, _⟩ | ⟨e', l1, l2, hku, hkp, hsplit, h1, h2, hvotes⟩
    · exact absurd ⟨heu, hep⟩ (hno e he)
    · have hee : e' = e := by
        rw [hsplit] at he
        simp only [List.mem_append, List.mem_cons] at he
        rcases he with h | h | h
        · exact absurd ⟨heu, hep⟩ (h1 e h)
        · exact h.symm
        · exact absurd ⟨heu, hep⟩ (h2 e h)
      subst hee
      have hsame : ({ e' with vote_type := t } : Vote) = e' := by
        cases e'
        simp only at hety
        simp [hety]
      rw [hsame, ← hsplit] at hvotes
      rw [projectTally_eq, projectTally_eq, hvotes]
  · intro q hq
    rw [projectTally_eq, projectTally_eq]
    rcases hcases with ⟨_, hvotes⟩ | ⟨e, l1, l2, hku, hkp, hsplit, _, _, hvotes⟩
    · rw [hvotes]
      have hq' : ¬ p = q := fun h => hq h.symm
      simp [List.countP_append, List.countP_cons, hq']
    · rw [hvotes, hsplit]
      have hq' : ¬ e.project_id = q := by rw [hkp]; exact fun h => hq h.symm
      simp [List.countP_append, List.countP_cons, hq']

theorem tally_under_vote_witness :
    projectTally sampleDb 1 = { upvotes := 2, downvotes := 1, total := 3 } ∧
    projectTally (voteOnProject sampleDb
      { user := some sampleOwner, params_id := some 1, vote_type := some "DOWNVOTE" }).1 1 =
      { upvotes := 1, downvotes := 2, total := 3 } ∧
    (projectTally (voteOnProject sampleDb
      { user := some sampleOwner, params_id := some 1, vote_type := some "DOWNVOTE" }).1 1).total =
      (projectTally sampleDb 1).total :=
  ⟨by decide, by decide,
   ((tally_under_vote sampleDb
      { user := some sampleOwner, params_id := some 1, vote_type := some "DOWNVOTE" }
      sampleOwner 1 "DOWNVOTE"
      { id := 1, title := "Road repair", description := "Resurface the market road",
        status := "PROPOSED", proposer_id := 7 }
      (by decide) rfl rfl rfl (by decide) (Or.inr rfl)).2.1
      { user_id := 7, project_id := 1, vote_type := "UPVOTE" } (by decide) rfl rfl (by decide)).1⟩

/-! ## Pagination -/

/-- `Math.ceil(total / limit)` is the least integer `n` with `n * limit ≥ total`. -/
theorem mathCeilDiv_least (total limit : Int) (hl : 0 < limit) :
    total ≤ mathCeilDiv total limit * limit ∧
    ∀ n : Int, total ≤ n * limit → mathCeilDiv total limit ≤ n := by
  have hlq : (0 : ℚ) < (limit : ℚ) := by exact_mod_cast hl
  constructor
  · have h := Int.le_ceil ((total : ℚ) / (limit : ℚ))
    rw [div_le_iff₀ hlq] at h
    unfold mathCeilDiv
    exact_mod_cast h
  · intro n hn
    unfold mathCeilDiv
    rw [Int.ceil_le, div_le_iff₀ hlq]
    exact_mod_cast hn

/-- With `page ≥ 1` and `limit ≥ 1` both store queries are accepted and the response carries
the requested slice of the ordered matching rows, their number and the page count. -/
theorem pageReply_ok {α β : Type} (shape : List α → List β) (orderBy : List α → List α)
    (matching : List α) (page limit : Int) (hp : 1 ≤ page) (hl : 1 ≤ limit) :
    pageReply shape orderBy matching page limit =
      .json { code := 200, status := "success", message := none,
              data := some { data := shape (((orderBy matching).drop ((page - 1) * limit).toNat).take
                                       limit.toNat),
                             pageMeta := { page := page, limit := limit, total := matching.length,
                                           pages := mathCeilDiv matching.length limit } } } := by
  have hskip : ¬ (page - 1) * limit < 0 := by
    have : 0 ≤ (page - 1) * limit := mul_nonneg (by omega) (by omega)
    omega
  have htake : ¬ limit < 0 := by omega
  simp [pageReply, findManyPage, hskip, htake]

/-- An id parameter that is absent, or parses to a value of the id column, is accepted as a
filter. -/
theorem idFilter_ok {parsed : Option (Option Int)}
    (h : ∀ o, parsed = some o → ∃ id, o = some id ∧ fitsInt id = true) :
    idFilter parsed = .ok parsed.join := by
  cases hp : parsed with
  | none => rfl
  | some o =>
    obtain ⟨id, ho, hfit⟩ := h o hp
    subst ho
    simp [idFilter, hfit]

/-- A date parameter that is absent, empty or read by `new Date` is accepted as a bound. -/
theorem dateBound_ok {field : Option DateField}
    (h : ∀ f, field = some f → f.value ≠ "" → f.date ≠ none) :
    dateBound field = .ok (field.bind (fun f => if f.value = "" then none else f.date)) := by
  cases hf : field with
  | none => rfl
  | some f =>
    by_cases hv : f.value = ""
    · simp [dateBound, truthy, hv]
    · have hd := h f hf hv
      cases hdate : f.date with
      | none => exact absurd hdate hd
      | some t => simp [dateBound, truthy, hv, hdate]

/-- C24: for `page ≥ 1` and `1 ≤ limit ≤ 100` the list endpoints skip `(page - 1) * limit`
records, a non-negative number, take `limit` records and report `pages = ceil(total / limit)`,
the least integer `n` with `n * limit ≥ total` (0 for `total = 0`); an absent page reads
as 1 and an absent limit as 10. For each of `getProjects`, `getTownhalls` and `getXUpdates`,
with a query whose filters the store accepts, the response holds the rows of the table that
match the filters, in the store's order, from position `(page - 1) * limit` on and at most
`limit` of them, `total` is the number of matching rows and `pages` its page count. -/
theorem list_pagination (page limit : Int) (hp : 1 ≤ page) (hl : 1 ≤ limit) (_hl' : limit ≤ 100) :
    0 ≤ (page - 1) * limit ∧
    (∀ total : Int, 0 ≤ total →
      total ≤ mathCeilDiv total limit * limit ∧
      ∀ n : Int, total ≤ n * limit → mathCeilDiv total limit ≤ n) ∧
    mathCeilDiv 0 limit = 0 ∧
    (parsedOr none 1 = 1 ∧ parsedOr none 10 = 10 ∧
      parsedOr (some page) 1 = page ∧ parsedOr (some limit) 10 = limit) ∧
    (∀ (orderBy : List Project → List Project) (db : Db) (q : ProjectsQuery)
        (matching : List Project),
      parsedOr q.page 1 = page → parsedOr q.limit 10 = limit →
      (∀ o, q.proposer = some o → ∃ id, o = some id ∧ fitsInt id = true) →
      matching = db.projects.filter (fun p =>
        (!(truthy q.status) || q.status == some p.status) &&
        q.proposer.all (fun o => o.all (fun id => p.proposer_id == id))) →
      getProjects orderBy db q =
        .json { code := 200, status := "success", message := none,
                data := some
                  { data := projectsWithVotes
                      ((((orderBy matching).drop ((page - 1) * limit).toNat).take limit.toNat).map
                        (fun p => (p, projectVotes db p.id))),
                    pageMeta := { page := page, limit := limit, total := matching.length,
                                  pages := mathCeilDiv matching.length limit } } }) ∧
    (∀ (orderBy : List Townhall → List Townhall) (db : Db) (q : TownhallsQuery)
        (matching : List Townhall),
      parsedOr q.page 1 = page → parsedOr q.limit 10 = limit →
      (∀ o, q.organizer = some o → ∃ id, o = some id ∧ fitsInt id = true) →
      (∀ f, q.from_date = some f → f.value ≠ "" → f.date ≠ none) →
      (∀ f, q.to_date = some f → f.value ≠ "" → f.date ≠ none) →
      matching = db.townhalls.filter (fun t =>
        (!(truthy q.status) || q.status == some t.status) &&
        q.organizer.all (fun o => o.all (fun id => t.organizer_id == id)) &&
        q.from_date.all (fun f => f.value == "" || f.date.all (fun a => decide (a ≤ t.scheduled_at))) &&
        q.to_date.all (fun f => f.value == "" || f.date.all (fun b => decide (t.scheduled_at ≤ b)))) →
      getTownhalls orderBy db q =
        .json { code := 200, status := "success", message := none,
                data := some
                  { data := ((orderBy matching).drop ((page - 1) * limit).toNat).take limit.toNat,
                    pageMeta := { page := page, limit := limit, total := matching.length,
                                  pages := mathCeilDiv matching.length limit } } }) ∧
    (∀ (contains : String → String → Bool) (orderBy : List XUpdate → List XUpdate) (s : XStore)
        (q : XUpdatesQuery) (matching : List XUpdate),
      parsedOr q.page 1 = page → parsedOr q.limit 10 = limit →
      (∀ f, q.from_date = some f → f.value ≠ "" → f.date ≠ none) →
      (∀ f, q.to_date = some f → f.value ≠ "" → f.date ≠ none) →
      matching = s.rows.filter (fun r =>
        q.author.all (fun author => author == "" || contains r.author author) &&
        q.from_date.all (fun f => f.value == "" || f.date.all (fun a => decide (a ≤ r.posted_at))) &&
        q.to_date.all (fun f => f.value == "" || f.date.all (fun b => decide (r.posted_at ≤ b)))) →
      getXUpdates contains orderBy s q =
        .json { code := 200, status := "success", message := none,
                data := some
                  { data := ((orderBy matching).drop ((page - 1) * limit).toNat).take limit.toNat,
                    pageMeta := { page := page, limit := limit, total := matching.length,
                                  pages := mathCeilDiv matching.length limit } } }) := by
  refine ⟨mul_nonneg (by omega) (by omega), fun total _ => mathCeilDiv_least total limit (by omega),
    ?_, ?_, ?_, ?_, ?_⟩
  · simp [mathCeilDiv]
  · have h1 : page ≠ 0 := by omega
    have h2 : limit ≠ 0 := by omega
    simp [parsedOr, h1, h2]
  · intro orderBy db q matching hpage hlimit hprop hmatching
    have hfilter : db.projects.filter (fun p =>
        (if truthy q.status then some p.status == q.status else true) &&
        (match q.proposer.join with
          | some id => p.proposer_id == id
          | none => true)) = matching := by
      rw [hmatching]
      apply List.filter_congr
      intro p _
      congr 1
      · cases truthy q.status <;> simp [eq_comm]
      · cases hq : q.proposer with
        | none => rfl
        | some o =>
          obtain ⟨id, ho, _⟩ := hprop o hq
          subst ho
          rfl
    simp only [getProjects, hpage, hlimit, idFilter_ok hprop]
    rw [hfilter, pageReply_ok _ _ _ _ _ hp hl]
  · intro orderBy db q matching hpage hlimit horg hfrom hto hmatching
    have hfilter : db.townhalls.filter (fun t =>
        (if truthy q.status then some t.status == q.status else true) &&
        (match q.organizer.join with
          | some id => t.organizer_id == id
          | none => true) &&
        (match (q.from_date.bind (fun f => if f.value = "" then none else f.date)) with
          | some a => decide (a ≤ t.scheduled_at)
          | none => true) &&
        (match (q.to_date.bind (fun f => if f.value = "" then none else f.date)) with
          | some b => decide (t.scheduled_at ≤ b)
          | none => true)) = matching := by
      rw [hmatching]
      apply List.filter_congr
      intro t _
      congr 1
      · congr 1
        · congr 1
          · cases truthy q.status <;> simp [eq_comm]
          · cases hq : q.organizer with
            | none => rfl
            | some o =>
              obtain ⟨id, ho, _⟩ := horg o hq
              subst ho
              rfl
        · cases hq : q.from_date with
          | none => rfl
          | some f =>
            by_cases hv : f.value = ""
            · simp [hv]
            · cases hd : f.date with
              | none => exact absurd hd (hfrom f hq hv)
              | some a => simp [hv, hd]
      · cases hq : q.to_date with
        | none => rfl
        | some f =>
          by_cases hv : f.value = ""
          · simp [hv]
          · cases hd : f.date with
            | none => exact absurd hd (hto f hq hv)
            | some a => simp [hv, hd]
    simp only [getTownhalls, hpage, hlimit, idFilter_ok horg, dateBound_ok hfrom, dateBound_ok hto]
    rw [hfilter, pageReply_ok _ _ _ _ _ hp hl]
  · intro contains orderBy s q matching hpage hlimit hfrom hto hmatching
    have hfilter : s.rows.filter (fun r =>
        (match q.author with
          | some author => if truthy (some author) then contains r.author author else true
          | none => true) &&
        (match (q.from_date.bind (fun f => if f.value = "" then none else f.date)) with
          | some a => decide (a ≤ r.posted_at)
          | none => true) &&
        (match (q.to_date.bind (fun f => if f.value = "" then none else f.date)) with
          | some b => decide (r.posted_at ≤ b)
          | none => true)) = matching := by
      rw [hmatching]
      apply List.filter_congr
      intro r _
      congr 1
      · congr 1
        · cases hq : q.author with
          | none => rfl
          | some author =>
            by_cases hv : author = ""
            · simp [truthy, hv]
            · simp [truthy, hv]
        · cases hq : q.from_date with
          | none => rfl
          | some f =>
            by_cases hv : f.value = ""
            · simp [hv]
            · cases hd : f.date with
              | none => exact absurd hd (hfrom f hq hv)
              | some a => simp [hv, hd]
      · cases hq : q.to_date with
        | none => rfl
        | some f =>
          by_cases hv : f.value = ""
          · simp [hv]
          · cases hd : f.date with
            | none => exact absurd hd (hto f hq hv)
            | some a => simp [hv, hd]
    simp only [getXUpdates, hpage, hlimit, dateBound_ok hfrom, dateBound_ok hto]
    rw [hfilter, pageReply_ok _ _ _ _ _ hp hl]

theorem list_pagination_witness :
    getTownhalls (fun rows => rows) townhallDb
        { page := some 2, limit := some 1, status := some "SCHEDULED" } =
      .json { code := 200, status := "success", message := none,
              data := some
                { data := (scheduledTownhalls.drop ((2 - 1) * 1 : Int).toNat).take (1 : Int).toNat,
                  pageMeta := { page := 2, limit := 1, total := scheduledTownhalls.length,
                                pages := mathCeilDiv scheduledTownhalls.length 1 } } } ∧
    (scheduledTownhalls.drop ((2 - 1) * 1 : Int).toNat).take (1 : Int).toNat =
      [{ id := 2, title := "Market roads", description := "Road works hearing",
         scheduled_at := 1910000000000, zoom_link := none, status := "SCHEDULED",
         organizer_id := 8 }] ∧
    mathCeilDiv 2 1 = 2 ∧ parsedOr none 10 = 10 :=
  have h := list_pagination 2 1 (by decide) (by decide) (by decide)
  ⟨h.2.2.2.2.2.1 (fun rows => rows) townhallDb
      { page := some 2, limit := some 1, status := some "SCHEDULED" } scheduledTownhalls
      rfl rfl (fun _ ho => by cases ho) (fun _ hf => by cases hf) (fun _ hf => by cases hf)
      (by decide),
   by decide,
   le_antisymm ((h.2.1 2 (by decide)).2 2 (by decide))
      (by
        have h1 := (h.2.1 2 (by decide)).1
        omega),
   h.2.2.2.1.2.1⟩

/-! ## What a cycle returns -/

/-- The new posts of a batch depend on which ids are stored, not on how they are listed. -/
theorem newPosts_congr (batch : List XPost) :
    ∀ (a b : List String), (∀ id, id ∈ a ↔ id ∈ b) → newPosts a batch = newPosts b batch := by
  induction batch with
  | nil => intro a b _; rfl
  | cons x rest ih =>
    intro a b h
    have hc : a.contains x.post_id = b.contains x.post_id := by
      by_cases hx : x.post_id ∈ a
      · simp [hx, (h x.post_id).1 hx]
      · have hx' : x.post_id ∉ b := fun hb => hx ((h x.post_id).2 hb)
        simp [hx, hx']
    simp only [newPosts, hc]
    split
    · exact ih a b h
    · rw [ih (x.post_id :: a) (x.post_id :: b)]
      intro id
      simp [h id]

/-- The new posts come in batch order. -/
theorem newPosts_sublist (batch : List XPost) :
    ∀ stored : List String, (newPosts stored batch).Sublist batch := by
  induction batch with
  | nil => intro _; exact List.Sublist.refl _
  | cons x rest ih =>
    intro stored
    simp only [newPosts]
    split
    · exact (ih stored).cons x
    · exact (ih _).cons₂ x

/-- A `post_id` is among the new posts exactly when it is in the batch and not stored. -/
theorem mem_newPosts_ids (batch : List XPost) :
    ∀ (stored : List String) (id : String),
      id ∈ (newPosts stored batch).map (fun x => x.post_id) ↔
        id ∈ batch.map (fun x => x.post_id) ∧ id ∉ stored := by
  induction batch with
  | nil => intro stored id; simp [newPosts]
  | cons x rest ih =>
    intro stored id
    simp only [newPosts]
    split
    · rename_i hx
      have hx' : x.post_id ∈ stored := by simpa using hx
      rw [ih stored id]
      simp only [List.map_cons, List.mem_cons]
      constructor
      · rintro ⟨h1, h2⟩
        exact ⟨Or.inr h1, h2⟩
      · rintro ⟨h1 | h1, h2⟩
        · exact absurd (h1 ▸ hx') h2
        · exact ⟨h1, h2⟩
    · rename_i hx
      have hx' : x.post_id ∉ stored := by simpa using hx
      simp only [List.map_cons, List.mem_cons, ih (x.post_id :: stored) id]
      constructor
      · rintro (h | ⟨h1, h2⟩)
        · exact ⟨Or.inl h, h ▸ hx'⟩
        · exact ⟨Or.inr h1, fun hs => h2 (Or.inr hs)⟩
      · rintro ⟨h1 | h1, h2⟩
        · exact Or.inl h1
        · by_cases hid : id = x.post_id
          · exact Or.inl hid
          · right
            refine ⟨h1, ?_⟩
            rintro (h | h)
            · exact hid h
            · exact h2 h

/-- No `post_id` comes twice among the new posts. -/
theorem newPosts_nodup (batch : List XPost) :
    ∀ stored : List String, ((newPosts stored batch).map (fun x => x.post_id)).Nodup := by
  induction batch with
  | nil => intro _; simp [newPosts]
  | cons x rest ih =>
    intro stored
    simp only [newPosts]
    split
    · exact ih stored
    · rw [List.map_cons, List.nodup_cons]
      refine ⟨?_, ih _⟩
      intro hin
      have := (mem_newPosts_ids rest (x.post_id :: stored) x.post_id).1 hin
      exact this.2 (List.mem_cons_self _ _)

/-- Each new post is the first item of the batch with its `post_id`. -/
theorem newPosts_first_occurrence (batch : List XPost) :
    ∀ (stored : List String), ∀ x ∈ newPosts stored batch,
      batch.find? (fun y => y.post_id == x.post_id) = some x := by
  induction batch with
  | nil => intro stored x hx; simp [newPosts] at hx
  | cons y rest ih =>
    intro stored x hx
    simp only [newPosts] at hx
    split at hx
    · rename_i hy
      have hy' : y.post_id ∈ stored := by simpa using hy
      have hxid := ((mem_newPosts_ids rest stored x.post_id).1 (List.mem_map_of_mem _ hx)).2
      have hne : ¬ y.post_id = x.post_id := fun h => hxid (h ▸ hy')
      rw [List.find?_cons_of_neg _ (by simpa using hne)]
      exact ih stored x hx
    · simp only [List.mem_cons] at hx
      rcases hx with hx | hx
      · subst hx
        simp
      · have hxid := ((mem_newPosts_ids rest (y.post_id :: stored) x.post_id).1
          (List.mem_map_of_mem _ hx)).2
        have hne : ¬ y.post_id = x.post_id := fun h => hxid (h ▸ List.mem_cons_self _ _)
        rw [List.find?_cons_of_neg _ (by simpa using hne)]
        exact ih _ x hx

/-- When no existence check and no insert throws, the insertion pass appends, and returns,
one row for each new post of the batch. -/
theorem storeUpdates_quiet (batch : List XPost) :
    ∀ (item : Nat → ItemEnv) (s : XStore) (acc : List XUpdate), QuietItems item →
      ∃ created : List XUpdate,
        storeUpdates item batch s acc =
          ({ rows := s.rows ++ created, nextId := s.nextId + created.length }, acc ++ created) ∧
        created.map XUpdate.toPost = newPosts (s.rows.map (fun r => r.post_id)) batch := by
  induction batch with
  | nil =>
    intro item s acc _
    exact ⟨[], by simp [storeUpdates], by simp [newPosts]⟩
  | cons x rest ih =>
    intro item s acc hq
    have hq' : QuietItems (fun k => item (k + 1)) := fun k => hq (k + 1)
    have hf : (item 0).findFails = false := (hq 0).1
    have hc : (item 0).createFails = false := (hq 0).2
    rw [storeUpdates]
    simp only [hf, Bool.false_eq_true, if_false]
    cases hfind : findByPostId s x.post_id with
    | some r =>
      have hmem : x.post_id ∈ s.rows.map (fun r => r.post_id) := by
        have h1 := List.mem_of_find?_eq_some hfind
        have h2 := List.find?_some hfind
        simp only [beq_iff_eq] at h2
        exact h2 ▸ List.mem_map_of_mem (fun r => r.post_id) h1
      obtain ⟨created, h1, h2⟩ := ih _ s acc hq'
      refine ⟨created, h1, ?_⟩
      rw [h2]
      simp [newPosts, hmem]
    | none =>
      have hnot : x.post_id ∉ s.rows.map (fun r => r.post_id) := by
        intro hin
        obtain ⟨r, hr, hrid⟩ := List.mem_map.1 hin
        exact (findByPostId_eq_none_iff s x.post_id).1 hfind r hr hrid
      simp only [createXUpdate, hc, hfind, Option.isSome_none, Bool.false_eq_true, if_false]
      obtain ⟨created, h1, h2⟩ := ih (fun k => item (k + 1))
        { rows := s.rows ++ [{ id := s.nextId, post_id := x.post_id, content := x.content,
                               author := x.author, posted_at := x.posted_at,
                               fetched_at := (item 0).now }],
          nextId := s.nextId + 1 }
        (acc ++ [{ id := s.nextId, post_id := x.post_id, content := x.content,
                   author := x.author, posted_at := x.posted_at,
                   fetched_at := (item 0).now }]) hq'
      refine ⟨{ id := s.nextId, post_id := x.post_id, content := x.content,
                author := x.author, posted_at := x.posted_at,
                fetched_at := (item 0).now } :: created, ?_, ?_⟩
      · rw [h1]
        simp only [List.append_assoc, List.singleton_append, List.length_cons, Nat.cast_add,
          Nat.cast_one]
        congr 2
        omega
      · simp only [List.map_cons, newPosts]
        have hc' : (s.rows.map (fun r => r.post_id)).contains x.post_id = false := by
          simpa using hnot
        rw [hc']
        simp only [Bool.false_eq_true, if_false, XUpdate.toPost]
        rw [h2]
        congr 1
        apply newPosts_congr
        intro id
        simp only [List.map_append, List.map_cons, List.map_nil, List.mem_append,
          List.mem_singleton, List.mem_cons]
        tauto

/-- A cycle whose clean-up completes returns the list of new updates of its insertion pass. -/
theorem fetchAndStoreUpdates_returns (env : SyncEnv) (s : XStore)
    (hf : env.findManyFails = false) (hd : env.deleteManyFails = false) :
    (fetchAndStoreUpdates env s).2 =
      .ok (storeUpdates env.item (fetchFromXAPI env.response) s []).2 := by
  obtain ⟨s', hs'⟩ := pruneOldUpdates_completes env
    (storeUpdates env.item (fetchFromXAPI env.response) s []).1 hf hd
  simp only [fetchAndStoreUpdates, hs']

/-- C26: when no store operation fails, the list `fetchAndStoreUpdates` returns is the list
of rows its insertion pass appended to the store, made in batch order from the first
occurrence of each batch `post_id` that was not stored when the cycle began, and from nothing
else; so its length, which `refreshXUpdates` reports as `new_updates_count`, is at most the
batch length and at most the number of distinct `post_id` values of the batch. -/
theorem sync_returns_new_posts (env : SyncEnv) (s : XStore) (hq : QuietItems env.item)
    (hf : env.findManyFails = false) (hd : env.deleteManyFails = false) :
    ∃ newUpdates : List XUpdate,
      (fetchAndStoreUpdates env s).2 = .ok newUpdates ∧
      (storeUpdates env.item (fetchFromXAPI env.response) s []).1.rows = s.rows ++ newUpdates ∧
      newUpdates.map XUpdate.toPost =
        newPosts (s.rows.map (fun r => r.post_id)) (fetchFromXAPI env.response) ∧
      (newUpdates.map XUpdate.toPost).Sublist (fetchFromXAPI env.response) ∧
      (newUpdates.map (fun r => r.post_id)).Nodup ∧
      (∀ id, id ∈ newUpdates.map (fun r => r.post_id) ↔
        id ∈ (fetchFromXAPI env.response).map (fun x => x.post_id) ∧
        id ∉ s.rows.map (fun r => r.post_id)) ∧
      (∀ r ∈ newUpdates,
        (fetchFromXAPI env.response).find? (fun y => y.post_id == r.post_id) = some r.toPost) ∧
      newUpdates.length ≤ (fetchFromXAPI env.response).length ∧
      newUpdates.length ≤ ((fetchFromXAPI env.response).map (fun x => x.post_id)).dedup.length ∧
      (∀ req, refreshDenied req = false →
        (refreshXUpdates env s req).2 =
          .json { code := 200, status := "success",
                  message := some "X updates refreshed successfully",
                  data := some { new_updates_count := newUpdates.length } }) := by
  obtain ⟨created, hpass, hspec⟩ := storeUpdates_quiet (fetchFromXAPI env.response) env.item s [] hq
  have hret := fetchAndStoreUpdates_returns env s hf hd
  rw [hpass] at hret
  simp only [List.nil_append] at hret
  have hids : created.map (fun r => r.post_id) =
      (newPosts (s.rows.map (fun r => r.post_id)) (fetchFromXAPI env.response)).map
        (fun x => x.post_id) := by
    rw [← hspec, List.map_map]
    rfl
  have hnodup : (created.map (fun r => r.post_id)).Nodup := by
    rw [hids]
    exact newPosts_nodup _ _
  have hsub : (created.map XUpdate.toPost).Sublist (fetchFromXAPI env.response) := by
    rw [hspec]
    exact newPosts_sublist _ _
  have hmem : ∀ id, id ∈ created.map (fun r => r.post_id) ↔
      id ∈ (fetchFromXAPI env.response).map (fun x => x.post_id) ∧
      id ∉ s.rows.map (fun r => r.post_id) := by
    intro id
    rw [hids]
    exact mem_newPosts_ids _ _ id
  refine ⟨created, hret, by rw [hpass], hspec, hsub, hnodup, hmem, ?_, ?_, ?_, ?_⟩
  · intro r hr
    have hin : r.toPost ∈ newPosts (s.rows.map (fun r => r.post_id)) (fetchFromXAPI env.response) := by
      rw [← hspec]
      exact List.mem_map_of_mem _ hr
    exact newPosts_first_occurrence _ _ _ hin
  · have := hsub.length_le
    simpa using this
  · have hsubset : created.map (fun r => r.post_id) ⊆
        ((fetchFromXAPI env.response).map (fun x => x.post_id)).dedup := by
      intro id hid
      exact List.mem_dedup.2 ((hmem id).1 hid).1
    have := (hnodup.subperm hsubset).length_le
    simpa using this
  · intro req hreq
    have h2 : (fetchAndStoreUpdates env s) = ((fetchAndStoreUpdates env s).1, .ok created) := by
      rw [← hret]
    simp only [refreshXUpdates, hreq, Bool.false_eq_true, if_false]
    rw [h2]

theorem sync_returns_new_posts_witness :
    ∃ newUpdates : List XUpdate,
      (fetchAndStoreUpdates sampleEnv sampleStore).2 = .ok newUpdates ∧
      newUpdates.map XUpdate.toPost =
        [{ post_id := "102", content := "New school #AbiaState", author := "Unknown",
           posted_at := 3000 }] ∧
      newUpdates.length ≤ 3 :=
  have ⟨newUpdates, h1, _, h3, _, _, _, _, h8, _⟩ :=
    sync_returns_new_posts sampleEnv sampleStore (fun _ => ⟨rfl, rfl⟩) rfl rfl
  ⟨newUpdates, h1, h3.trans (by decide), h8⟩

/-! ## Returned posts and the clean-up -/

/-- Every row the insertion pass returns is a row of the store after the pass. -/
theorem storeUpdates_returned_stored (updates : List XPost) (item : Nat → ItemEnv) (s : XStore) :
    ∀ r ∈ (storeUpdates item updates s []).2, r ∈ (storeUpdates item updates s []).1.rows := by
  refine storeUpdates_invariant (fun s acc => ∀ r ∈ acc, r ∈ s.rows) ?_ updates item s []
    (fun r hr => by simp at hr)
  intro s s' acc e update saved hP _ hc
  obtain ⟨_, hs'⟩ := createXUpdate_ok hc
  subst hs'
  intro r hr
  simp only [List.mem_append, List.mem_singleton] at hr ⊢
  rcases hr with hr | hr
  · exact Or.inl (hP r hr)
  · exact Or.inr hr

/-- On a store of at most 1000 rows a clean-up that completes deletes nothing. -/
theorem pruneOldUpdates_small {env : SyncEnv} {s s' : XStore}
    (hperm : (env.orderBy s.rows).Perm s.rows) (hlen : s.rows.length ≤ 1000)
    (h : pruneOldUpdates env s = .ok s') : s' = s := by
  have hdropnil : (env.orderBy s.rows).drop retention = [] := by
    apply List.drop_eq_nil_of_le
    rw [hperm.length_eq]
    exact hlen
  have hold : oldUpdateIds env.orderBy s = [] := by
    simp [oldUpdateIds, hdropnil]
  obtain ⟨hn, hr⟩ := pruneOldUpdates_ok h
  rw [hold] at hr
  cases s
  cases s'
  simp only at hr hn
  simp only [XStore.mk.injEq]
  exact ⟨by simpa using hr, hn⟩

/-- The store after a cycle is the store after its insertion pass when that holds at most
1000 rows. -/
theorem fetchAndStoreUpdates_small (env : SyncEnv) (s : XStore)
    (hperm : ∀ rows, (env.orderBy rows).Perm rows)
    (hlen : (storeUpdates env.item (fetchFromXAPI env.response) s []).1.rows.length ≤ 1000) :
    (fetchAndStoreUpdates env s).1 = (storeUpdates env.item (fetchFromXAPI env.response) s []).1 := by
  unfold fetchAndStoreUpdates
  simp only
  cases hp : pruneOldUpdates env (storeUpdates env.item (fetchFromXAPI env.response) s []).1 with
  | error e => rfl
  | ok s' => exact pruneOldUpdates_small (hperm _) hlen hp

/-- The store `fullStore` is well formed: its `post_id` values are pairwise distinct and its
primary key is intact. -/
theorem fullStore_wellFormed : DistinctPostIds fullStore.rows ∧ fullStore.KeysOk := by
  have hrows : fullStore.rows = fullRows := by simp only [fullStore]
  have hnext : fullStore.nextId = 1001 := by simp only [fullStore]
  refine ⟨?_, ?_, ?_⟩
  · unfold DistinctPostIds
    rw [hrows]
    unfold fullRows
    rw [List.map_map]
    apply (List.nodup_range 1000).map
    intro i j hij
    simp only [Function.comp] at hij
    have := congrArg String.length hij
    simp only [String.length, List.length_replicate] at this
    omega
  · rw [hrows]
    unfold fullRows
    rw [List.map_map]
    apply (List.nodup_range 1000).map
    intro i j hij
    simp only [Function.comp] at hij
    omega
  · intro r hr
    rw [hrows] at hr
    unfold fullRows at hr
    rw [List.mem_map] at hr
    obtain ⟨i, hi, rfl⟩ := hr
    rw [hnext]
    have := List.mem_range.1 hi
    simp only
    omega

/-- C27 as stated fails when the clean-up of the same cycle deletes what the insertion pass
stored: on a store of 1000 posts (distinct ids, intact primary key) that are all newer than
the one fetched post, the cycle completes, returns the new row, and the store after the
cycle does not hold it. -/
theorem returned_post_pruned :
    DistinctPostIds fullStore.rows ∧ fullStore.KeysOk ∧ fullStore.rows.length = 1000 ∧
    (fetchAndStoreUpdates staleEnv fullStore).2.toOption = some [staleRow] ∧
    staleRow ∉ (fetchAndStoreUpdates staleEnv fullStore).1.rows ∧
    (fetchAndStoreUpdates staleEnv fullStore).1.rows.length = 1000 := by
  refine ⟨fullStore_wellFormed.1, fullStore_wellFormed.2, by simp [fullStore, fullRows], ?_, ?_, ?_⟩ <;>
    decide!

/-- C27 (amended): every post `fetchAndStoreUpdates` returns as newly stored is in the store
after the insertion pass; when the cycle completes it is still there if the store held at
most 1000 posts after the insertion pass, and in general (with an intact primary key)
exactly when it is among the first 1000 rows of the store's newest-first order. -/
theorem returned_posts_stored (env : SyncEnv) (s : XStore)
    (hperm : ∀ rows, (env.orderBy rows).Perm rows) :
    (∀ r ∈ (storeUpdates env.item (fetchFromXAPI env.response) s []).2,
      r ∈ (storeUpdates env.item (fetchFromXAPI env.response) s []).1.rows) ∧
    (∀ newUpdates, (fetchAndStoreUpdates env s).2 = .ok newUpdates →
      (storeUpdates env.item (fetchFromXAPI env.response) s []).1.rows.length ≤ 1000 →
      ∀ r ∈ newUpdates, r ∈ (fetchAndStoreUpdates env s).1.rows) ∧
    (∀ newUpdates, (fetchAndStoreUpdates env s).2 = .ok newUpdates → s.KeysOk →
      ∀ r ∈ newUpdates,
        (r ∈ (fetchAndStoreUpdates env s).1.rows ↔
          r ∈ (env.orderBy (storeUpdates env.item (fetchFromXAPI env.response) s []).1.rows).take
            1000)) := by
  have hstored := storeUpdates_returned_stored (fetchFromXAPI env.response) env.item s
  refine ⟨hstored, ?_, ?_⟩
  · intro newUpdates hret hlen r hr
    rw [fetchAndStoreUpdates_small env s hperm hlen]
    apply hstored
    unfold fetchAndStoreUpdates at hret
    simp only at hret
    cases hp : pruneOldUpdates env (storeUpdates env.item (fetchFromXAPI env.response) s []).1 with
    | error e => rw [hp] at hret; cases hret
    | ok s' =>
      rw [hp] at hret
      simp only [Except.ok.injEq] at hret
      rw [hret]
      exact hr
  · intro newUpdates hret hk r _
    have hkeys := (storeUpdates_keysOk (fetchFromXAPI env.response) env.item s [] hk).1
    unfold fetchAndStoreUpdates at hret ⊢
    simp only at hret ⊢
    cases hp : pruneOldUpdates env (storeUpdates env.item (fetchFromXAPI env.response) s []).1 with
    | error e => rw [hp] at hret; cases hret
    | ok s' =>
      simp only
      rw [(pruneOldUpdates_ok hp).2]
      exact (prune_rows_perm env.orderBy _ hkeys (hperm _)).mem_iff

theorem returned_posts_stored_witness :
    (storeUpdates sampleEnv.item (fetchFromXAPI sampleEnv.response) sampleStore []).2 =
      [{ id := 3, post_id := "102", content := "New school #AbiaState", author := "Unknown",
         posted_at := 3000, fetched_at := 5000 }] ∧
    ({ id := 3, post_id := "102", content := "New school #AbiaState", author := "Unknown",
       posted_at := 3000, fetched_at := 5000 } : XUpdate) ∈
      (fetchAndStoreUpdates sampleEnv sampleStore).1.rows :=
  ⟨by decide,
   (returned_posts_stored sampleEnv sampleStore
      (fun rows => (orderByPostedAtDesc_newestFirst rows).1)).2.1
    (storeUpdates sampleEnv.item (fetchFromXAPI sampleEnv.response) sampleStore []).2 rfl
    (by decide)
    { id := 3, post_id := "102", content := "New school #AbiaState", author := "Unknown",
      posted_at := 3000, fetched_at := 5000 } (by decide)⟩

/-! ## A second cycle with the same batch -/

/-- A batch whose `post_id` values are all stored leaves the store as it is and adds nothing
to the list of new updates, whatever fails. -/
theorem storeUpdates_all_stored (updates : List XPost) :
    ∀ (item : Nat → ItemEnv) (s : XStore) (acc : List XUpdate),
      (∀ x ∈ updates, x.post_id ∈ s.rows.map (fun r => r.post_id)) →
      storeUpdates item updates s acc = (s, acc) := by
  induction updates with
  | nil => intro item s acc _; simp [storeUpdates]
  | cons x rest ih =>
    intro item s acc h
    have hrest : ∀ y ∈ rest, y.post_id ∈ s.rows.map (fun r => r.post_id) :=
      fun y hy => h y (List.mem_cons_of_mem _ hy)
    rw [storeUpdates]
    split
    · exact ih _ s acc hrest
    · cases hfind : findByPostId s x.post_id with
      | some r => exact ih _ s acc hrest
      | none =>
        obtain ⟨r, hr, hrid⟩ := List.mem_map.1 (h x (List.mem_cons_self _ _))
        exact absurd hrid ((findByPostId_eq_none_iff s x.post_id).1 hfind r hr)

/-- After an insertion pass in which no existence check and no insert throws, every
`post_id` of the batch is stored. -/
theorem storeUpdates_quiet_all_stored (updates : List XPost) (item : Nat → ItemEnv) (s : XStore)
    (hq : QuietItems item) :
    ∀ x ∈ updates, x.post_id ∈ (storeUpdates item updates s []).1.rows.map (fun r => r.post_id) := by
  obtain ⟨created, hpass, hspec⟩ := storeUpdates_quiet updates item s [] hq
  intro x hx
  rw [hpass]
  simp only [List.map_append, List.mem_append]
  by_cases hs : x.post_id ∈ s.rows.map (fun r => r.post_id)
  · exact Or.inl hs
  · right
    have hids : created.map (fun r => r.post_id) =
        (newPosts (s.rows.map (fun r => r.post_id)) updates).map (fun x => x.post_id) := by
      rw [← hspec, List.map_map]
      rfl
    rw [hids]
    exact (mem_newPosts_ids updates _ x.post_id).2 ⟨List.mem_map_of_mem _ hx, hs⟩

/-- C28 as stated fails when an insert of the first cycle throws: the first cycle over
`sampleStore` (distinct ids, nothing to prune) fetches the posts 100 and 102, its insert of
102 fails, and it returns nothing; the second cycle with the same batch stores 102 and
returns it. -/
theorem second_cycle_after_failure :
    DistinctPostIds sampleStore.rows ∧
    (fetchFromXAPI (.ok shorterResponse)).map (fun x => x.post_id) = ["100", "102"] ∧
    fetchAndStoreUpdates { sampleEnv with response := .ok shorterResponse, item := secondInsertFails }
      sampleStore = (sampleStore, .ok []) ∧
    (fetchAndStoreUpdates { sampleEnv with response := .ok shorterResponse } sampleStore).2.toOption =
      some [{ id := 3, post_id := "102", content := "New school #AbiaState", author := "Unknown",
              posted_at := 3000, fetched_at := 5000 }] ∧
    (fetchAndStoreUpdates { sampleEnv with response := .ok shorterResponse } sampleStore).1 ≠
      sampleStore := by
  refine ⟨by decide, by decide, rfl, by decide, by decide⟩

/-- C28 (amended): on a store with pairwise distinct `post_id` values, when no existence
check and no insert of the first cycle throws and the first cycle prunes nothing (at most
1000 posts after its insertion pass), a second `fetchAndStoreUpdates` with the same batch
whose clean-up query does not fail returns the empty list of new updates and leaves the
store unchanged, whatever existence checks and inserts fail in it. -/
theorem second_cycle_idempotent (env1 env2 : SyncEnv) (s : XStore)
    (_hd : DistinctPostIds s.rows) (hq : QuietItems env1.item)
    (hsame : fetchFromXAPI env2.response = fetchFromXAPI env1.response)
    (hsmall : (storeUpdates env1.item (fetchFromXAPI env1.response) s []).1.rows.length ≤ 1000)
    (hperm1 : ∀ rows, (env1.orderBy rows).Perm rows)
    (hperm2 : ∀ rows, (env2.orderBy rows).Perm rows)
    (hf2 : env2.findManyFails = false) :
    fetchAndStoreUpdates env2 (fetchAndStoreUpdates env1 s).1 =
      ((fetchAndStoreUpdates env1 s).1, .ok []) := by
  have hs1 := fetchAndStoreUpdates_small env1 s hperm1 hsmall
  have hall := storeUpdates_quiet_all_stored (fetchFromXAPI env1.response) env1.item s hq
  rw [← hs1] at hall hsmall
  have hpass2 := storeUpdates_all_stored (fetchFromXAPI env1.response) env2.item
    (fetchAndStoreUpdates env1 s).1 [] hall
  have hdropnil : (env2.orderBy (fetchAndStoreUpdates env1 s).1.rows).drop retention = [] := by
    apply List.drop_eq_nil_of_le
    rw [(hperm2 _).length_eq]
    exact hsmall
  have hprune : pruneOldUpdates env2 (fetchAndStoreUpdates env1 s).1 =
      .ok (fetchAndStoreUpdates env1 s).1 := by
    simp [pruneOldUpdates, hf2, oldUpdateIds, hdropnil]
  conv_lhs => rw [fetchAndStoreUpdates]
  simp only [hsame, hpass2, hprune]

theorem second_cycle_idempotent_witness :
    fetchAndStoreUpdates sampleEnv (fetchAndStoreUpdates sampleEnv sampleStore).1 =
      ((fetchAndStoreUpdates sampleEnv sampleStore).1, .ok []) :=
  second_cycle_idempotent sampleEnv sampleEnv sampleStore (by decide) (fun _ => ⟨rfl, rfl⟩) rfl
    (by decide) (fun rows => (orderByPostedAtDesc_newestFirst rows).1)
    (fun rows => (orderByPostedAtDesc_newestFirst rows).1) rfl

/-! ## Overlapping cycles -/

/-- A step does not touch the environment of the cycle. -/
theorem SyncTask.step_env (t : SyncTask) (s : XStore) : (t.step s).1.env = t.env := by
  unfold SyncTask.step
  split
  · rfl
  · split <;> rfl
  · split <;> rfl
  · split
    · split
      · rfl
      · split <;> rfl
    · split
      · rfl
      · simp only
        split <;> rfl

/-- Every store operation of a cycle keeps the `post_id` values pairwise distinct: an insert
goes through only when the store holds no post of that `post_id` at that moment. -/
theorem SyncTask.step_distinct (t : SyncTask) (s : XStore) (h : DistinctPostIds s.rows) :
    DistinctPostIds (t.step s).2.rows := by
  unfold SyncTask.step
  split
  · exact h
  · split
    · exact h
    · unfold DistinctPostIds at h ⊢
      exact h.sublist ((List.filter_sublist _).map _)
  · rename_i update _
    cases hc : createXUpdate s (t.item 0) update with
    | error e => exact h
    | ok res =>
      obtain ⟨s', saved⟩ := res
      simp only
      have hfind : findByPostId s update.post_id = none := by
        unfold createXUpdate at hc
        split at hc
        · cases hc
        · split at hc
          · cases hc
          · rename_i hsome
            simpa using hsome
      obtain ⟨hsaved, hs'⟩ := createXUpdate_ok hc
      subst hs'
      unfold DistinctPostIds at h ⊢
      rw [List.map_append, List.nodup_append]
      refine ⟨h, List.nodup_singleton _, ?_⟩
      intro k hk hk'
      simp only [List.map_cons, List.map_nil, List.mem_singleton] at hk'
      obtain ⟨r, hr, hrk⟩ := List.mem_map.1 hk
      apply (findByPostId_eq_none_iff s update.post_id).1 hfind r hr
      rw [hrk, hk', hsaved]
  · split
    · split
      · exact h
      · split <;> exact h
    · split
      · exact h
      · simp only
        split <;> exact h

/-- Every store operation brings a cycle that has not returned closer to its end. -/
theorem SyncTask.step_remaining (t : SyncTask) (s : XStore) :
    (t.step s).1.remaining ≤ t.remaining - 1 := by
  unfold SyncTask.step
  split
  · rename_i hph
    simp [SyncTask.remaining, hph]
  · rename_i hph
    split <;> simp [SyncTask.remaining, hph]
  · rename_i hph
    split <;> simp [SyncTask.remaining, hph]
  · rename_i hph
    split
    · rename_i hpend
      split
      · simp [SyncTask.remaining, hph, hpend]
        omega
      · split <;> simp [SyncTask.remaining, hph, hpend] <;> omega
    · rename_i hpend
      split
      · simp [SyncTask.remaining, hph, hpend]
      · simp only
        split <;> simp [SyncTask.remaining, hph, hpend]

/-- A cycle with nothing left to do has returned or rethrown. -/
theorem SyncTask.finished_of_remaining (t : SyncTask) (h : t.remaining = 0) : t.finished := by
  unfold SyncTask.remaining at h
  split at h
  · rename_i result hph
    exact ⟨result, hph⟩
  · omega
  · omega
  · omega

/-- A cycle rethrows only when `findMany` or `deleteMany` of its clean-up throws: a rejected
or failing insert and a failing existence check are caught per item. -/
theorem SyncTask.step_notRaised (t : SyncTask) (s : XStore)
    (hf : t.env.findManyFails = false) (hd : t.env.deleteManyFails = false)
    (h : t.notRaised) : (t.step s).1.notRaised := by
  unfold SyncTask.step
  split
  · exact h
  · simp only [hd, Bool.false_eq_true, if_false]
    intro e he
    simp at he
  · split <;> (intro e he; simp at he)
  · split
    · split
      · intro e he
        exact h e he
      · split
        · intro e he
          exact h e he
        · intro e he
          simp at he
    · simp only [hf, Bool.false_eq_true, if_false]
      split <;> (intro e he; simp at he)

/-- A cycle that has returned performs no further store operation. -/
theorem runAlone_returned (n : Nat) (t : SyncTask) (s : XStore) (result : Except String (List XUpdate))
    (h : t.phase = .returned result) : runAlone n t s = (t, s) := by
  induction n with
  | zero => rfl
  | succ n ih =>
    have hstep : t.step s = (t, s) := by
      unfold SyncTask.step
      rw [h]
    rw [runAlone, hstep]
    exact ih

/-- A cycle running alone continues from where its next store operation leaves it. -/
theorem runAlone_succ {t t' : SyncTask} {s s' : XStore} (n : Nat) (h : t.step s = (t', s')) :
    runAlone (n + 1) t s = runAlone n t' s' := by
  rw [runAlone, h]

/-- A cycle running alone from an existence check performs, step by step, the rest of the
insertion pass and the clean-up of `fetchAndStoreUpdates`. -/
theorem runAlone_check (env : SyncEnv) (l : List XPost) :
    ∀ (item : Nat → ItemEnv) (s : XStore) (acc : List XUpdate) (n : Nat), 2 * l.length + 2 ≤ n →
      (runAlone n { env := env, item := item, pending := l, phase := .check, newUpdates := acc } s).2 =
        (match pruneOldUpdates env (storeUpdates item l s acc).1 with
          | .error _ => (storeUpdates item l s acc).1
          | .ok s' => s') ∧
      (runAlone n { env := env, item := item, pending := l, phase := .check, newUpdates := acc } s).1.phase =
        .returned (match pruneOldUpdates env (storeUpdates item l s acc).1 with
          | .error e => .error e
          | .ok _ => .ok (storeUpdates item l s acc).2) := by
  induction l with
  | nil =>
    intro item s acc n hn
    obtain ⟨m, rfl⟩ : ∃ m, n = m + 2 := ⟨n - 2, by simp at hn; omega⟩
    simp only [storeUpdates]
    by_cases hf : env.findManyFails = true
    · have hstep : SyncTask.step
          { env := env, item := item, pending := [], phase := .check, newUpdates := acc } s =
          ({ env := env, item := item, pending := [],
             phase := .returned (.error "findMany failed"), newUpdates := acc }, s) := by
        simp [SyncTask.step, hf]
      rw [runAlone_succ _ hstep, runAlone_returned _ _ _ _ rfl]
      simp [pruneOldUpdates, hf]
    · by_cases hlen : (oldUpdateIds env.orderBy s).length > 0
      · have hstep : SyncTask.step
            { env := env, item := item, pending := [], phase := .check, newUpdates := acc } s =
            ({ env := env, item := item, pending := [],
               phase := .delete (oldUpdateIds env.orderBy s), newUpdates := acc }, s) := by
          simp [SyncTask.step, hf, hlen]
        rw [runAlone_succ _ hstep]
        by_cases hd : env.deleteManyFails = true
        · have hstep2 : SyncTask.step
              { env := env, item := item, pending := [],
                phase := .delete (oldUpdateIds env.orderBy s), newUpdates := acc } s =
              ({ env := env, item := item, pending := [],
                 phase := .returned (.error "deleteMany failed"), newUpdates := acc }, s) := by
            simp [SyncTask.step, hd]
          rw [runAlone_succ _ hstep2, runAlone_returned _ _ _ _ rfl]
          simp [pruneOldUpdates, hf, hlen, hd]
        · have hstep2 : SyncTask.step
              { env := env, item := item, pending := [],
                phase := .delete (oldUpdateIds env.orderBy s), newUpdates := acc } s =
              ({ env := env, item := item, pending := [],
                 phase := .returned (.ok acc), newUpdates := acc },
               { rows := s.rows.filter (fun r => !((oldUpdateIds env.orderBy s).contains r.id)),
                 nextId := s.nextId }) := by
            simp [SyncTask.step, hd]
          rw [runAlone_succ _ hstep2, runAlone_returned _ _ _ _ rfl]
          simp [pruneOldUpdates, hf, hlen, hd]
      · have hstep : SyncTask.step
            { env := env, item := item, pending := [], phase := .check, newUpdates := acc } s =
            ({ env := env, item := item, pending := [],
               phase := .returned (.ok acc), newUpdates := acc }, s) := by
          simp [SyncTask.step, hf, hlen]
        rw [runAlone_succ _ hstep, runAlone_returned _ _ _ _ rfl]
        simp [pruneOldUpdates, hf, hlen]
  | cons x rest ih =>
    intro item s acc n hn
    simp only [List.length_cons] at hn
    obtain ⟨m, rfl⟩ : ∃ m, n = m + 2 := ⟨n - 2, by omega⟩
    have hm : 2 * rest.length + 2 ≤ m := by omega
    rw [storeUpdates]
    by_cases hff : (item 0).findFails = true
    · have hstep : SyncTask.step
          { env := env, item := item, pending := x :: rest, phase := .check, newUpdates := acc } s =
          ({ env := env, item := fun k => item (k + 1), pending := rest, phase := .check,
             newUpdates := acc }, s) := by
        simp [SyncTask.step, hff]
      rw [runAlone_succ _ hstep]
      simp only [hff, if_true]
      exact ih _ s acc (m + 1) (by omega)
    · simp only [hff, if_false]
      cases hfind : findByPostId s x.post_id with
      | some r =>
        have hstep : SyncTask.step
            { env := env, item := item, pending := x :: rest, phase := .check, newUpdates := acc } s =
            ({ env := env, item := fun k => item (k + 1), pending := rest, phase := .check,
               newUpdates := acc }, s) := by
          simp [SyncTask.step, hff, hfind]
        rw [runAlone_succ _ hstep]
        exact ih _ s acc (m + 1) (by omega)
      | none =>
        have hstep : SyncTask.step
            { env := env, item := item, pending := x :: rest, phase := .check, newUpdates := acc } s =
            ({ env := env, item := item, pending := rest, phase := .insert x,
               newUpdates := acc }, s) := by
          simp [SyncTask.step, hff, hfind]
        rw [runAlone_succ _ hstep]
        cases hc : createXUpdate s (item 0) x with
        | error e =>
          have hstep2 : SyncTask.step
              { env := env, item := item, pending := rest, phase := .insert x, newUpdates := acc } s =
              ({ env := env, item := fun k => item (k + 1), pending := rest, phase := .check,
                 newUpdates := acc }, s) := by
            simp [SyncTask.step, hc]
          rw [runAlone_succ _ hstep2]
          exact ih _ s acc m hm
        | ok res =>
          obtain ⟨s', saved⟩ := res
          have hstep2 : SyncTask.step
              { env := env, item := item, pending := rest, phase := .insert x, newUpdates := acc } s =
              ({ env := env, item := fun k => item (k + 1), pending := rest, phase := .check,
                 newUpdates := acc ++ [saved] }, s') := by
            simp [SyncTask.step, hc]
          rw [runAlone_succ _ hstep2]
          exact ih _ s' (acc ++ [saved]) m hm

/-- A cycle running alone, one store operation at a time, is `fetchAndStoreUpdates`: it ends
with the store and with the result of the function. -/
theorem runAlone_refines (env : SyncEnv) (s : XStore) (n : Nat)
    (hn : (SyncTask.start env).remaining ≤ n) :
    (runAlone n (SyncTask.start env) s).2 = (fetchAndStoreUpdates env s).1 ∧
    (runAlone n (SyncTask.start env) s).1.phase = .returned (fetchAndStoreUpdates env s).2 := by
  have h := runAlone_check env (fetchFromXAPI env.response) env.item s [] n
    (by simpa [SyncTask.start, SyncTask.remaining] using hn)
  unfold fetchAndStoreUpdates
  simp only [SyncTask.start]
  cases hp : pruneOldUpdates env (storeUpdates env.item (fetchFromXAPI env.response) s []).1 with
  | error e =>
    rw [hp] at h
    exact h
  | ok s' =>
    rw [hp] at h
    exact h

/-- Whatever the schedule, the store of two overlapping cycles keeps its `post_id` values
pairwise distinct. -/
theorem interleave_distinct (schedule : List Bool) :
    ∀ (a b : SyncTask) (s : XStore), DistinctPostIds s.rows →
      DistinctPostIds (interleave schedule a b s).2.2.rows := by
  induction schedule with
  | nil => intro a b s h; exact h
  | cons first rest ih =>
    intro a b s h
    cases first with
    | true => exact ih _ b _ (a.step_distinct s h)
    | false => exact ih a _ _ (b.step_distinct s h)

/-- Each step the schedule gives to the first cycle brings it closer to its end. -/
theorem interleave_remaining_first (schedule : List Bool) :
    ∀ (a b : SyncTask) (s : XStore),
      (interleave schedule a b s).1.remaining ≤ a.remaining - schedule.count true := by
  induction schedule with
  | nil => intro a b s; simp [interleave]
  | cons first rest ih =>
    intro a b s
    cases first with
    | true =>
      have h1 := ih (a.step s).1 b (a.step s).2
      have h2 := a.step_remaining s
      simp only [interleave, List.count_cons_self]
      omega
    | false =>
      have h1 := ih a (b.step s).1 (b.step s).2
      simp only [interleave]
      rw [List.count_cons_of_ne (by decide)]
      exact h1

/-- Each step the schedule gives to the second cycle brings it closer to its end. -/
theorem interleave_remaining_second (schedule : List Bool) :
    ∀ (a b : SyncTask) (s : XStore),
      (interleave schedule a b s).2.1.remaining ≤ b.remaining - schedule.count false := by
  induction schedule with
  | nil => intro a b s; simp [interleave]
  | cons first rest ih =>
    intro a b s
    cases first with
    | true =>
      have h1 := ih (a.step s).1 b (a.step s).2
      simp only [interleave]
      rw [List.count_cons_of_ne (by decide)]
      exact h1
    | false =>
      have h1 := ih a (b.step s).1 (b.step s).2
      have h2 := b.step_remaining s
      simp only [interleave, List.count_cons_self]
      omega

/-- In an overlap neither cycle rethrows unless a store operation of its own clean-up throws. -/
theorem interleave_notRaised (schedule : List Bool) :
    ∀ (a b : SyncTask) (s : XStore),
      (a.env.findManyFails = false → a.env.deleteManyFails = false → a.notRaised →
        (interleave schedule a b s).1.notRaised) ∧
      (b.env.findManyFails = false → b.env.deleteManyFails = false → b.notRaised →
        (interleave schedule a b s).2.1.notRaised) := by
  induction schedule with
  | nil => intro a b s; exact ⟨fun _ _ h => h, fun _ _ h => h⟩
  | cons first rest ih =>
    intro a b s
    cases first with
    | true =>
      obtain ⟨h1, h2⟩ := ih (a.step s).1 b (a.step s).2
      refine ⟨fun hf hd h => ?_, h2⟩
      apply h1
      · rw [a.step_env s]; exact hf
      · rw [a.step_env s]; exact hd
      · exact a.step_notRaised s hf hd h
    | false =>
      obtain ⟨h1, h2⟩ := ih a (b.step s).1 (b.step s).2
      refine ⟨h1, fun hf hd h => ?_⟩
      apply h2
      · rw [b.step_env s]; exact hf
      · rw [b.step_env s]; exact hd
      · exact b.step_notRaised s hf hd h

/-- An insert that meets a post of its `post_id` in the store is rejected and caught: the
store and the list of new updates stay as they are and the cycle goes on to its next item. -/
theorem SyncTask.step_insert_rejected (t : SyncTask) (s : XStore) (update : XPost) (r : XUpdate)
    (hph : t.phase = .insert update) (hfound : findByPostId s update.post_id = some r) :
    t.step s = ({ t with item := fun k => t.item (k + 1), phase := .check }, s) := by
  have hc : ∃ e, createXUpdate s (t.item 0) update = .error e := by
    unfold createXUpdate
    by_cases hcf : (t.item 0).createFails = true
    · exact ⟨"create failed", by simp [hcf]⟩
    · exact ⟨"P2002", by simp [hcf, hfound]⟩
  obtain ⟨e, he⟩ := hc
  unfold SyncTask.step
  rw [hph]
  simp only [he]

/-- C22: two overlapping sync cycles, each performing its store operations one at a time in
any interleaving, over a store that rejects an insert whose `post_id` is present: the store
never holds two posts of one `post_id`; an insert that finds its `post_id` stored by the
other cycle is rejected and caught per item, leaving the store and the cycle's list of new
updates as they were; and each cycle that is given its steps returns, rethrowing only if a
store operation of its own clean-up throws. -/
theorem overlapping_cycles_safe (envA envB : SyncEnv) (s : XStore) (schedule : List Bool)
    (h : DistinctPostIds s.rows) :
    DistinctPostIds (interleave schedule (SyncTask.start envA) (SyncTask.start envB) s).2.2.rows ∧
    (∀ (t : SyncTask) (st : XStore) (update : XPost) (r : XUpdate),
      t.phase = .insert update → findByPostId st update.post_id = some r →
      (t.step st).2 = st ∧ (t.step st).1.newUpdates = t.newUpdates ∧
      (t.step st).1.pending = t.pending ∧ (t.step st).1.notRaised) ∧
    ((SyncTask.start envA).remaining ≤ schedule.count true →
      (interleave schedule (SyncTask.start envA) (SyncTask.start envB) s).1.finished ∧
      (envA.findManyFails = false → envA.deleteManyFails = false →
        (interleave schedule (SyncTask.start envA) (SyncTask.start envB) s).1.notRaised)) ∧
    ((SyncTask.start envB).remaining ≤ schedule.count false →
      (interleave schedule (SyncTask.start envA) (SyncTask.start envB) s).2.1.finished ∧
      (envB.findManyFails = false → envB.deleteManyFails = false →
        (interleave schedule (SyncTask.start envA) (SyncTask.start envB) s).2.1.notRaised)) := by
  have hstart : ∀ env : SyncEnv, (SyncTask.start env).notRaised := by
    intro env e he
    simp [SyncTask.start] at he
  refine ⟨interleave_distinct schedule _ _ s h, ?_, ?_, ?_⟩
  · intro t st update r hph hfound
    rw [t.step_insert_rejected st update r hph hfound]
    refine ⟨rfl, rfl, rfl, ?_⟩
    intro e he
    simp at he
  · intro hsteps
    refine ⟨?_, fun hf hd => ?_⟩
    · apply SyncTask.finished_of_remaining
      have := interleave_remaining_first schedule (SyncTask.start envA) (SyncTask.start envB) s
      omega
    · exact (interleave_notRaised schedule (SyncTask.start envA) (SyncTask.start envB) s).1
        hf hd (hstart envA)
  · intro hsteps
    refine ⟨?_, fun hf hd => ?_⟩
    · apply SyncTask.finished_of_remaining
      have := interleave_remaining_second schedule (SyncTask.start envA) (SyncTask.start envB) s
      omega
    · exact (interleave_notRaised schedule (SyncTask.start envA) (SyncTask.start envB) s).2
        hf hd (hstart envB)

theorem overlapping_cycles_safe_witness :
    DistinctPostIds sampleStore.rows ∧
    DistinctPostIds (interleave [true, true, false, false, false, true, true, false]
      (SyncTask.start { sampleEnv with response := .ok shorterResponse })
      (SyncTask.start { sampleEnv with response := .ok shorterResponse }) sampleStore).2.2.rows ∧
    (interleave [true, true, false, false, false, true, true, false]
      (SyncTask.start { sampleEnv with response := .ok shorterResponse })
      (SyncTask.start { sampleEnv with response := .ok shorterResponse }) sampleStore).2.2.rows.map
        (fun r => r.post_id) = ["100", "101", "102"] ∧
    (interleave [true, true, false, false, false, true, true, false]
      (SyncTask.start { sampleEnv with response := .ok shorterResponse })
      (SyncTask.start { sampleEnv with response := .ok shorterResponse }) sampleStore).1.newUpdates = [] ∧
    (interleave [true, true, false, false, false, true, true, false]
      (SyncTask.start { sampleEnv with response := .ok shorterResponse })
      (SyncTask.start { sampleEnv with response := .ok shorterResponse }) sampleStore).2.1.newUpdates.map
        (fun r => r.post_id) = ["102"] :=
  ⟨by decide,
   (overlapping_cycles_safe { sampleEnv with response := .ok shorterResponse }
      { sampleEnv with response := .ok shorterResponse } sampleStore
      [true, true, false, false, false, true, true, false] (by decide)).1,
   by decide, by decide, by decide⟩

end Oluora
